import Mathlib

/-!
Verification of the Overture geographic-data import pipeline
(`import-overture.py`) against its natural-language specification.

The Python program is shallowly embedded: every function of the pipeline
that the claims touch is translated into an executable Lean definition.
Database tables become lists of rows, Python dictionaries become
association lists with dictionary semantics (later writes win), SQL
queries become filters/maps over those lists, and Python truthiness on
strings (`if s:`) is modelled explicitly (the empty string is falsy).
Numeric database ids are `Nat`; coordinates, which the program never
computes with (they are only checked against `None` and copied), are
embedded as `Int`.
-/

namespace Overture

/-! ## Dictionary and SQL primitives -/

/-- Lookup in an association list with Python-dict semantics: a later
binding for the same key overwrites an earlier one, so the lookup takes
the value of the last matching entry. -/
def dictGet {α : Type} (entries : List (String × α)) (k : String) : Option α :=
  (entries.reverse.find? (fun p => p.1 == k)).map (·.2)

/-- Lookup in an association list whose keys are known to be unique
(a Python dict literal, a DuckDB map): first match. -/
def alistGet {α : Type} (entries : List (String × α)) (k : String) : Option α :=
  (entries.find? (fun p => p.1 == k)).map (·.2)

/-- Python truthiness of an optional string: `None` and the empty string
are falsy. -/
def truthy : Option String → Bool
  | none => false
  | some s => !(s == "")

/-! ## `extract_region_code` (import-overture.py lines 343-351) -/

/-- Embedding of `extract_region_code(overture_id, region)`.
`if region:` is Python truthiness, so an empty-string region field takes
the fallback branch exactly like `None`.  The "XX-YY" normalization
fires when the region field is longer than 3 characters and has a
hyphen at (0-based) index 2. -/
def extract_region_code (overture_id : String) (region : Option String) : String :=
  match region with
  | some r =>
      if r = "" then
        if 8 ≤ overture_id.length then overture_id.take 8 else overture_id
      else if 3 < r.length ∧ r.toList.get? 2 = some '-' then
        r.drop 3
      else r
  | none =>
      if 8 ≤ overture_id.length then overture_id.take 8 else overture_id

/-! ## Display-name priority (the COALESCE in the four SQL queries,
import-overture.py lines 568-581, 666-677, 714-726, 806-827) -/

/-- Embedding of the SQL regex test `v ~ '^[A-Za-z]'`: the text starts
with an ASCII Latin letter. -/
def startsWithLatinLetter (s : String) : Bool :=
  match s.toList with
  | [] => false
  | c :: _ => (('A' ≤ c && c ≤ 'Z') || ('a' ≤ c && c ≤ 'z'))

/-- Embedding of the display-name COALESCE used by the country, region
(both passes) and locality queries:
`COALESCE(names.common['en'],
          (SELECT v FROM UNNEST(map_values(names.common)) t
             WHERE v ~ '^[A-Za-z]' LIMIT 1),
          names.primary)`.
`common` is the language-code-to-name map in map order (DuckDB map keys
are unique, so first match is the map extraction). -/
def chooseDisplayName (primary : String) (common : List (String × String)) : String :=
  match alistGet common "en" with
  | some n => n
  | none =>
      match (common.map Prod.snd).find? startsWithLatinLetter with
      | some v => v
      | none => primary

/-! ## ASCII name variant (import-overture.py line 870) -/

/-- Embedding of Python `s.encode('ascii', 'ignore').decode('ascii')`:
all characters outside the 7-bit ASCII range are dropped. -/
def pyAsciiIgnore (s : String) : String :=
  String.mk (s.toList.filter (fun c => c.toNat < 128))

/-- Embedding of
`name_ascii = name.encode(...).decode(...) or local_name.encode(...).decode(...) or name`:
Python `or` returns the first truthy (non-empty) operand, else the last
operand. -/
def localityNameAscii (name local_name : String) : String :=
  let a := pyAsciiIgnore name
  if a ≠ "" then a
  else
    let b := pyAsciiIgnore local_name
    if b ≠ "" then b else name

/-! ## The orphan-chain walk (import-overture.py lines 1139-1156) -/

/-- The loop guard `while current and max_depth > 0` tests Python
truthiness of `current` before anything else; normalizing an empty
string to `None` captures that. -/
def chainNorm : Option String → Option String
  | none => none
  | some s => if s = "" then none else some s

/-- The fixed hop bound `max_depth = 20` of the orphan-chain walk. -/
def ORPHAN_MAX_DEPTH : Nat := 20

/-- Embedding of the per-locality walk in `create_synthetic_regions`:

    current = parent_oid
    found_region = False
    max_depth = 20
    while current and max_depth > 0:
        if current in region_overture_ids: found_region = True; break
        current = overture_to_parent.get(current)
        max_depth -= 1

`regionIds` is the set of region overture ids, `parentOf` the combined
region-and-locality overture-id-to-parent dictionary (`.get` yields
`none` both for a missing key and for a stored null). -/
def hasRegionAncestor (regionIds : List String) (parentOf : String → Option String) :
    Option String → Nat → Bool
  | _, 0 => false
  | current, fuel + 1 =>
      match chainNorm current with
      | none => false
      | some s =>
          if s ∈ regionIds then true
          else hasRegionAncestor regionIds parentOf (parentOf s) fuel

/-- The sequence of ids the walk visits: position 0 is the locality's
raw parent id, position `i+1` the parent of position `i`; the sequence
ends (`none`) as soon as a null or empty parent appears. -/
def chainAt (parentOf : String → Option String) (start : Option String) : Nat → Option String
  | 0 => chainNorm start
  | n + 1 =>
      match chainAt parentOf start n with
      | none => none
      | some s => chainNorm (parentOf s)

/-! ### Walk lemmas -/

theorem hasRegionAncestor_zero (R : List String) (M : String → Option String)
    (c : Option String) : hasRegionAncestor R M c 0 = false := rfl

theorem hasRegionAncestor_succ_none (R : List String) (M : String → Option String)
    (c : Option String) (fuel : Nat) (h : chainNorm c = none) :
    hasRegionAncestor R M c (fuel + 1) = false := by
  conv_lhs => rw [hasRegionAncestor]
  rw [h]

theorem hasRegionAncestor_succ_some (R : List String) (M : String → Option String)
    (c : Option String) (fuel : Nat) {s : String} (h : chainNorm c = some s) :
    hasRegionAncestor R M c (fuel + 1) =
      if s ∈ R then true else hasRegionAncestor R M (M s) fuel := by
  conv_lhs => rw [hasRegionAncestor]
  rw [h]

theorem chainAt_zero (M : String → Option String) (p : Option String) :
    chainAt M p 0 = chainNorm p := rfl

theorem chainAt_none_succ (M : String → Option String) (p : Option String) (n : Nat)
    (h : chainAt M p n = none) : chainAt M p (n + 1) = none := by
  simp [chainAt, h]

theorem chainAt_of_norm_none {M : String → Option String} {p : Option String}
    (hp : chainNorm p = none) : ∀ i, chainAt M p i = none := by
  intro i
  induction i with
  | zero => rw [chainAt_zero, hp]
  | succ k ihk => exact chainAt_none_succ M p k ihk

theorem chainAt_shift {M : String → Option String} {p : Option String} {s : String}
    (hp : chainNorm p = some s) : ∀ j, chainAt M p (j + 1) = chainAt M (M s) j := by
  intro j
  induction j with
  | zero => simp [chainAt, hp]
  | succ k ihk => rw [chainAt, ihk]; rfl

/-- The walk succeeds within the given fuel iff the visited chain hits a
known region id at some index below the fuel. -/
theorem hasRegionAncestor_iff_chainAt (R : List String) (M : String → Option String) :
    ∀ (fuel : Nat) (p : Option String),
      hasRegionAncestor R M p fuel = true ↔
        ∃ i, i < fuel ∧ ∃ s, chainAt M p i = some s ∧ s ∈ R := by
  intro fuel
  induction fuel with
  | zero =>
      intro p
      simp [hasRegionAncestor]
  | succ f ih =>
      intro p
      cases hp : chainNorm p with
      | none =>
          rw [hasRegionAncestor_succ_none R M p f hp]
          constructor
          · intro h; exact absurd h (by simp)
          · rintro ⟨i, _, s, hs, _⟩
            rw [chainAt_of_norm_none hp i] at hs
            exact absurd hs (by simp)
      | some s =>
          rw [hasRegionAncestor_succ_some R M p f hp]
          by_cases hsR : s ∈ R
          · rw [if_pos hsR]
            constructor
            · intro _
              exact ⟨0, Nat.succ_pos f, s, by rw [chainAt_zero, hp], hsR⟩
            · intro _; rfl
          · rw [if_neg hsR, ih (M s)]
            constructor
            · rintro ⟨i, hi, t, ht, htR⟩
              refine ⟨i + 1, Nat.succ_lt_succ hi, t, ?_, htR⟩
              rw [chainAt_shift hp i]; exact ht
            · rintro ⟨i, hi, t, ht, htR⟩
              cases i with
              | zero =>
                  rw [chainAt_zero, hp] at ht
                  injection ht with hst
                  exact absurd (hst ▸ htR) hsR
              | succ k =>
                  rw [chainAt_shift hp k] at ht
                  exact ⟨k, Nat.lt_of_succ_lt_succ hi, t, ht, htR⟩

/-! ## Data model: database rows

Boundary/geometry columns are omitted: the claims under verification
never read them and the boundary loader only writes them. -/

structure Continent where
  id : Nat
  code : String
  name : String
deriving DecidableEq

structure Country where
  id : Nat
  code : String
  name : String
  continent_id : Nat
  source_id : Nat
  overture_id : Option String
deriving DecidableEq

structure RegionType where
  id : Nat
  code : String
  overture_subtype : Option String
deriving DecidableEq

structure LocalityType where
  id : Nat
  code : String
  overture_subtype : Option String
deriving DecidableEq

structure DataSource where
  id : Nat
  key : String
deriving DecidableEq

structure Region where
  id : Nat
  country_id : Nat
  continent_id : Option Nat
  parent_region_id : Option Nat
  region_type_id : Nat
  code : String
  name : String
  overture_id : Option String
  source_id : Nat
deriving DecidableEq

structure Locality where
  id : Nat
  locality_type_id : Nat
  name : String
  name_ascii : String
  timezone : String
  population : Option Int
  continent_id : Nat
  country_id : Nat
  source_id : Nat
  overture_id : Option String
  parent_overture_id : Option String
deriving DecidableEq

structure LocalityLocation where
  locality_id : Nat
  source_id : Nat
  latitude : Int
  longitude : Int
  accuracy_m : Nat
deriving DecidableEq

structure GeoName where
  entity_type : String
  entity_id : Nat
  language_code : String
  name : String
  name_type : String
  source_id : Nat
deriving DecidableEq

/-- The destination store.  The first four tables are auxiliary lookup
tables that the pipeline reads (and occasionally extends) but never
truncates; the remaining five are the geo tables truncated by
`reset_tables`. -/
structure DB where
  continents : List Continent
  region_types : List RegionType
  locality_types : List LocalityType
  data_sources : List DataSource
  countries : List Country
  regions : List Region
  localities : List Locality
  locality_locations : List LocalityLocation
  names : List GeoName
deriving DecidableEq

/-! ## Data model: source (parquet) rows -/

structure NameRule where
  language : Option String
  value : Option String
  variant : Option String
deriving DecidableEq

/-- The nested `names` struct of an Overture division row: a primary
native-language name, a language-code-to-common-name map (in map order)
and a list of rule-based variants. -/
structure NamesStruct where
  primary : Option String
  common : List (String × String)
  rules : List NameRule
deriving DecidableEq

/-- One row of the `division` parquet data, restricted to the columns
the import queries read.  `geometry` is `none` when the geometry column
is NULL; a present geometry carries optional `ST_X`/`ST_Y` results
(an empty point yields NULL coordinates).  The `class` column is named
`cls` because `class` is reserved in Lean. -/
structure DivisionRow where
  id : String
  subtype : String
  cls : Option String
  country : Option String
  region : Option String
  parent_division_id : Option String
  names : NamesStruct
  geometry : Option (Option Int × Option Int)
  population : Option Int
deriving DecidableEq

/-! ## Policy tables (module-level constants of import-overture.py) -/

/-- The country-code-to-continent policy table `COUNTRY_TO_CONTINENT`
(import-overture.py lines 75-123). -/
def COUNTRY_TO_CONTINENT : List (String × String) :=
  [("DZ", "AF"), ("AO", "AF"), ("BJ", "AF"), ("BW", "AF"), ("BF", "AF"), ("BI", "AF"),
   ("CM", "AF"), ("CV", "AF"), ("CF", "AF"), ("TD", "AF"), ("KM", "AF"), ("CG", "AF"),
   ("CD", "AF"), ("CI", "AF"), ("DJ", "AF"), ("EG", "AF"), ("GQ", "AF"), ("ER", "AF"),
   ("SZ", "AF"), ("ET", "AF"), ("GA", "AF"), ("GM", "AF"), ("GH", "AF"), ("GN", "AF"),
   ("GW", "AF"), ("KE", "AF"), ("LS", "AF"), ("LR", "AF"), ("LY", "AF"), ("MG", "AF"),
   ("MW", "AF"), ("ML", "AF"), ("MR", "AF"), ("MU", "AF"), ("MA", "AF"), ("MZ", "AF"),
   ("NA", "AF"), ("NE", "AF"), ("NG", "AF"), ("RW", "AF"), ("ST", "AF"), ("SN", "AF"),
   ("SC", "AF"), ("SL", "AF"), ("SO", "AF"), ("ZA", "AF"), ("SS", "AF"), ("SD", "AF"),
   ("TZ", "AF"), ("TG", "AF"), ("TN", "AF"), ("UG", "AF"), ("ZM", "AF"), ("ZW", "AF"),
   ("EH", "AF"), ("RE", "AF"), ("YT", "AF"), ("SH", "AF"), ("AQ", "AN"), ("BV", "AN"),
   ("GS", "AN"), ("HM", "AN"), ("TF", "AN"), ("AF", "AS"), ("AM", "AS"), ("AZ", "AS"),
   ("BH", "AS"), ("BD", "AS"), ("BT", "AS"), ("BN", "AS"), ("KH", "AS"), ("CN", "AS"),
   ("CY", "AS"), ("GE", "AS"), ("HK", "AS"), ("IN", "AS"), ("ID", "AS"), ("IR", "AS"),
   ("IQ", "AS"), ("IL", "AS"), ("JP", "AS"), ("JO", "AS"), ("KZ", "AS"), ("KW", "AS"),
   ("KG", "AS"), ("LA", "AS"), ("LB", "AS"), ("MO", "AS"), ("MY", "AS"), ("MV", "AS"),
   ("MN", "AS"), ("MM", "AS"), ("NP", "AS"), ("KP", "AS"), ("OM", "AS"), ("PK", "AS"),
   ("PS", "AS"), ("PH", "AS"), ("QA", "AS"), ("SA", "AS"), ("SG", "AS"), ("KR", "AS"),
   ("LK", "AS"), ("SY", "AS"), ("TW", "AS"), ("TJ", "AS"), ("TH", "AS"), ("TL", "AS"),
   ("TR", "AS"), ("TM", "AS"), ("AE", "AS"), ("UZ", "AS"), ("VN", "AS"), ("YE", "AS"),
   ("IO", "AS"), ("CC", "AS"), ("CX", "AS"), ("AL", "EU"), ("AD", "EU"), ("AT", "EU"),
   ("BY", "EU"), ("BE", "EU"), ("BA", "EU"), ("BG", "EU"), ("HR", "EU"), ("CZ", "EU"),
   ("DK", "EU"), ("EE", "EU"), ("FI", "EU"), ("FR", "EU"), ("DE", "EU"), ("GR", "EU"),
   ("HU", "EU"), ("IS", "EU"), ("IE", "EU"), ("IT", "EU"), ("XK", "EU"), ("LV", "EU"),
   ("LI", "EU"), ("LT", "EU"), ("LU", "EU"), ("MT", "EU"), ("MD", "EU"), ("MC", "EU"),
   ("ME", "EU"), ("NL", "EU"), ("MK", "EU"), ("NO", "EU"), ("PL", "EU"), ("PT", "EU"),
   ("RO", "EU"), ("RU", "EU"), ("SM", "EU"), ("RS", "EU"), ("SK", "EU"), ("SI", "EU"),
   ("ES", "EU"), ("SE", "EU"), ("CH", "EU"), ("UA", "EU"), ("GB", "EU"), ("VA", "EU"),
   ("AX", "EU"), ("FO", "EU"), ("GI", "EU"), ("GG", "EU"), ("IM", "EU"), ("JE", "EU"),
   ("SJ", "EU"), ("AG", "NA"), ("BS", "NA"), ("BB", "NA"), ("BZ", "NA"), ("CA", "NA"),
   ("CR", "NA"), ("CU", "NA"), ("DM", "NA"), ("DO", "NA"), ("SV", "NA"), ("GD", "NA"),
   ("GT", "NA"), ("HT", "NA"), ("HN", "NA"), ("JM", "NA"), ("MX", "NA"), ("NI", "NA"),
   ("PA", "NA"), ("KN", "NA"), ("LC", "NA"), ("VC", "NA"), ("TT", "NA"), ("US", "NA"),
   ("AI", "NA"), ("AW", "NA"), ("BM", "NA"), ("BQ", "NA"), ("VG", "NA"), ("KY", "NA"),
   ("CW", "NA"), ("GL", "NA"), ("GP", "NA"), ("MQ", "NA"), ("MS", "NA"), ("PR", "NA"),
   ("BL", "NA"), ("MF", "NA"), ("PM", "NA"), ("SX", "NA"), ("TC", "NA"), ("VI", "NA"),
   ("CP", "NA"), ("UM", "NA"), ("AU", "OC"), ("FJ", "OC"), ("KI", "OC"), ("MH", "OC"),
   ("FM", "OC"), ("NR", "OC"), ("NZ", "OC"), ("PW", "OC"), ("PG", "OC"), ("WS", "OC"),
   ("SB", "OC"), ("TO", "OC"), ("TV", "OC"), ("VU", "OC"), ("AS", "OC"), ("CK", "OC"),
   ("PF", "OC"), ("GU", "OC"), ("NC", "OC"), ("NF", "OC"), ("MP", "OC"), ("NU", "OC"),
   ("PN", "OC"), ("TK", "OC"), ("WF", "OC"), ("AR", "SA"), ("BO", "SA"), ("BR", "SA"),
   ("CL", "SA"), ("CO", "SA"), ("EC", "SA"), ("GY", "SA"), ("PY", "SA"), ("PE", "SA"),
   ("SR", "SA"), ("UY", "SA"), ("VE", "SA"), ("FK", "SA"), ("GF", "SA"), ("XJ", "EU"),
   ("XS", "NA"), ("XE", "NA"), ("XT", "AF"), ("XY", "AF"), ("XM", "AS"), ("XN", "AS"),
   ("XH", "AS"), ("XW", "AS"), ("XZ", "AS"), ("XG", "AS"), ("XL", "AS"), ("XQ", "AS"),
   ("XC", "AS"), ("XX", "AS"), ("XO", "AS"), ("XI", "AS"), ("XU", "AS"), ("XA", "AS"),
   ("XB", "AS"), ("XD", "AS"), ("XP", "AS"), ("XR", "AS")]

/-- The disputed-territory remap policy `COUNTRY_REMAPPING`
(import-overture.py lines 128-133); dict literal order is iteration order. -/
def COUNTRY_REMAPPING : List (String × String) :=
  [("XW", "IL"), ("XH", "IL"), ("XZ", "IL")]

/-- The synthetic-region policy `SYNTHETIC_REGION_MAPPING`
(import-overture.py lines 138-245): country code to
(region code, English name, target country code). -/
def SYNTHETIC_REGION_MAPPING : List (String × String × String × String) :=
  [("XH", "IL-GOLAN", "Golan Heights", "IL"),
   ("XW", "IL-JUDEA-SAMARIA", "Judea and Samaria", "IL"),
   ("XZ", "IL-JERUSALEM-DISTRICT", "Jerusalem District", "IL"),
   ("AW", "DUTCH-CARIBBEAN", "Dutch Caribbean Territory", "AW"),
   ("BQ", "DUTCH-CARIBBEAN", "Dutch Caribbean Territory", "BQ"),
   ("CW", "DUTCH-CARIBBEAN", "Dutch Caribbean Territory", "CW"),
   ("SX", "DUTCH-CARIBBEAN", "Dutch Caribbean Territory", "SX"),
   ("BL", "FRENCH-OVERSEAS", "French Overseas Territory", "BL"),
   ("GP", "FRENCH-OVERSEAS", "French Overseas Territory", "GP"),
   ("MF", "FRENCH-OVERSEAS", "French Overseas Territory", "MF"),
   ("PF", "FRENCH-OVERSEAS", "French Overseas Territory", "PF"),
   ("PM", "FRENCH-OVERSEAS", "French Overseas Territory", "PM"),
   ("RE", "FRENCH-OVERSEAS", "French Overseas Territory", "RE"),
   ("AI", "BRITISH-OVERSEAS", "British Overseas Territory", "AI"),
   ("FK", "BRITISH-OVERSEAS", "British Overseas Territory", "FK"),
   ("GI", "BRITISH-OVERSEAS", "British Overseas Territory", "GI"),
   ("IO", "BRITISH-OVERSEAS", "British Overseas Territory", "IO"),
   ("NF", "BRITISH-OVERSEAS", "British Overseas Territory", "NF"),
   ("PN", "BRITISH-OVERSEAS", "British Overseas Territory", "PN"),
   ("AQ", "RESEARCH", "Research Stations", "AQ"),
   ("SJ", "RESEARCH", "Research Stations", "SJ"),
   ("TF", "RESEARCH", "Research Stations", "TF"),
   ("MO", "PACIFIC-TERRITORY", "Pacific Island Territory", "MO"),
   ("NU", "PACIFIC-TERRITORY", "Pacific Island Territory", "NU"),
   ("TK", "PACIFIC-TERRITORY", "Pacific Island Territory", "TK"),
   ("XE", "DISPUTED-OTHER", "Disputed Territory", "XE"),
   ("XJ", "DISPUTED-OTHER", "Disputed Territory", "XJ"),
   ("XS", "DISPUTED-OTHER", "Disputed Territory", "XS"),
   ("XY", "DISPUTED-OTHER", "Disputed Territory", "XY"),
   ("XC", "DISPUTED-CHINA", "Chinese-Claimed Territory", "XC"),
   ("XL", "DISPUTED-CHINA", "Chinese-Claimed Territory", "XL"),
   ("XQ", "DISPUTED-CHINA", "Chinese-Claimed Territory", "XQ"),
   ("XX", "DISPUTED-CHINA", "Chinese-Claimed Territory", "XX"),
   ("XI", "DISPUTED-RUSSIAN", "Russian-Administered Islands", "XI"),
   ("XO", "DISPUTED-RUSSIAN", "Russian-Administered Islands", "XO"),
   ("GL", "DANISH-OVERSEAS", "Danish Realm Territory", "GL"),
   ("GU", "US-TERRITORY", "US Territory", "GU"),
   ("SG", "SG-GEN", "Singapore", "SG"),
   ("VA", "VA-GEN", "Vatican City", "VA"),
   ("SC", "SC-GEN", "Seychelles", "SC"),
   ("ST", "ST-GEN", "Sao Tome and Principe", "ST"),
   ("MU", "MU-GEN", "Mauritius", "MU"),
   ("HM", "HM-GEN", "Heard Island and McDonald Islands", "HM"),
   ("MM", "MM-GEN", "Myanmar", "MM"),
   ("BZ", "BZ-GEN", "Belize", "BZ"),
   ("FR", "FR-GEN", "France", "FR"),
   ("TZ", "TZ-GEN", "Tanzania", "TZ"),
   ("EC", "EC-GEN", "Ecuador", "EC"),
   ("IE", "IE-GEN", "Ireland", "IE"),
   ("IN", "IN-GEN", "India", "IN"),
   ("CY", "CY-GEN", "Cyprus", "CY"),
   ("MG", "MG-GEN", "Madagascar", "MG"),
   ("MX", "MX-GEN", "Mexico", "MX"),
   ("ES", "ES-GEN", "Spain", "ES"),
   ("CO", "CO-GEN", "Colombia", "CO"),
   ("OM", "OM-GEN", "Oman", "OM"),
   ("IT", "IT-GEN", "Italy", "IT"),
   ("LR", "LR-GEN", "Liberia", "LR"),
   ("SA", "SA-GEN", "Saudi Arabia", "SA"),
   ("PE", "PE-GEN", "Peru", "PE"),
   ("JM", "JM-GEN", "Jamaica", "JM"),
   ("XT", "XT-GEN", "Bir Tawil", "XT"),
   ("TW", "TW-GEN", "Taiwan", "TW"),
   ("TL", "TL-GEN", "Timor-Leste", "TL"),
   ("MZ", "MZ-GEN", "Mozambique", "MZ"),
   ("PY", "PY-GEN", "Paraguay", "PY"),
   ("CP", "CP-GEN", "Clipperton Island", "CP"),
   ("MA", "MA-GEN", "Morocco", "MA"),
   ("BB", "BB-GEN", "Barbados", "BB"),
   ("DO", "DO-GEN", "Dominican Republic", "DO"),
   ("GY", "GY-GEN", "Guyana", "GY"),
   ("MR", "MR-GEN", "Mauritania", "MR"),
   ("SY", "SY-GEN", "Syria", "SY"),
   ("LB", "LB-GEN", "Lebanon", "LB"),
   ("EG", "EG-GEN", "Egypt", "EG"),
   ("DZ", "DZ-GEN", "Algeria", "DZ"),
   ("DK", "DK-GEN", "Denmark", "DK"),
   ("MY", "MY-GEN", "Malaysia", "MY"),
   ("ZA", "ZA-GEN", "South Africa", "ZA")]

/-! ## Identifier caches -/

/-- One value of the country cache built at the end of
`import_countries` (lines 634-638): code maps to surrogate id and
continent id. -/
structure CountryInfo where
  id : Nat
  continent_id : Nat
deriving DecidableEq

abbrev CountryCache := List (String × CountryInfo)

/-- `country_cache` as built from the `geo_countries` table:
`SELECT code, id, continent_id FROM geo_countries` poured into a dict
(last row with a code wins, per dict semantics of `dictGet`). -/
def buildCountryCache (countries : List Country) : CountryCache :=
  countries.map (fun c => (c.code, { id := c.id, continent_id := c.continent_id }))

/-- The region-type cache (lines 655-661): every row binds its `code`,
and additionally its `overture_subtype` when present, to its id. -/
def regionTypeEntries (ts : List RegionType) : List (String × Nat) :=
  ts.flatMap (fun t =>
    (t.code, t.id) ::
      (match t.overture_subtype with
       | some s => [(s, t.id)]
       | none => []))

/-- The locality-type cache (lines 788-794), built the same way. -/
def localityTypeEntries (ts : List LocalityType) : List (String × Nat) :=
  ts.flatMap (fun t =>
    (t.code, t.id) ::
      (match t.overture_subtype with
       | some s => [(s, t.id)]
       | none => []))

/-! ## Step 5: import localities (import-overture.py lines 776-929) -/

/-- The `subtype` filter of the locality query (line 823). -/
def localitySubtypes : List String := ["locality", "neighborhood", "macrohood", "microhood"]

/-- One row of the locality SELECT after its WHERE clause. -/
structure LocalityQueryRow where
  overture_id : String
  parent_division_id : Option String
  country : String
  subtype : String
  type_lookup : String
  name : String
  local_name : String
  lng : Option Int
  lat : Option Int
  population : Option Int
deriving DecidableEq

/-- The locality query (lines 806-827): filter on subtype, non-null
primary name, non-null country and non-null geometry; project the
COALESCEd display name, `COALESCE(class, subtype)` as the type lookup
key, and `ST_X`/`ST_Y` of the geometry. -/
def localityQuery (rows : List DivisionRow) : List LocalityQueryRow :=
  rows.filterMap (fun p =>
    match p.names.primary, p.country, p.geometry with
    | some prim, some ctry, some g =>
        if p.subtype ∈ localitySubtypes then
          some { overture_id := p.id
                 parent_division_id := p.parent_division_id
                 country := ctry
                 subtype := p.subtype
                 type_lookup := p.cls.getD p.subtype
                 name := chooseDisplayName prim p.names.common
                 local_name := prim
                 lng := g.1
                 lat := g.2
                 population := p.population }
        else none
    | _, _, _ => none)

/-- The two in-loop guards of `import_localities` (lines 856-862): the
row is kept only when the country code is truthy and cached and both
coordinates are present.  A row failing either guard increments the
skipped counter and is not inserted. -/
def localityRowKept (cache : CountryCache) (r : LocalityQueryRow) : Prop :=
  ¬(r.country = "" ∨ (dictGet cache r.country).isNone) ∧ ¬(r.lat = none ∨ r.lng = none)

instance (cache : CountryCache) (r : LocalityQueryRow) :
    Decidable (localityRowKept cache r) := by
  unfold localityRowKept; infer_instance

/-- The row written by `copy.write_row` (lines 872-883) for a kept query
row.  The guards make the `getD` defaults dead: a kept row always has a
cached country.  `id` is the serial key the database assigns on COPY. -/
def mkLocality (ltE : List (String × Nat)) (fallback_type : Nat) (cache : CountryCache)
    (source_id : Nat) (id : Nat) (r : LocalityQueryRow) : Locality :=
  let info := (dictGet cache r.country).getD { id := 0, continent_id := 0 }
  { id := id
    locality_type_id := (dictGet ltE r.type_lookup).getD fallback_type
    name := r.name
    name_ascii := localityNameAscii r.name r.local_name
    timezone := "UTC"
    population := r.population
    continent_id := info.continent_id
    country_id := info.id
    source_id := source_id
    overture_id := some r.overture_id
    parent_overture_id := r.parent_division_id }

/-- The localities inserted by the COPY loop, with serial ids starting
just above `base` (the table is truncated with identity restart before
this phase, so serial ids are dense positions). -/
def insertedLocalities (ltE : List (String × Nat)) (fallback_type : Nat)
    (cache : CountryCache) (source_id : Nat) (base : Nat) :
    List LocalityQueryRow → List Locality
  | [] => []
  | r :: rs =>
      mkLocality ltE fallback_type cache source_id (base + 1) r ::
        insertedLocalities ltE fallback_type cache source_id (base + 1) rs

/-- Coordinate data collected for kept rows (line 885). -/
def coordinateData (rows : List LocalityQueryRow) : List (String × Int × Int) :=
  rows.map (fun r => (r.overture_id, r.lat.getD 0, r.lng.getD 0))

/-- Result of `import_localities`: the updated store plus the running
skipped count that the function reports. -/
structure LocalitiesOutcome where
  db : DB
  skipped : Nat
deriving DecidableEq

/-- Embedding of `import_localities` (lines 776-929).  The streaming
batches have no semantic effect on the final table contents, so the
loop is a single pass: rows failing a guard are skipped and counted,
kept rows are written with `mkLocality` (ids are COPY order positions);
afterwards the collected coordinates are resolved through the freshly
built overture-id-to-locality-id dict and written to
`geo_locality_locations` with `accuracy_m = 100`. -/
def import_localities (db : DB) (rows : List DivisionRow) (source_id : Nat)
    (cache : CountryCache) : LocalitiesOutcome :=
  let q := localityQuery rows
  let ltE := localityTypeEntries db.locality_types
  let fallback_type := (dictGet ltE "locality").getD 1
  let kept := q.filter (fun r => decide (localityRowKept cache r))
  let newLocs := insertedLocalities ltE fallback_type cache source_id db.localities.length kept
  let skipped := (q.filter (fun r => !(decide (localityRowKept cache r)))).length
  let localities1 := db.localities ++ newLocs
  let lidCache := localities1.filterMap (fun l => l.overture_id.map (fun o => (o, l.id)))
  let locRows := (coordinateData kept).filterMap (fun t =>
    (dictGet lidCache t.1).map (fun lid =>
      ({ locality_id := lid, source_id := source_id, latitude := t.2.1,
         longitude := t.2.2, accuracy_m := 100 } : LocalityLocation)))
  let db1 : DB := { db with
    localities := localities1,
    locality_locations := db.locality_locations ++ locRows }
  { db := db1, skipped := skipped }

/-! ## Claim C8: region-code derivation -/

/-- C8 (amended): `extract_region_code` returns the suffix after the
hyphen for a present, non-empty region field of "COUNTRY-CODE" shape
(length above 3, hyphen at index 2); returns the region field unchanged
for any other present non-empty region field; and falls back to the
first 8 characters of the external id (the whole id when shorter) when
the region field is absent or empty.  The amendment relative to the
frozen claim: a present but *empty* region field is falsy in Python
(`if region:`), so it takes the fallback branch instead of being
returned unchanged. -/
theorem extract_region_code_cases (oid : String) (r : String) :
    (8 ≤ oid.length → extract_region_code oid none = oid.take 8)
    ∧ (oid.length < 8 → extract_region_code oid none = oid)
    ∧ (r = "" → extract_region_code oid (some r) = extract_region_code oid none)
    ∧ (r ≠ "" → 3 < r.length → r.toList.get? 2 = some '-' →
        extract_region_code oid (some r) = r.drop 3)
    ∧ (r ≠ "" → ¬(3 < r.length ∧ r.toList.get? 2 = some '-') →
        extract_region_code oid (some r) = r) := by
  refine ⟨?_, ?_, ?_, ?_, ?_⟩
  · intro h
    simp only [extract_region_code, if_pos h]
  · intro h
    simp only [extract_region_code, if_neg (by omega : ¬ 8 ≤ oid.length)]
  · intro h
    simp only [extract_region_code, if_pos h]
  · intro h1 h2 h3
    simp only [extract_region_code, if_neg h1, if_pos (And.intro h2 h3)]
  · intro h1 h2
    simp only [extract_region_code, if_neg h1, if_neg h2]

theorem extract_region_code_cases_witness :
    (8 ≤ ("1234567890" : String).length ∧ extract_region_code "1234567890" none = "12345678")
    ∧ (("US-CA" : String) ≠ "" ∧ extract_region_code "id7" (some "US-CA") = "CA")
    ∧ (("TX" : String) ≠ "" ∧ extract_region_code "id7" (some "TX") = "TX") := by
  refine ⟨⟨by decide, ?_⟩, ⟨by decide, ?_⟩, ⟨by decide, ?_⟩⟩
  · have h := (extract_region_code_cases "1234567890" "").1 (by decide)
    rw [h]; decide
  · have h := (extract_region_code_cases "id7" "US-CA").2.2.2.1 (by decide) (by decide)
      (by decide)
    rw [h]; decide
  · exact (extract_region_code_cases "id7" "TX").2.2.2.2 (by decide) (by decide)

/-- C8 counterexample: the frozen claim says a present region field that
is not of "COUNTRY-CODE" shape is returned unchanged; but for a present
*empty* region field the code returns the external-id fallback
("abcdefgh"), not the empty region field. -/
theorem extract_region_code_empty_region_cex :
    ¬(extract_region_code "abcdefghij" (some "") = "") := by decide

/-! ## Claim C6: display-name priority -/

/-- C6: the display-name COALESCE chooses the explicit English
common-language name when present; otherwise the first common-language
name whose text starts with an ASCII Latin letter, when one exists
(the chosen value is indeed a common name and starts with a Latin
letter); otherwise the primary (native-language) name. -/
theorem display_name_priority (primary : String) (common : List (String × String)) :
    (∀ n, alistGet common "en" = some n → chooseDisplayName primary common = n)
    ∧ (alistGet common "en" = none →
        ∀ v, (common.map Prod.snd).find? startsWithLatinLetter = some v →
          chooseDisplayName primary common = v ∧ startsWithLatinLetter v = true ∧
            v ∈ common.map Prod.snd)
    ∧ (alistGet common "en" = none →
        (common.map Prod.snd).find? startsWithLatinLetter = none →
          chooseDisplayName primary common = primary) := by
  refine ⟨?_, ?_, ?_⟩
  · intro n h
    simp only [chooseDisplayName, h]
  · intro he v hv
    refine ⟨?_, List.find?_some hv, List.mem_of_find?_eq_some hv⟩
    simp only [chooseDisplayName, he, hv]
  · intro he hv
    simp only [chooseDisplayName, he, hv]

theorem display_name_priority_witness :
    (alistGet [("fr", "Londres"), ("en", "London")] "en" = some "London" ∧
      chooseDisplayName "prim" [("fr", "Londres"), ("en", "London")] = "London")
    ∧ (alistGet [("ru", "Q"), ("de", "Wien")] "en" = none ∧
      chooseDisplayName "prim" [("ru", "Q"), ("de", "Wien")] = "Q")
    ∧ (alistGet ([] : List (String × String)) "en" = none ∧
      chooseDisplayName "prim" [] = "prim") := by
  refine ⟨⟨by decide, ?_⟩, ⟨by decide, ?_⟩, ⟨by decide, ?_⟩⟩
  · exact (display_name_priority "prim" [("fr", "Londres"), ("en", "London")]).1
      "London" (by decide)
  · exact ((display_name_priority "prim" [("ru", "Q"), ("de", "Wien")]).2.1
      (by decide) "Q" (by decide)).1
  · exact (display_name_priority "prim" []).2.2 (by decide) (by decide)

/-! ## Claim C10: ASCII name variant -/

/-- C10: the stored `name_ascii` is the display name stripped to ASCII
when that is non-empty, else the primary (local) name stripped to ASCII
when that is non-empty, else the original display name; consequently it
is never empty when the display name is non-empty. -/
theorem name_ascii_fallback (name local_name : String) :
    (pyAsciiIgnore name ≠ "" → localityNameAscii name local_name = pyAsciiIgnore name)
    ∧ (pyAsciiIgnore name = "" → pyAsciiIgnore local_name ≠ "" →
        localityNameAscii name local_name = pyAsciiIgnore local_name)
    ∧ (pyAsciiIgnore name = "" → pyAsciiIgnore local_name = "" →
        localityNameAscii name local_name = name)
    ∧ (name ≠ "" → localityNameAscii name local_name ≠ "") := by
  refine ⟨?_, ?_, ?_, ?_⟩
  · intro h
    simp only [localityNameAscii, if_pos h]
  · intro h1 h2
    simp only [localityNameAscii, h1]
    rw [if_neg (by simp), if_pos h2]
  · intro h1 h2
    simp only [localityNameAscii, h1]
    rw [if_neg (by simp), if_neg (by simp [h2])]
  · intro hn
    by_cases h1 : pyAsciiIgnore name = ""
    · by_cases h2 : pyAsciiIgnore local_name = ""
      · simp only [localityNameAscii, h1]
        rw [if_neg (by simp), if_neg (by simp [h2])]
        exact hn
      · simp only [localityNameAscii, h1]
        rw [if_neg (by simp), if_pos h2]
        exact h2
    · simp only [localityNameAscii, if_pos h1]
      exact h1

theorem name_ascii_fallback_witness :
    (pyAsciiIgnore "São Paulo" ≠ "" ∧ localityNameAscii "São Paulo" "x" = "So Paulo")
    ∧ (("ים" : String) ≠ "" ∧ localityNameAscii "ים" "ע" ≠ "") := by
  refine ⟨⟨by decide, ?_⟩, ⟨by decide, ?_⟩⟩
  · have h := (name_ascii_fallback "São Paulo" "x").1 (by decide)
    rw [h]; decide
  · exact (name_ascii_fallback "ים" "ע").2.2.2 (by decide)

/-! ## Claim C2: the orphan classifier walk -/

/-- C2: the per-locality walk of `create_synthetic_regions` is total
(it is a function with fuel `ORPHAN_MAX_DEPTH = 20`), classifies a
locality anchored iff some id on the visited chain at an index below 20
is a known region id, classifies it orphan when the chain reaches a
null/absent parent before any hit, and classifies it orphan when the
hop bound is exhausted without a hit. -/
theorem orphan_walk_classification (R : List String) (M : String → Option String)
    (p : Option String) :
    (hasRegionAncestor R M p ORPHAN_MAX_DEPTH = true ↔
      ∃ i, i < ORPHAN_MAX_DEPTH ∧ ∃ s, chainAt M p i = some s ∧ s ∈ R)
    ∧ (∀ k, chainAt M p k = none →
        (∀ i, i < k → ∀ s, chainAt M p i = some s → s ∉ R) →
        hasRegionAncestor R M p ORPHAN_MAX_DEPTH = false)
    ∧ ((∀ i, i < ORPHAN_MAX_DEPTH → ∀ s, chainAt M p i = some s → s ∉ R) →
        hasRegionAncestor R M p ORPHAN_MAX_DEPTH = false) := by
  have hiff := hasRegionAncestor_iff_chainAt R M ORPHAN_MAX_DEPTH p
  refine ⟨hiff, ?_, ?_⟩
  · intro k hk hmiss
    rw [Bool.eq_false_iff]
    intro htrue
    obtain ⟨i, hi, s, hs, hsR⟩ := hiff.mp htrue
    rcases Nat.lt_or_ge i k with hik | hik
    · exact hmiss i hik s hs hsR
    · have : chainAt M p i = none := by
        have step : ∀ d, chainAt M p (k + d) = none := by
          intro d
          induction d with
          | zero => exact hk
          | succ e ihe => exact chainAt_none_succ M p (k + e) ihe
        have := step (i - k)
        rwa [Nat.add_sub_cancel' hik] at this
      rw [this] at hs
      exact Option.noConfusion hs
  · intro hmiss
    rw [Bool.eq_false_iff]
    intro htrue
    obtain ⟨i, hi, s, hs, hsR⟩ := hiff.mp htrue
    exact hmiss i hi s hs hsR

theorem orphan_walk_classification_witness :
    (chainAt (fun _ => none) (some "x") 1 = none
      ∧ (∀ i, i < 1 → ∀ s, chainAt (fun _ => none) (some "x") i = some s → s ∉ ["r"])
      ∧ hasRegionAncestor ["r"] (fun _ => none) (some "x") ORPHAN_MAX_DEPTH = false)
    ∧ hasRegionAncestor ["r"] (fun s => if s = "a" then some "r" else none)
        (some "a") ORPHAN_MAX_DEPTH = true := by
  constructor
  · refine ⟨by decide, ?_, ?_⟩
    · intro i hi s hs
      interval_cases i
      · simp [chainAt, chainNorm] at hs
        simp [← hs]
    · exact (orphan_walk_classification ["r"] (fun _ => none) (some "x")).2.1
        1 (by decide) (by
          intro i hi s hs
          interval_cases i
          · simp [chainAt, chainNorm] at hs
            simp [← hs])
  · exact (orphan_walk_classification ["r"] (fun s => if s = "a" then some "r" else none)
      (some "a")).1.mpr ⟨1, by decide, "r", by decide, by decide⟩

/-! ## Claim C7: locality coordinate guards -/

theorem insertedLocalities_length (ltE : List (String × Nat)) (ft : Nat)
    (cache : CountryCache) (sid : Nat) :
    ∀ (base : Nat) (rows : List LocalityQueryRow),
      (insertedLocalities ltE ft cache sid base rows).length = rows.length := by
  intro base rows
  induction rows generalizing base with
  | nil => rfl
  | cons r rs ih => simp [insertedLocalities, ih]

theorem insertedLocalities_mem (ltE : List (String × Nat)) (ft : Nat)
    (cache : CountryCache) (sid : Nat) :
    ∀ (base : Nat) (rows : List LocalityQueryRow) (l : Locality),
      l ∈ insertedLocalities ltE ft cache sid base rows →
      ∃ r ∈ rows, ∃ idv, l = mkLocality ltE ft cache sid idv r := by
  intro base rows
  induction rows generalizing base with
  | nil => intro l h; exact absurd h (List.not_mem_nil l)
  | cons r rs ih =>
      intro l h
      rcases List.mem_cons.mp h with h1 | h2
      · exact ⟨r, List.mem_cons_self r rs, base + 1, h1⟩
      · obtain ⟨r0, hr0, idv, he⟩ := ih (base + 1) l h2
        exact ⟨r0, List.mem_cons_of_mem r hr0, idv, he⟩

/-- C7 (amended): during locality import every query row whose latitude
or longitude is missing (or whose country code is empty/unknown) fails
the keep-guard, is not inserted, and contributes to the skipped count
(skipped plus inserted equals total); every inserted row stems from a
kept query row, which necessarily has both coordinates present.  The
amendment relative to the frozen claim: the code performs no range
check, so an out-of-range coordinate is *not* excluded (see the
counterexample); only missing coordinates are. -/
theorem import_localities_coord_guard (db : DB) (rows : List DivisionRow)
    (source_id : Nat) (cache : CountryCache) :
    ∃ newLocs : List Locality,
      (import_localities db rows source_id cache).db.localities = db.localities ++ newLocs
      ∧ newLocs.length
          = ((localityQuery rows).filter (fun r => decide (localityRowKept cache r))).length
      ∧ (∀ l ∈ newLocs, ∃ r ∈ localityQuery rows, localityRowKept cache r
          ∧ l.overture_id = some r.overture_id ∧ r.lat.isSome ∧ r.lng.isSome)
      ∧ (import_localities db rows source_id cache).skipped
          + ((localityQuery rows).filter (fun r => decide (localityRowKept cache r))).length
          = (localityQuery rows).length
      ∧ (∀ r ∈ localityQuery rows, (r.lat = none ∨ r.lng = none) →
          ¬ localityRowKept cache r) := by
  refine ⟨insertedLocalities (localityTypeEntries db.locality_types)
      ((dictGet (localityTypeEntries db.locality_types) "locality").getD 1) cache source_id
      db.localities.length
      ((localityQuery rows).filter (fun r => decide (localityRowKept cache r))),
    rfl, insertedLocalities_length _ _ _ _ _ _, ?_, ?_, ?_⟩
  · intro l hl
    obtain ⟨r, hr, idv, he⟩ := insertedLocalities_mem _ _ _ _ _ _ l hl
    have hq := List.mem_filter.mp hr
    have hkept : localityRowKept cache r := of_decide_eq_true hq.2
    refine ⟨r, hq.1, hkept, ?_, ?_, ?_⟩
    · rw [he]; rfl
    · rcases hkept with ⟨-, h2⟩
      cases h : r.lat with
      | none => exact absurd (Or.inl h) h2
      | some v => rfl
    · rcases hkept with ⟨-, h2⟩
      cases h : r.lng with
      | none => exact absurd (Or.inr h) h2
      | some v => rfl
  · have h := List.length_eq_length_filter_add
      (l := localityQuery rows) (fun r => decide (localityRowKept cache r))
    have hs : (import_localities db rows source_id cache).skipped
        = ((localityQuery rows).filter
            (fun r => !(decide (localityRowKept cache r)))).length := rfl
    rw [hs]
    omega
  · intro r _ hcoord hkept
    exact hkept.2 hcoord

/-- Witness data for C7: one good row and one row whose geometry is an
empty point (NULL latitude). -/
def c7GoodRow : DivisionRow :=
  { id := "locA", subtype := "locality", cls := none, country := some "QQ",
    region := none, parent_division_id := some "parentA",
    names := { primary := some "Alpha", common := [], rules := [] },
    geometry := some (some 10, some 20), population := some 5 }

def c7NoLatRow : DivisionRow :=
  { id := "locB", subtype := "locality", cls := none, country := some "QQ",
    region := none, parent_division_id := none,
    names := { primary := some "Beta", common := [], rules := [] },
    geometry := some (some 5, none), population := none }

def c7Cache : CountryCache := [("QQ", { id := 1, continent_id := 2 })]

def c7Db : DB :=
  { continents := [], region_types := [], locality_types := [], data_sources := [],
    countries := [], regions := [], localities := [], locality_locations := [], names := [] }

theorem import_localities_coord_guard_witness :
    ((import_localities c7Db [c7GoodRow, c7NoLatRow] 1 c7Cache).skipped
        + ((localityQuery [c7GoodRow, c7NoLatRow]).filter
            (fun r => decide (localityRowKept c7Cache r))).length
        = (localityQuery [c7GoodRow, c7NoLatRow]).length)
    ∧ (∀ r ∈ localityQuery [c7GoodRow, c7NoLatRow], (r.lat = none ∨ r.lng = none) →
        ¬ localityRowKept c7Cache r)
    ∧ (import_localities c7Db [c7GoodRow, c7NoLatRow] 1 c7Cache).skipped = 1
    ∧ (import_localities c7Db [c7GoodRow, c7NoLatRow] 1 c7Cache).db.localities.length
        = 1 := by
  obtain ⟨nl, h1, h2, h3, h4, h5⟩ :=
    import_localities_coord_guard c7Db [c7GoodRow, c7NoLatRow] 1 c7Cache
  exact ⟨h4, h5, by decide, by decide⟩

/-- C7 counterexample input: a record whose latitude is 999 (outside
the valid range, which ends at 90). -/
def c7Range999Row : DivisionRow :=
  { id := "locC", subtype := "locality", cls := none, country := some "QQ",
    region := none, parent_division_id := none,
    names := { primary := some "Gamma", common := [], rules := [] },
    geometry := some (some 10, some 999), population := none }

/-- C7 counterexample: the record with latitude 999 is *not* excluded:
it is imported, the skipped count stays 0, and the garbage coordinate
is stored in the locations table.  This falsifies the out-of-range half
of the frozen claim. -/
theorem import_localities_out_of_range_cex :
    (import_localities c7Db [c7Range999Row] 1 c7Cache).skipped = 0
    ∧ (import_localities c7Db [c7Range999Row] 1 c7Cache).db.localities.length = 1
    ∧ (import_localities c7Db [c7Range999Row] 1 c7Cache).db.locality_locations.map
        (fun x => x.latitude) = [999]
    ∧ ¬(-90 ≤ (999 : Int) ∧ (999 : Int) ≤ 90) := by
  refine ⟨by decide, by decide, by decide, by decide⟩

/-! ## Step 5d: manual Jerusalem override (import-overture.py lines 1245-1292) -/

/-- SQL equality on nullable values: `a = b` is true only when both are
non-null and equal (a NULL on either side never matches). -/
def sqlEqOpt (a b : Option String) : Bool :=
  match a, b with
  | some x, some y => x == y
  | _, _ => false

/-- The WHERE clause of the override UPDATE (lines 1280-1286): raw
parent equals the Judea-and-Samaria region overture id, the name is
exactly one of the two enumerated names, and the country is the one
found by the scalar subquery on code IL (no IL row means a NULL
comparison, which never matches). -/
def jerusalemMatch (jsOid : Option String) (ilId : Option Nat) (l : Locality) : Bool :=
  sqlEqOpt l.parent_overture_id jsOid
    && (l.name == "Jerusalem" || l.name == "East Jerusalem")
    && (match ilId with
        | some i => l.country_id == i
        | none => false)

/-- Embedding of `override_jerusalem_region`: find the
IL-JERUSALEM-DISTRICT and IL-JUDEA-SAMARIA regions by code (first
match, as `fetchone`); if either is absent the step is skipped;
otherwise rewrite `parent_overture_id` of exactly the matching
localities to the Jerusalem-District overture id.  The Python function
also receives the country cache but never reads it. -/
def override_jerusalem_region (db : DB) : DB :=
  match db.regions.find? (fun r => r.code == "IL-JERUSALEM-DISTRICT") with
  | none => db
  | some jr =>
      match db.regions.find? (fun r => r.code == "IL-JUDEA-SAMARIA") with
      | none => db
      | some js =>
          let ilId := (db.countries.find? (fun c => c.code == "IL")).map (fun c => c.id)
          { db with
            localities := db.localities.map (fun l =>
              if jerusalemMatch js.overture_id ilId l then
                { l with parent_overture_id := jr.overture_id }
              else l) }

/-! ## Claim C9: the override is surgical -/

/-- C9: the Jerusalem override is a no-op when either named synthetic
region is missing; otherwise it leaves countries, regions, names and
locations untouched and rewrites exactly the raw parent id of
localities that match all three conditions (enumerated name, country
IL, current raw parent equal to the Judea-and-Samaria region id), every
other locality and every other field being preserved. -/
theorem override_jerusalem_scope (db : DB) :
    (db.regions.find? (fun r => r.code == "IL-JERUSALEM-DISTRICT") = none →
        override_jerusalem_region db = db)
    ∧ (db.regions.find? (fun r => r.code == "IL-JUDEA-SAMARIA") = none →
        override_jerusalem_region db = db)
    ∧ (∀ jsOid ilId l, jerusalemMatch jsOid ilId l = true ↔
        ((l.name = "Jerusalem" ∨ l.name = "East Jerusalem")
          ∧ (∃ i, ilId = some i ∧ l.country_id = i)
          ∧ (∃ s, jsOid = some s ∧ l.parent_overture_id = some s)))
    ∧ (∀ jr js, db.regions.find? (fun r => r.code == "IL-JERUSALEM-DISTRICT") = some jr →
        db.regions.find? (fun r => r.code == "IL-JUDEA-SAMARIA") = some js →
        (override_jerusalem_region db).regions = db.regions
        ∧ (override_jerusalem_region db).countries = db.countries
        ∧ (override_jerusalem_region db).names = db.names
        ∧ (override_jerusalem_region db).locality_locations = db.locality_locations
        ∧ (override_jerusalem_region db).localities = db.localities.map (fun l =>
            if jerusalemMatch js.overture_id
                ((db.countries.find? (fun c => c.code == "IL")).map (fun c => c.id)) l then
              { l with parent_overture_id := jr.overture_id }
            else l)
        ∧ (∀ l ∈ db.localities,
            (jerusalemMatch js.overture_id
                ((db.countries.find? (fun c => c.code == "IL")).map (fun c => c.id)) l
                  = false →
              l ∈ (override_jerusalem_region db).localities)
            ∧ (jerusalemMatch js.overture_id
                ((db.countries.find? (fun c => c.code == "IL")).map (fun c => c.id)) l
                  = true →
              { l with parent_overture_id := jr.overture_id }
                ∈ (override_jerusalem_region db).localities))) := by
  refine ⟨?_, ?_, ?_, ?_⟩
  · intro h
    simp only [override_jerusalem_region, h]
  · intro h
    cases hj : db.regions.find? (fun r => r.code == "IL-JERUSALEM-DISTRICT") with
    | none => simp only [override_jerusalem_region, hj]
    | some jr => simp only [override_jerusalem_region, hj, h]
  · intro jsOid ilId l
    constructor
    · intro h
      simp only [jerusalemMatch, Bool.and_eq_true, Bool.or_eq_true, beq_iff_eq] at h
      obtain ⟨⟨h1, h2⟩, h3⟩ := h
      refine ⟨h2, ?_, ?_⟩
      · cases hil : ilId with
        | none => rw [hil] at h3; exact absurd h3 (by simp)
        | some i =>
            rw [hil] at h3
            exact ⟨i, rfl, by simpa using h3⟩
      · cases hp : l.parent_overture_id with
        | none =>
            rw [hp] at h1
            exact absurd h1 (by simp [sqlEqOpt])
        | some x =>
            cases ho : jsOid with
            | none =>
                rw [hp, ho] at h1
                exact absurd h1 (by simp [sqlEqOpt])
            | some y =>
                rw [hp, ho] at h1
                have hxy : x = y := by simpa [sqlEqOpt] using h1
                exact ⟨y, rfl, by rw [hxy]⟩
    · rintro ⟨h1, ⟨i, hi, hci⟩, ⟨s, hs, hps⟩⟩
      rcases h1 with h | h <;>
        simp [jerusalemMatch, sqlEqOpt, hi, hs, hps, hci, h]
  · intro jr js hjr hjs
    have hres : override_jerusalem_region db =
        { db with
          localities := db.localities.map (fun l =>
            if jerusalemMatch js.overture_id
                ((db.countries.find? (fun c => c.code == "IL")).map (fun c => c.id)) l then
              { l with parent_overture_id := jr.overture_id }
            else l) } := by
      simp only [override_jerusalem_region, hjr, hjs]
    refine ⟨by rw [hres], by rw [hres], by rw [hres], by rw [hres], by rw [hres], ?_⟩
    intro l hl
    constructor
    · intro hm
      rw [hres]
      refine List.mem_map.mpr ⟨l, hl, ?_⟩
      simp [hm]
    · intro hm
      rw [hres]
      refine List.mem_map.mpr ⟨l, hl, ?_⟩
      simp [hm]

/-! ## Step 4: import regions, two passes (import-overture.py lines 648-769) -/

/-- One row of the Pass-1 (top-level region) query after its WHERE. -/
structure RegionQueryRowTop where
  overture_id : String
  country : String
  region : Option String
  name : String
deriving DecidableEq

/-- Pass-1 query (lines 666-677): subtype `region`, non-null primary
name and country. -/
def regionQueryTop (rows : List DivisionRow) : List RegionQueryRowTop :=
  rows.filterMap (fun p =>
    match p.names.primary, p.country with
    | some prim, some ctry =>
        if p.subtype == "region" then
          some { overture_id := p.id, country := ctry, region := p.region,
                 name := chooseDisplayName prim p.names.common }
        else none
    | _, _ => none)

/-- One row of the Pass-2 (sub-region) query after its WHERE. -/
structure RegionQueryRowSub where
  overture_id : String
  country : String
  region : Option String
  subtype : String
  name : String
  parent_division_id : Option String
deriving DecidableEq

/-- Pass-2 query (lines 714-726): subtype `county` or `localadmin`,
non-null primary name and country. -/
def regionQuerySub (rows : List DivisionRow) : List RegionQueryRowSub :=
  rows.filterMap (fun p =>
    match p.names.primary, p.country with
    | some prim, some ctry =>
        if p.subtype == "county" || p.subtype == "localadmin" then
          some { overture_id := p.id, country := ctry, region := p.region,
                 subtype := p.subtype, name := chooseDisplayName prim p.names.common,
                 parent_division_id := p.parent_division_id }
        else none
    | _, _ => none)

/-- Pass-1 loop body (lines 690-707): skip rows with an empty or
uncached country; insert a parentless region with the derived code and
record `overture_id -> id` in `top_level_map`.  Serial ids are dense
positions because the table was truncated with identity restart; the
guard makes the `getD` default dead. -/
def pass1Step (cache : CountryCache) (region_type_id : Nat) (source_id : Nat)
    (acc : List Region × List (String × Nat)) (r : RegionQueryRowTop) :
    List Region × List (String × Nat) :=
  if r.country = "" ∨ (dictGet cache r.country).isNone then acc
  else
    let cid := ((dictGet cache r.country).getD { id := 0, continent_id := 0 }).id
    let reg : Region :=
      { id := acc.1.length + 1
        country_id := cid
        continent_id := none
        parent_region_id := none
        region_type_id := region_type_id
        code := extract_region_code r.overture_id r.region
        name := r.name
        overture_id := some r.overture_id
        source_id := source_id }
    (acc.1 ++ [reg], acc.2 ++ [(r.overture_id, reg.id)])

/-- Pass-2 loop body (lines 737-753): skip rows with an empty or
uncached country; resolve the region type from the subtype with the
`county` fallback (default 2); resolve the stated parent through
`top_level_map` (a falsy parent id or a map miss leaves the sub-region
parentless); insert. -/
def pass2Step (cache : CountryCache) (rtE : List (String × Nat)) (source_id : Nat)
    (top_level_map : List (String × Nat)) (acc : List Region) (r : RegionQueryRowSub) :
    List Region :=
  if r.country = "" ∨ (dictGet cache r.country).isNone then acc
  else
    let cid := ((dictGet cache r.country).getD { id := 0, continent_id := 0 }).id
    let region_type_id := (dictGet rtE r.subtype).getD ((dictGet rtE "county").getD 2)
    let parent_region_id :=
      match r.parent_division_id with
      | some pid => if pid = "" then none else dictGet top_level_map pid
      | none => none
    acc ++
      [{ id := acc.length + 1
         country_id := cid
         continent_id := none
         parent_region_id := parent_region_id
         region_type_id := region_type_id
         code := extract_region_code r.overture_id r.region
         name := r.name
         overture_id := some r.overture_id
         source_id := source_id }]

/-- Pass 1 of `import_regions`: the region rows and the
`top_level_map` after the first loop. -/
def pass1Result (db : DB) (rows : List DivisionRow) (source_id : Nat)
    (cache : CountryCache) : List Region × List (String × Nat) :=
  (regionQueryTop rows).foldl
    (pass1Step cache ((dictGet (regionTypeEntries db.region_types) "region").getD 1) source_id)
    (db.regions, [])

/-- Embedding of `import_regions`: Pass 1 over top-level rows, then
Pass 2 over sub-region rows, appending to the (truncated) region
table. -/
def import_regions (db : DB) (rows : List DivisionRow) (source_id : Nat)
    (cache : CountryCache) : DB :=
  let pr := pass1Result db rows source_id cache
  { db with
    regions :=
      (regionQuerySub rows).foldl
        (pass2Step cache (regionTypeEntries db.region_types) source_id pr.2) pr.1 }

/-! ## Fresh ids for rows created outside the truncated serial ranges -/

def freshDataSourceId (ds : List DataSource) : Nat :=
  ds.foldr (fun d m => max d.id m) 0 + 1

def freshRegionTypeId (ts : List RegionType) : Nat :=
  ts.foldr (fun t m => max t.id m) 0 + 1

def freshContinentId (cs : List Continent) : Nat :=
  cs.foldr (fun c m => max c.id m) 0 + 1

def maxRegionId (rs : List Region) : Nat :=
  rs.foldr (fun r m => max r.id m) 0

def freshRegionId (rs : List Region) : Nat :=
  maxRegionId rs + 1

/-! ## Step 5c: synthetic regions (import-overture.py lines 1037-1238) -/

/-- Lines 1058-1070: find the `synthetic` data source, creating it when
absent. -/
def ensureSyntheticSource (db : DB) : DB × Nat :=
  match db.data_sources.find? (fun d => d.key == "synthetic") with
  | some d => (db, d.id)
  | none =>
      let i := freshDataSourceId db.data_sources
      ({ db with
         data_sources := db.data_sources ++ [{ id := i, key := "synthetic" }] }, i)

/-- Lines 1073-1084: find the `locality_group` region type, creating it
when absent. -/
def ensureLocalityGroupType (db : DB) : DB × Nat :=
  match db.region_types.find? (fun t => t.code == "locality_group") with
  | some t => (db, t.id)
  | none =>
      let i := freshRegionTypeId db.region_types
      ({ db with
         region_types :=
           db.region_types ++ [{ id := i, code := "locality_group",
                                 overture_subtype := none }] },
        i)

/-- Lines 1088-1093: the set of all region overture ids. -/
def regionOvertureIds (db : DB) : List String :=
  db.regions.filterMap (fun r => r.overture_id)

/-- Lines 1115-1134: the combined overture-id-to-parent-overture-id
dictionary, region entries first (a region parent is resolved through
the self LEFT JOIN on `parent_region_id`), then locality entries, which
overwrite on key collision per dict semantics. -/
def overtureToParentEntries (db : DB) : List (String × Option String) :=
  db.regions.filterMap (fun r =>
    r.overture_id.map (fun o => (o,
      match r.parent_region_id with
      | some pid => (db.regions.find? (fun r2 => r2.id == pid)).bind (fun r2 => r2.overture_id)
      | none => none)))
  ++ db.localities.filterMap (fun l => l.overture_id.map (fun o => (o, l.parent_overture_id)))

/-- `overture_to_parent.get(current)`: `none` for a missing key and for
a stored null alike. -/
def otpGet (db : DB) (k : String) : Option String :=
  (dictGet (overtureToParentEntries db) k).join

/-- A Python dict built by repeated assignment: first insertion fixes
the key position, a later assignment overwrites the value. -/
def pyDict {κ β : Type} [BEq κ] (l : List (κ × β)) : List (κ × β) :=
  l.foldl (fun acc p =>
    if acc.any (fun q => q.1 == p.1) then
      acc.map (fun q => if q.1 == p.1 then (q.1, p.2) else q)
    else acc ++ [p]) []

/-- Lines 1098-1109: `locality_parents`/`locality_countries` — for each
locality with an overture id whose country resolves (the SQL inner
join), its internal id, raw parent id and country code; both dicts are
keyed by the internal id. -/
def localityParentEntries (db : DB) : List (Nat × Option String × String) :=
  db.localities.filterMap (fun l =>
    match l.overture_id with
    | none => none
    | some _ =>
        (db.countries.find? (fun c => c.id == l.country_id)).map
          (fun c => (l.id, l.parent_overture_id, c.code)))

/-- Lines 1152-1156: `orphans_by_country.setdefault`-style grouping that
keeps first-appearance key order and appends ids in walk order. -/
def addOrphan (groups : List (String × List Nat)) (cc : String) (lid : Nat) :
    List (String × List Nat) :=
  if groups.any (fun g => g.1 == cc) then
    groups.map (fun g => if g.1 == cc then (g.1, g.2 ++ [lid]) else g)
  else groups ++ [(cc, [lid])]

/-- The walk of lines 1139-1151 applied to one locality: anchored iff a
region overture id is found on the chain within the hop bound. -/
def localityAnchored (db : DB) (p : Option String) : Bool :=
  hasRegionAncestor (regionOvertureIds db) (otpGet db) p ORPHAN_MAX_DEPTH

/-- Lines 1136-1156: classify every locality with the bounded walk and
group the orphans by country code. -/
def orphanGroups (db : DB) : List (String × List Nat) :=
  (pyDict (localityParentEntries db)).foldl (fun groups e =>
    if localityAnchored db e.2.1 then
      groups
    else addOrphan groups e.2.2 e.1) []

/-- Lines 1172-1184: the synthetic-region policy for a country code:
the static mapping entry, or the generated `<CC>-GEN` fallback named
after the country (the country name is looked up by code, defaulting to
the code itself when no row matches). -/
def groupPolicy (db : DB) (cc : String) : String × String × String :=
  match alistGet SYNTHETIC_REGION_MAPPING cc with
  | some m => m
  | none =>
      let country_name :=
        match db.countries.find? (fun c => c.code == cc) with
        | some c => c.name
        | none => cc
      (cc ++ "-GEN", country_name, cc)

/-- Lines 1170-1233: processing of one orphan group.  A target country
missing from the cache skips the group with a warning.  The synthetic
region is created at most once per code within the run: first the
`created_regions` dict is consulted, then the region table by code, and
only then is a fresh region row inserted with overture id
`synthetic:<code>`.  Finally every orphan of the group gets its raw
parent id overwritten with `synthetic:<code>`. -/
def syntheticStep (cache : CountryCache) (synthetic_source_id locality_group_type_id : Nat)
    (acc : DB × List (String × Nat)) (g : String × List Nat) : DB × List (String × Nat) :=
  let db := acc.1
  let created := acc.2
  let pol := groupPolicy db g.1
  let region_code := pol.1
  let region_name := pol.2.1
  let target_country := pol.2.2
  match dictGet cache target_country with
  | none => acc
  | some info =>
      let next :=
        if (alistGet created region_code).isSome then (db, created)
        else
          match db.regions.find? (fun r => r.code == region_code) with
          | some r => (db, created ++ [(region_code, r.id)])
          | none =>
              let rid := freshRegionId db.regions
              let reg : Region :=
                { id := rid
                  country_id := info.id
                  continent_id := some info.continent_id
                  parent_region_id := none
                  region_type_id := locality_group_type_id
                  code := region_code
                  name := region_name
                  overture_id := some ("synthetic:" ++ region_code)
                  source_id := synthetic_source_id }
              ({ db with regions := db.regions ++ [reg] },
                created ++ [(region_code, rid)])
      let db1 := next.1
      let synthetic_oid := "synthetic:" ++ region_code
      ({ db1 with
         localities := db1.localities.map (fun l =>
           if g.2.contains l.id then { l with parent_overture_id := some synthetic_oid }
           else l) },
        next.2)

/-- Embedding of `create_synthetic_regions`: ensure the auxiliary rows,
classify and group the orphans, return early when there are none, else
process the groups sorted by descending size (Python `sorted` is
stable; `mergeSort` is likewise a stable sort). -/
def create_synthetic_regions (db : DB) (cache : CountryCache) : DB :=
  let p1 := ensureSyntheticSource db
  let p2 := ensureLocalityGroupType p1.1
  let db2 := p2.1
  let groups := orphanGroups db2
  if groups.foldr (fun g n => g.2.length + n) 0 = 0 then db2
  else
    ((groups.mergeSort (fun a b => decide (b.2.length ≤ a.2.length))).foldl
        (syntheticStep cache p1.2 p2.2) (db2, [])).1

/-! ## Step 5c: remap disputed territories (import-overture.py lines 936-1030) -/

/-- Embedding of one iteration of `remap_disputed_territories` for a
(source, target) pair.  A pair whose source or target code is not in
the cache is skipped.  Otherwise: reassign regions and localities to
the target country and continent; find the country-level placeholder
locality (first parentless locality under the target country named like
the source country, provided the source name is truthy); clear raw
parents pointing at its overture id (when that id is truthy); delete
the placeholder (when its id is truthy); delete the source country row;
drop the source code from the cache. -/
def remapPair (db : DB) (cache : CountryCache) (source_code target_code : String) :
    DB × CountryCache :=
  match dictGet cache source_code, dictGet cache target_code with
  | some source_info, some target_info =>
      let source_row := db.countries.find? (fun c => c.id == source_info.id)
      let source_country_name : Option String := source_row.map (fun c => c.name)
      let regions2 : List Region := db.regions.map (fun r =>
        if r.country_id == source_info.id then
          { r with
            country_id := target_info.id
            continent_id := some target_info.continent_id }
        else r)
      let localities2 : List Locality := db.localities.map (fun l =>
        if l.country_id == source_info.id then
          { l with
            country_id := target_info.id
            continent_id := target_info.continent_id }
        else l)
      let placeholder : Option Locality :=
        match source_country_name with
        | some nm =>
            if nm = "" then none
            else localities2.find? (fun l =>
              l.country_id == target_info.id && l.parent_overture_id == none && l.name == nm)
        | none => none
      let localities3 : List Locality :=
        match placeholder with
        | some pl =>
            match pl.overture_id with
            | some oid =>
                if oid = "" then localities2
                else localities2.map (fun l =>
                  if l.parent_overture_id == some oid then
                    { l with parent_overture_id := none }
                  else l)
            | none => localities2
        | none => localities2
      let localities4 : List Locality :=
        match placeholder with
        | some pl =>
            if pl.id ≠ 0 then localities3.filter (fun l => !(l.id == pl.id)) else localities3
        | none => localities3
      let countries2 := db.countries.filter (fun c => !(c.id == source_info.id))
      ({ db with
         countries := countries2
         regions := regions2
         localities := localities4 },
        cache.filter (fun p => !(p.1 == source_code)))
  | _, _ => (db, cache)

/-- Embedding of `remap_disputed_territories`: fold `remapPair` over the
policy pairs in dict-literal order. -/
def remap_disputed_territories (db : DB) (cache : CountryCache) : DB × CountryCache :=
  COUNTRY_REMAPPING.foldl (fun acc p => remapPair acc.1 acc.2 p.1 p.2) (db, cache)

/-! ## Claim C9: witness data and witness -/

def c9jr : Region :=
  { id := 11, country_id := 7, continent_id := some 3, parent_region_id := none,
    region_type_id := 9, code := "IL-JERUSALEM-DISTRICT", name := "Jerusalem District",
    overture_id := some "synthetic:IL-JERUSALEM-DISTRICT", source_id := 2 }

def c9js : Region :=
  { id := 12, country_id := 7, continent_id := some 3, parent_region_id := none,
    region_type_id := 9, code := "IL-JUDEA-SAMARIA", name := "Judea and Samaria",
    overture_id := some "synthetic:IL-JUDEA-SAMARIA", source_id := 2 }

def c9Db : DB :=
  { continents := [], region_types := [], locality_types := [], data_sources := [],
    countries := [{ id := 7, code := "IL", name := "Israel", continent_id := 3,
                    source_id := 1, overture_id := some "ilov" }],
    regions := [c9jr, c9js],
    localities :=
      [{ id := 1, locality_type_id := 1, name := "Jerusalem", name_ascii := "Jerusalem",
         timezone := "UTC", population := none, continent_id := 3, country_id := 7,
         source_id := 1, overture_id := some "l1",
         parent_overture_id := some "synthetic:IL-JUDEA-SAMARIA" },
       { id := 2, locality_type_id := 1, name := "Hebron", name_ascii := "Hebron",
         timezone := "UTC", population := none, continent_id := 3, country_id := 7,
         source_id := 1, overture_id := some "l2",
         parent_overture_id := some "synthetic:IL-JUDEA-SAMARIA" }],
    locality_locations := [], names := [] }

theorem override_jerusalem_scope_witness :
    (c9Db.regions.find? (fun r => r.code == "IL-JERUSALEM-DISTRICT") = some c9jr)
    ∧ (c9Db.regions.find? (fun r => r.code == "IL-JUDEA-SAMARIA") = some c9js)
    ∧ (override_jerusalem_region c9Db).countries = c9Db.countries
    ∧ (override_jerusalem_region c9Db).regions = c9Db.regions
    ∧ (override_jerusalem_region c9Db).localities.map (fun l => l.parent_overture_id)
        = [some "synthetic:IL-JERUSALEM-DISTRICT", some "synthetic:IL-JUDEA-SAMARIA"] := by
  have h := (override_jerusalem_scope c9Db).2.2.2 c9jr c9js (by decide) (by decide)
  exact ⟨by decide, by decide, h.2.1, h.1, by decide⟩


/-! ## Claim C4: region-parent country invariant -/

/-- The data-model invariant: a region's parent, when present and
resolvable by id, belongs to the same country. -/
def regionParentSameCountry (regions : List Region) : Prop :=
  ∀ r ∈ regions, ∀ p ∈ regions, r.parent_region_id = some p.id → p.country_id = r.country_id

instance (regions : List Region) : Decidable (regionParentSameCountry regions) := by
  unfold regionParentSameCountry; infer_instance

/-- Referential integrity of region parents: a non-null
`parent_region_id` is the id of some region row. -/
def regionParentsResolve (regions : List Region) : Prop :=
  ∀ r ∈ regions, r.parent_region_id = none ∨ ∃ p ∈ regions, r.parent_region_id = some p.id

instance (regions : List Region) : Decidable (regionParentsResolve regions) := by
  unfold regionParentsResolve; infer_instance

theorem dictGet_mem {α : Type} {m : List (String × α)} {k : String} {v : α}
    (h : dictGet m k = some v) : (k, v) ∈ m := by
  unfold dictGet at h
  obtain ⟨p, hp, hpv⟩ := Option.map_eq_some'.mp h
  have hmem : p ∈ m.reverse := List.mem_of_find?_eq_some hp
  have hk : p.1 = k := by simpa using List.find?_some hp
  have hpkv : p = (k, v) := by
    cases p
    simp at hk hpv
    simp [hk, hpv]
  rw [← hpkv]
  exact List.mem_reverse.mp hmem

theorem le_maxRegionId_of_mem {r : Region} {rs : List Region} (h : r ∈ rs) :
    r.id ≤ maxRegionId rs := by
  induction rs with
  | nil => exact absurd h (List.not_mem_nil r)
  | cons a l ih =>
      rcases List.mem_cons.mp h with h1 | h2
      · rw [h1]
        exact Nat.le_max_left _ _
      · exact Nat.le_trans (ih h2) (Nat.le_max_right _ _)

theorem maxRegionId_init_mono : ∀ (rs : List Region) (b b' : Nat), b ≤ b' →
    rs.foldr (fun r m => max r.id m) b ≤ rs.foldr (fun r m => max r.id m) b' := by
  intro rs
  induction rs with
  | nil => intro b b' h; exact h
  | cons a l ih =>
      intro b b' h
      exact max_le_max (Nat.le_refl _) (ih b b' h)

theorem maxRegionId_append_left (rs l : List Region) :
    maxRegionId rs ≤ maxRegionId (rs ++ l) := by
  unfold maxRegionId
  rw [List.foldr_append]
  exact maxRegionId_init_mono rs 0 _ (Nat.zero_le _)

/-- The region row inserted by a non-skipped Pass-1 iteration over an
accumulator of `n` rows. -/
def pass1Reg (cache : CountryCache) (rt sid n : Nat) (q : RegionQueryRowTop) : Region :=
  { id := n + 1
    country_id := ((dictGet cache q.country).getD { id := 0, continent_id := 0 }).id
    continent_id := none
    parent_region_id := none
    region_type_id := rt
    code := extract_region_code q.overture_id q.region
    name := q.name
    overture_id := some q.overture_id
    source_id := sid }

theorem pass1Step_skip (cache : CountryCache) (rt sid : Nat)
    (acc : List Region × List (String × Nat)) (q : RegionQueryRowTop)
    (h : q.country = "" ∨ (dictGet cache q.country).isNone) :
    pass1Step cache rt sid acc q = acc := by
  unfold pass1Step
  rw [if_pos h]

theorem pass1Step_insert (cache : CountryCache) (rt sid : Nat)
    (acc : List Region × List (String × Nat)) (q : RegionQueryRowTop)
    (h : ¬(q.country = "" ∨ (dictGet cache q.country).isNone)) :
    pass1Step cache rt sid acc q =
      (acc.1 ++ [pass1Reg cache rt sid acc.1.length q],
        acc.2 ++ [(q.overture_id, acc.1.length + 1)]) := by
  unfold pass1Step pass1Reg
  rw [if_neg h]

/-- The region row inserted by a non-skipped Pass-2 iteration over an
accumulator of `n` rows. -/
def pass2Reg (cache : CountryCache) (rtE : List (String × Nat)) (sid : Nat)
    (tmap : List (String × Nat)) (n : Nat) (q : RegionQueryRowSub) : Region :=
  { id := n + 1
    country_id := ((dictGet cache q.country).getD { id := 0, continent_id := 0 }).id
    continent_id := none
    parent_region_id :=
      match q.parent_division_id with
      | some pid => if pid = "" then none else dictGet tmap pid
      | none => none
    region_type_id := (dictGet rtE q.subtype).getD ((dictGet rtE "county").getD 2)
    code := extract_region_code q.overture_id q.region
    name := q.name
    overture_id := some q.overture_id
    source_id := sid }

theorem pass2Step_skip (cache : CountryCache) (rtE : List (String × Nat)) (sid : Nat)
    (tmap : List (String × Nat)) (acc : List Region) (q : RegionQueryRowSub)
    (h : q.country = "" ∨ (dictGet cache q.country).isNone) :
    pass2Step cache rtE sid tmap acc q = acc := by
  unfold pass2Step
  rw [if_pos h]

theorem pass2Step_insert (cache : CountryCache) (rtE : List (String × Nat)) (sid : Nat)
    (tmap : List (String × Nat)) (acc : List Region) (q : RegionQueryRowSub)
    (h : ¬(q.country = "" ∨ (dictGet cache q.country).isNone)) :
    pass2Step cache rtE sid tmap acc q = acc ++ [pass2Reg cache rtE sid tmap acc.length q] := by
  unfold pass2Step pass2Reg
  rw [if_neg h]

theorem pass2Reg_parent_resolves (cache : CountryCache) (rtE : List (String × Nat))
    (sid : Nat) (tmap : List (String × Nat)) (n : Nat) (q : RegionQueryRowSub) (rid : Nat)
    (h : (pass2Reg cache rtE sid tmap n q).parent_region_id = some rid) :
    ∃ pid, q.parent_division_id = some pid ∧ pid ≠ "" ∧ dictGet tmap pid = some rid := by
  unfold pass2Reg at h
  simp only at h
  cases hq : q.parent_division_id with
  | none => rw [hq] at h; exact absurd h (by simp)
  | some pid =>
      rw [hq] at h
      by_cases hpe : pid = ""
      · simp [hpe] at h
      · refine ⟨pid, rfl, hpe, ?_⟩
        simpa [hpe] using h

/-- Shape of the Pass-1 fold: accumulator rows persist, every inserted
region is parentless with a serial id above the starting length and
within the final length, and every `top_level_map` entry carries the id
of a region present in the result. -/
theorem pass1_fold_spec (cache : CountryCache) (rt sid : Nat) :
    ∀ (rows : List RegionQueryRowTop) (acc : List Region × List (String × Nat)),
      (∀ x ∈ acc.1, x ∈ (rows.foldl (pass1Step cache rt sid) acc).1)
      ∧ (∀ r ∈ (rows.foldl (pass1Step cache rt sid) acc).1, r ∈ acc.1 ∨
          (r.parent_region_id = none ∧ acc.1.length < r.id
            ∧ r.id ≤ (rows.foldl (pass1Step cache rt sid) acc).1.length))
      ∧ (∀ e ∈ (rows.foldl (pass1Step cache rt sid) acc).2, e ∈ acc.2 ∨
          ∃ p ∈ (rows.foldl (pass1Step cache rt sid) acc).1, p.id = e.2)
      ∧ acc.1.length ≤ (rows.foldl (pass1Step cache rt sid) acc).1.length := by
  intro rows
  induction rows with
  | nil =>
      intro acc
      exact ⟨fun x hx => hx, fun r hr => Or.inl hr, fun e he => Or.inl he, Nat.le_refl _⟩
  | cons q rows ih =>
      intro acc
      rw [List.foldl_cons]
      by_cases hskip : q.country = "" ∨ (dictGet cache q.country).isNone
      · rw [pass1Step_skip cache rt sid acc q hskip]
        exact ih acc
      · rw [pass1Step_insert cache rt sid acc q hskip]
        obtain ⟨ih1, ih2, ih3, ih4⟩ :=
          ih (acc.1 ++ [pass1Reg cache rt sid acc.1.length q],
              acc.2 ++ [(q.overture_id, acc.1.length + 1)])
        simp only at ih1 ih2 ih3 ih4
        have hlen : (acc.1 ++ [pass1Reg cache rt sid acc.1.length q]).length
            = acc.1.length + 1 := by simp
        refine ⟨?_, ?_, ?_, ?_⟩
        · intro x hx
          exact ih1 x (List.mem_append_left _ hx)
        · intro r hr
          rcases ih2 r hr with hor | ⟨hn, hlt, hle⟩
          · rcases List.mem_append.mp hor with h1 | h2
            · exact Or.inl h1
            · right
              have he := List.mem_singleton.mp h2
              have hid : r.id = acc.1.length + 1 := by rw [he]; rfl
              have hpn : r.parent_region_id = none := by rw [he]; rfl
              refine ⟨hpn, by omega, ?_⟩
              rw [hlen] at ih4
              omega
          · rw [hlen] at hlt
            exact Or.inr ⟨hn, by omega, hle⟩
        · intro e he
          rcases ih3 e he with hor | hex
          · rcases List.mem_append.mp hor with h1 | h2
            · exact Or.inl h1
            · right
              have he2 := List.mem_singleton.mp h2
              refine ⟨pass1Reg cache rt sid acc.1.length q,
                ih1 _ (List.mem_append_right _ (List.mem_singleton.mpr rfl)), ?_⟩
              rw [he2]
              rfl
          · exact Or.inr hex
        · rw [hlen] at ih4
          omega


/-- Shape of the Pass-2 fold: accumulator rows persist, and every
inserted sub-region has an id above the starting length, takes its
country from the cache entry of some query row, and its parent (when
non-null) is the `top_level_map` resolution of that row's non-empty
stated parent id. -/
theorem pass2_fold_spec (cache : CountryCache) (rtE : List (String × Nat)) (sid : Nat)
    (tmap : List (String × Nat)) :
    ∀ (rows : List RegionQueryRowSub) (acc : List Region),
      (∀ x ∈ acc, x ∈ rows.foldl (pass2Step cache rtE sid tmap) acc)
      ∧ (∀ r ∈ rows.foldl (pass2Step cache rtE sid tmap) acc, r ∈ acc ∨
          (acc.length < r.id ∧ ∃ q ∈ rows,
            r.country_id = ((dictGet cache q.country).getD { id := 0, continent_id := 0 }).id
            ∧ ∀ rid, r.parent_region_id = some rid →
                ∃ pid, q.parent_division_id = some pid ∧ pid ≠ "" ∧
                  dictGet tmap pid = some rid))
      ∧ acc.length ≤ (rows.foldl (pass2Step cache rtE sid tmap) acc).length := by
  intro rows
  induction rows with
  | nil =>
      intro acc
      exact ⟨fun x hx => hx, fun r hr => Or.inl hr, Nat.le_refl _⟩
  | cons q rows ih =>
      intro acc
      rw [List.foldl_cons]
      by_cases hskip : q.country = "" ∨ (dictGet cache q.country).isNone
      · rw [pass2Step_skip cache rtE sid tmap acc q hskip]
        obtain ⟨ih1, ih2, ih3⟩ := ih acc
        refine ⟨ih1, ?_, ih3⟩
        intro r hr
        rcases ih2 r hr with h1 | ⟨hlt, q0, hq0, hrest⟩
        · exact Or.inl h1
        · exact Or.inr ⟨hlt, q0, List.mem_cons_of_mem q hq0, hrest⟩
      · rw [pass2Step_insert cache rtE sid tmap acc q hskip]
        obtain ⟨ih1, ih2, ih3⟩ := ih (acc ++ [pass2Reg cache rtE sid tmap acc.length q])
        have hlen : (acc ++ [pass2Reg cache rtE sid tmap acc.length q]).length
            = acc.length + 1 := by simp
        refine ⟨?_, ?_, ?_⟩
        · intro x hx
          exact ih1 x (List.mem_append_left _ hx)
        · intro r hr
          rcases ih2 r hr with hor | ⟨hlt, q0, hq0, hrest⟩
          · rcases List.mem_append.mp hor with h1 | h2
            · exact Or.inl h1
            · right
              have he := List.mem_singleton.mp h2
              have hid : r.id = acc.length + 1 := by rw [he]; rfl
              refine ⟨by omega, q, List.mem_cons_self q rows, by rw [he]; rfl, ?_⟩
              intro rid hrid
              rw [he] at hrid
              exact pass2Reg_parent_resolves cache rtE sid tmap acc.length q rid hrid
          · rw [hlen] at hlt
            exact Or.inr ⟨by omega, q0, List.mem_cons_of_mem q hq0, hrest⟩
        · rw [hlen] at ih3
          omega

/-! ### Preservation of the invariant by later mutations -/

theorem sameCountry_map (rs : List Region) (f : Region → Region) (g : Nat → Nat)
    (hid : ∀ r, (f r).id = r.id) (hpar : ∀ r, (f r).parent_region_id = r.parent_region_id)
    (hctry : ∀ r, (f r).country_id = g r.country_id)
    (h : regionParentSameCountry rs) : regionParentSameCountry (rs.map f) := by
  intro r' hr' p' hp' hpp
  obtain ⟨r, hr, rfl⟩ := List.mem_map.mp hr'
  obtain ⟨p, hp, rfl⟩ := List.mem_map.mp hp'
  rw [hpar r, hid p] at hpp
  rw [hctry, hctry, h r hr p hp hpp]

theorem parentsResolve_map (rs : List Region) (f : Region → Region)
    (hid : ∀ r, (f r).id = r.id) (hpar : ∀ r, (f r).parent_region_id = r.parent_region_id)
    (h : regionParentsResolve rs) : regionParentsResolve (rs.map f) := by
  intro r' hr'
  obtain ⟨r, hr, rfl⟩ := List.mem_map.mp hr'
  rcases h r hr with hn | ⟨p, hp, hsome⟩
  · left
    rw [hpar r, hn]
  · right
    refine ⟨f p, List.mem_map_of_mem f hp, ?_⟩
    rw [hpar r, hid p]
    exact hsome

/-- The region table after one remap iteration: unchanged when the pair
is skipped, else a country/continent reassignment that preserves ids
and parents. -/
theorem remapPair_regions (db : DB) (cache : CountryCache) (s t : String) :
    (remapPair db cache s t).1.regions = db.regions
    ∨ ∃ srcId tgtId cont, (remapPair db cache s t).1.regions =
        db.regions.map (fun r =>
          if r.country_id == srcId then
            { r with country_id := tgtId, continent_id := some cont }
          else r) := by
  unfold remapPair
  cases hs : dictGet cache s with
  | none => left; rfl
  | some si =>
      cases ht : dictGet cache t with
      | none => left; rfl
      | some ti =>
          right
          exact ⟨si.id, ti.id, ti.continent_id, rfl⟩

/-- The remap fold preserves both region invariants. -/
theorem remap_fold_preserves :
    ∀ (pairs : List (String × String)) (db : DB) (cache : CountryCache),
      (regionParentSameCountry db.regions →
        regionParentSameCountry
          ((pairs.foldl (fun acc p => remapPair acc.1 acc.2 p.1 p.2) (db, cache)).1.regions))
      ∧ (regionParentsResolve db.regions →
        regionParentsResolve
          ((pairs.foldl (fun acc p => remapPair acc.1 acc.2 p.1 p.2) (db, cache)).1.regions)) := by
  intro pairs
  induction pairs with
  | nil => intro db cache; exact ⟨id, id⟩
  | cons pr prs ih =>
      intro db cache
      rw [List.foldl_cons]
      have ihp := ih (remapPair db cache pr.1 pr.2).1 (remapPair db cache pr.1 pr.2).2
      rw [Prod.mk.eta] at ihp
      have hstep : (regionParentSameCountry db.regions →
            regionParentSameCountry (remapPair db cache pr.1 pr.2).1.regions)
          ∧ (regionParentsResolve db.regions →
            regionParentsResolve (remapPair db cache pr.1 pr.2).1.regions) := by
        rcases remapPair_regions db cache pr.1 pr.2 with he | ⟨srcId, tgtId, cont, he⟩
        · rw [he]; exact ⟨id, id⟩
        · rw [he]
          constructor
          · intro h
            refine sameCountry_map db.regions _ (fun c => if c == srcId then tgtId else c)
              ?_ ?_ ?_ h
            · intro r
              by_cases hc : r.country_id == srcId <;> simp [hc]
            · intro r
              by_cases hc : r.country_id == srcId <;> simp [hc]
            · intro r
              by_cases hc : r.country_id == srcId <;> simp [hc]
          · intro h
            refine parentsResolve_map db.regions _ ?_ ?_ h
            · intro r
              by_cases hc : r.country_id == srcId <;> simp [hc]
            · intro r
              by_cases hc : r.country_id == srcId <;> simp [hc]
      exact ⟨fun h => ihp.1 (hstep.1 h), fun h => ihp.2 (hstep.2 h)⟩

theorem ensureSyntheticSource_geo (db : DB) :
    (ensureSyntheticSource db).1.regions = db.regions
    ∧ (ensureSyntheticSource db).1.localities = db.localities
    ∧ (ensureSyntheticSource db).1.countries = db.countries := by
  unfold ensureSyntheticSource
  cases db.data_sources.find? (fun d => d.key == "synthetic") with
  | none => exact ⟨rfl, rfl, rfl⟩
  | some d => exact ⟨rfl, rfl, rfl⟩

theorem ensureLocalityGroupType_geo (db : DB) :
    (ensureLocalityGroupType db).1.regions = db.regions
    ∧ (ensureLocalityGroupType db).1.localities = db.localities
    ∧ (ensureLocalityGroupType db).1.countries = db.countries := by
  unfold ensureLocalityGroupType
  cases db.region_types.find? (fun t => t.code == "locality_group") with
  | none => exact ⟨rfl, rfl, rfl⟩
  | some t => exact ⟨rfl, rfl, rfl⟩

/-- One synthesis group step either leaves the region table unchanged
or appends a single parentless region with a fresh id. -/
theorem syntheticStep_regions (cache : CountryCache) (ss lg : Nat)
    (acc : DB × List (String × Nat)) (g : String × List Nat) :
    (syntheticStep cache ss lg acc g).1.regions = acc.1.regions
    ∨ ∃ reg : Region, (syntheticStep cache ss lg acc g).1.regions = acc.1.regions ++ [reg]
        ∧ reg.parent_region_id = none ∧ reg.id = freshRegionId acc.1.regions := by
  cases hd : dictGet cache (groupPolicy acc.1 g.1).2.2 with
  | none =>
      left
      simp only [syntheticStep, hd]
  | some info =>
      by_cases hc : (alistGet acc.2 (groupPolicy acc.1 g.1).1).isSome
      · left
        simp only [syntheticStep, hd, if_pos hc]
      · cases hf : acc.1.regions.find? (fun r => r.code == (groupPolicy acc.1 g.1).1) with
        | some r0 =>
            left
            simp only [syntheticStep, hd, if_neg hc, hf]
        | none =>
            right
            refine ⟨{ id := freshRegionId acc.1.regions
                      country_id := info.id
                      continent_id := some info.continent_id
                      parent_region_id := none
                      region_type_id := lg
                      code := (groupPolicy acc.1 g.1).1
                      name := (groupPolicy acc.1 g.1).2.1
                      overture_id := some ("synthetic:" ++ (groupPolicy acc.1 g.1).1)
                      source_id := ss }, ?_, rfl, rfl⟩
            simp only [syntheticStep, hd, if_neg hc, hf]

/-- The synthesis fold only appends parentless regions with ids above
the starting maximum. -/
theorem synth_fold_regions (cache : CountryCache) (ss lg : Nat) :
    ∀ (gs : List (String × List Nat)) (acc : DB × List (String × Nat)),
      ∃ delta, (gs.foldl (syntheticStep cache ss lg) acc).1.regions
          = acc.1.regions ++ delta
        ∧ ∀ r ∈ delta, r.parent_region_id = none ∧ maxRegionId acc.1.regions < r.id := by
  intro gs
  induction gs with
  | nil =>
      intro acc
      exact ⟨[], by simp, by simp⟩
  | cons g gs ih =>
      intro acc
      rw [List.foldl_cons]
      obtain ⟨delta, hd, hprop⟩ := ih (syntheticStep cache ss lg acc g)
      rcases syntheticStep_regions cache ss lg acc g with he | ⟨reg, he, hpn, hid⟩
      · refine ⟨delta, by rw [hd, he], ?_⟩
        intro r hr
        obtain ⟨h1, h2⟩ := hprop r hr
        rw [he] at h2
        exact ⟨h1, h2⟩
      · refine ⟨reg :: delta, ?_, ?_⟩
        · rw [hd, he, List.append_assoc]
          rfl
        · intro r hr
          rcases List.mem_cons.mp hr with h1 | h2
          · rw [h1]
            refine ⟨hpn, ?_⟩
            rw [hid]
            exact Nat.lt_succ_of_le (Nat.le_refl _)
          · obtain ⟨h3, h4⟩ := hprop r h2
            rw [he] at h4
            refine ⟨h3, Nat.lt_of_le_of_lt (maxRegionId_append_left _ _) h4⟩

/-- The whole synthesis step only appends parentless regions with fresh
ids to the region table. -/
theorem create_synthetic_regions_regions (db : DB) (cache : CountryCache) :
    ∃ delta, (create_synthetic_regions db cache).regions = db.regions ++ delta
      ∧ ∀ r ∈ delta, r.parent_region_id = none ∧ maxRegionId db.regions < r.id := by
  unfold create_synthetic_regions
  have h1 := ensureSyntheticSource_geo db
  have h2 := ensureLocalityGroupType_geo (ensureSyntheticSource db).1
  by_cases hz : (orphanGroups (ensureLocalityGroupType (ensureSyntheticSource db).1).1).foldr
      (fun g n => g.2.length + n) 0 = 0
  · refine ⟨[], ?_, by simp⟩
    simp only [if_pos hz, List.append_nil]
    rw [h2.1, h1.1]
  · simp only [if_neg hz]
    obtain ⟨delta, hd, hprop⟩ := synth_fold_regions cache
      (ensureSyntheticSource db).2 (ensureLocalityGroupType (ensureSyntheticSource db).1).2
      ((orphanGroups (ensureLocalityGroupType (ensureSyntheticSource db).1).1).mergeSort
        (fun a b => decide (b.2.length ≤ a.2.length)))
      ((ensureLocalityGroupType (ensureSyntheticSource db).1).1, [])
    rw [h2.1, h1.1] at hd hprop
    exact ⟨delta, hd, hprop⟩

/-- C4 (amended): Pass 2 resolves the stated parent external id against
the Pass-1 map with *no* country check, so the same-country invariant
after region import holds only under the hypothesis `H` that every
sub-region query row whose stated parent resolves through
`top_level_map` points at a Pass-1 region of the row's own cached
country (a hypothesis the code does not enforce — see the
counterexample).  Under `H` (and starting from the truncated, empty
region table) region import establishes both the invariant and
region-parent referential integrity; the territory remap preserves both
unconditionally; and synthesis preserves referential integrity, and
preserves the invariant given referential integrity. -/
theorem region_parent_country_invariant (db : DB) (rows : List DivisionRow)
    (source_id : Nat) (cache : CountryCache) :
    (db.regions = [] →
      (∀ q ∈ regionQuerySub rows, ∀ e ∈ (pass1Result db rows source_id cache).2,
          q.parent_division_id = some e.1 →
          ∀ p ∈ (pass1Result db rows source_id cache).1, p.id = e.2 →
            p.country_id
              = ((dictGet cache q.country).getD { id := 0, continent_id := 0 }).id) →
      regionParentSameCountry (import_regions db rows source_id cache).regions
      ∧ regionParentsResolve (import_regions db rows source_id cache).regions)
    ∧ (∀ (st : DB) (cc : CountryCache),
        (regionParentSameCountry st.regions →
          regionParentSameCountry (remap_disputed_territories st cc).1.regions)
        ∧ (regionParentsResolve st.regions →
          regionParentsResolve (remap_disputed_territories st cc).1.regions))
    ∧ (∀ (st : DB) (cc : CountryCache),
        (regionParentSameCountry st.regions → regionParentsResolve st.regions →
          regionParentSameCountry (create_synthetic_regions st cc).regions)
        ∧ (regionParentsResolve st.regions →
          regionParentsResolve (create_synthetic_regions st cc).regions)) := by
  refine ⟨?_, ?_, ?_⟩
  · -- establishment by the two region passes
    intro hempty H
    have B := pass1_fold_spec cache
      ((dictGet (regionTypeEntries db.region_types) "region").getD 1) source_id
      (regionQueryTop rows) (db.regions, [])
    have A := pass2_fold_spec cache (regionTypeEntries db.region_types) source_id
      (pass1Result db rows source_id cache).2
      (regionQuerySub rows) (pass1Result db rows source_id cache).1
    have hpr : pass1Result db rows source_id cache
        = (regionQueryTop rows).foldl
            (pass1Step cache ((dictGet (regionTypeEntries db.region_types) "region").getD 1)
              source_id) (db.regions, []) := rfl
    have hfin : (import_regions db rows source_id cache).regions
        = (regionQuerySub rows).foldl
            (pass2Step cache (regionTypeEntries db.region_types) source_id
              (pass1Result db rows source_id cache).2)
            (pass1Result db rows source_id cache).1 := rfl
    rw [← hpr] at B
    have hB2 : ∀ r ∈ (pass1Result db rows source_id cache).1,
        r.parent_region_id = none ∧ r.id ≤ (pass1Result db rows source_id cache).1.length := by
      intro r hr
      rcases B.2.1 r hr with h1 | ⟨hpn, hlt, hle⟩
      · rw [hempty] at h1
        exact absurd h1 (by simp)
      · exact ⟨hpn, hle⟩
    have hB3 : ∀ e ∈ (pass1Result db rows source_id cache).2,
        ∃ p ∈ (pass1Result db rows source_id cache).1, p.id = e.2 := by
      intro e he
      rcases B.2.2.1 e he with h1 | h2
      · exact absurd h1 (by simp)
      · exact h2
    constructor
    · intro r hr p hp hpar
      rw [hfin] at hr hp
      rcases A.2.1 r hr with hrP1 | ⟨-, q, hq, hctry, himpl⟩
      · obtain ⟨hpn, -⟩ := hB2 r hrP1
        rw [hpn] at hpar
        exact absurd hpar (by simp)
      · obtain ⟨pid, hpid, hpe, hget⟩ := himpl p.id hpar
        have hmem := dictGet_mem hget
        rcases A.2.1 p hp with hpP1 | ⟨hplt, -⟩
        · have hc := H q hq (pid, p.id) hmem hpid p hpP1 rfl
          rw [hc, hctry]
        · obtain ⟨p1, hp1, hp1id⟩ := hB3 (pid, p.id) hmem
          obtain ⟨-, hle⟩ := hB2 p1 hp1
          simp only at hp1id
          omega
    · intro r hr
      rw [hfin] at hr
      rcases A.2.1 r hr with hrP1 | ⟨-, q, hq, -, himpl⟩
      · obtain ⟨hpn, -⟩ := hB2 r hrP1
        exact Or.inl hpn
      · cases hpar : r.parent_region_id with
        | none => exact Or.inl rfl
        | some rid =>
            obtain ⟨pid, hpid, hpe, hget⟩ := himpl rid hpar
            obtain ⟨p1, hp1, hp1id⟩ := hB3 (pid, rid) (dictGet_mem hget)
            right
            refine ⟨p1, ?_, ?_⟩
            · rw [hfin]
              exact A.1 p1 hp1
            · simp only at hp1id
              rw [hp1id]
  · -- preservation by the territory remap
    intro st cc
    have h := remap_fold_preserves COUNTRY_REMAPPING st cc
    exact ⟨h.1, h.2⟩
  · -- preservation by synthesis
    intro st cc
    obtain ⟨delta, hd, hprop⟩ := create_synthetic_regions_regions st cc
    constructor
    · intro hsame hres
      rw [hd]
      intro r hr p hp hpar
      rcases List.mem_append.mp hr with hrS | hrD
      · rcases List.mem_append.mp hp with hpS | hpD
        · exact hsame r hrS p hpS hpar
        · rcases hres r hrS with hn | ⟨p0, hp0, hsome⟩
          · rw [hn] at hpar
            exact absurd hpar (by simp)
          · rw [hpar] at hsome
            have hid : p.id = p0.id := by
              injection hsome with h
            have h1 := (hprop p hpD).2
            have h2 := le_maxRegionId_of_mem hp0
            omega
      · obtain ⟨hpn, -⟩ := hprop r hrD
        rw [hpn] at hpar
        exact absurd hpar (by simp)
    · intro hres
      rw [hd]
      intro r hr
      rcases List.mem_append.mp hr with hrS | hrD
      · rcases hres r hrS with hn | ⟨p0, hp0, hsome⟩
        · exact Or.inl hn
        · exact Or.inr ⟨p0, List.mem_append_left _ hp0, hsome⟩
      · exact Or.inl (hprop r hrD).1

/-- Witness data for C4: a consistent two-row source (a Bavaria region
and a Munich county stating it as parent, same country). -/
def c4Db : DB :=
  { continents := [], region_types := [], locality_types := [], data_sources := [],
    countries := [], regions := [], localities := [], locality_locations := [], names := [] }

def c4Rows : List DivisionRow :=
  [{ id := "r1", subtype := "region", cls := none, country := some "DE",
     region := some "DE-BY", parent_division_id := none,
     names := { primary := some "Bavaria", common := [], rules := [] },
     geometry := none, population := none },
   { id := "r2", subtype := "county", cls := none, country := some "DE",
     region := none, parent_division_id := some "r1",
     names := { primary := some "Munich", common := [], rules := [] },
     geometry := none, population := none }]

def c4Cache : CountryCache := [("DE", { id := 1, continent_id := 3 })]

def c4St : DB :=
  { continents := [], region_types := [], locality_types := [], data_sources := [],
    countries := [],
    regions :=
      [{ id := 1, country_id := 1, continent_id := none, parent_region_id := none,
         region_type_id := 1, code := "BY", name := "Bavaria",
         overture_id := some "r1", source_id := 1 },
       { id := 2, country_id := 1, continent_id := none, parent_region_id := some 1,
         region_type_id := 2, code := "MU", name := "Munich",
         overture_id := some "r2", source_id := 1 }],
    localities := [], locality_locations := [], names := [] }

theorem region_parent_country_invariant_witness :
    (c4Db.regions = [])
    ∧ regionParentSameCountry (import_regions c4Db c4Rows 1 c4Cache).regions
    ∧ regionParentsResolve (import_regions c4Db c4Rows 1 c4Cache).regions
    ∧ regionParentSameCountry (remap_disputed_territories c4St c4Cache).1.regions
    ∧ regionParentSameCountry (create_synthetic_regions c4St c4Cache).regions := by
  refine ⟨rfl, ?_, ?_, ?_, ?_⟩
  · exact ((region_parent_country_invariant c4Db c4Rows 1 c4Cache).1 rfl (by decide)).1
  · exact ((region_parent_country_invariant c4Db c4Rows 1 c4Cache).1 rfl (by decide)).2
  · exact ((region_parent_country_invariant c4Db c4Rows 1 c4Cache).2.1 c4St c4Cache).1
      (by decide)
  · exact ((region_parent_country_invariant c4Db c4Rows 1 c4Cache).2.2 c4St c4Cache).1
      (by decide) (by decide)

/-- C4 counterexample input: a German top-level region and a *French*
sub-region that states it as parent. -/
def c4BadRows : List DivisionRow :=
  [{ id := "r1", subtype := "region", cls := none, country := some "DE",
     region := some "DE-BY", parent_division_id := none,
     names := { primary := some "Bavaria", common := [], rules := [] },
     geometry := none, population := none },
   { id := "r2", subtype := "county", cls := none, country := some "FR",
     region := none, parent_division_id := some "r1",
     names := { primary := some "Alsace", common := [], rules := [] },
     geometry := none, population := none }]

def c4BadCache : CountryCache :=
  [("DE", { id := 1, continent_id := 3 }), ("FR", { id := 2, continent_id := 3 })]

/-- C4 counterexample: Pass 2 happily inserts the French sub-region
with the German region as parent — the frozen claim that the invariant
holds for every region row produced by the pipeline is false. -/
theorem region_parent_country_invariant_cex :
    ¬ regionParentSameCountry (import_regions c4Db c4BadRows 1 c4BadCache).regions := by
  decide

/-! ## Claim C1: machinery for the synthesis proof -/

/-- The synthetic region code a country-code group resolves to
(the region name is the only policy component that consults the
database, so code and target are pure functions of the country code). -/
def groupCode (cc : String) : String :=
  match alistGet SYNTHETIC_REGION_MAPPING cc with
  | some m => m.1
  | none => cc ++ "-GEN"

/-- The target country code a group resolves to. -/
def groupTarget (cc : String) : String :=
  match alistGet SYNTHETIC_REGION_MAPPING cc with
  | some m => m.2.2
  | none => cc

theorem groupPolicy_fst (db : DB) (cc : String) : (groupPolicy db cc).1 = groupCode cc := by
  unfold groupPolicy groupCode
  cases alistGet SYNTHETIC_REGION_MAPPING cc <;> rfl

theorem groupPolicy_target (db : DB) (cc : String) :
    (groupPolicy db cc).2.2 = groupTarget cc := by
  unfold groupPolicy groupTarget
  cases alistGet SYNTHETIC_REGION_MAPPING cc <;> rfl

/-- A group whose target country code is in the cache is processed
rather than warned about and skipped. -/
def targetCached (cache : CountryCache) (cc : String) : Prop :=
  (dictGet cache (groupTarget cc)).isSome

instance (cache : CountryCache) (cc : String) : Decidable (targetCached cache cc) := by
  unfold targetCached; infer_instance

/-- A Python dict built from entries with pairwise distinct keys is the
entry list itself. -/
theorem pyDict_eq_self {κ β : Type} [BEq κ] [LawfulBEq κ] :
    ∀ (l acc : List (κ × β)), ((acc ++ l).map Prod.fst).Nodup →
      l.foldl (fun acc p =>
        if acc.any (fun q => q.1 == p.1) then
          acc.map (fun q => if q.1 == p.1 then (q.1, p.2) else q)
        else acc ++ [p]) acc = acc ++ l := by
  intro l
  induction l with
  | nil => intro acc _; simp
  | cons e t ih =>
      intro acc hnd
      rw [List.foldl_cons]
      have hkey : e.1 ∉ acc.map Prod.fst := by
        intro hmem
        have : e.1 ∈ (acc.map Prod.fst) ∧ e.1 ∈ ((e :: t).map Prod.fst) := by
          exact ⟨hmem, by simp⟩
        rw [List.map_append] at hnd
        have hdisj := (List.nodup_append.mp hnd).2.2
        exact hdisj this.1 this.2
      have hany : acc.any (fun q => q.1 == e.1) = false := by
        rw [List.any_eq_false]
        intro q hq
        intro hbeq
        exact hkey (List.mem_map.mpr ⟨q, hq, eq_of_beq hbeq⟩)
      rw [hany]
      simp only [Bool.false_eq_true, if_false]
      have := ih (acc ++ [e]) (by
        rw [List.map_append] at hnd ⊢
        simpa [List.append_assoc] using hnd)
      rw [this, List.append_assoc]
      rfl

theorem pyDict_of_nodup {κ β : Type} [BEq κ] [LawfulBEq κ] (l : List (κ × β))
    (h : (l.map Prod.fst).Nodup) : pyDict l = l := by
  unfold pyDict
  have := pyDict_eq_self l [] (by simpa using h)
  simpa using this

/-- The keys of `localityParentEntries` form a sublist of the locality
ids, so distinct locality ids give distinct entry keys. -/
theorem localityParentEntries_keys_sublist (db : DB) :
    ((localityParentEntries db).map Prod.fst).Sublist (db.localities.map (fun l => l.id)) := by
  unfold localityParentEntries
  induction db.localities with
  | nil => simp
  | cons l ls ih =>
      rw [List.filterMap_cons, List.map_cons]
      cases ho : l.overture_id with
      | none => exact ih.cons _
      | some o =>
          simp only
          cases hf : db.countries.find? (fun c => c.id == l.country_id) with
          | none =>
              simp only [Option.map_none']
              exact ih.cons _
          | some c =>
              simp only [Option.map_some']
              rw [List.map_cons]
              exact ih.cons₂ _

theorem localityParentEntries_keys_nodup (db : DB)
    (h : (db.localities.map (fun l => l.id)).Nodup) :
    ((localityParentEntries db).map Prod.fst).Nodup :=
  (localityParentEntries_keys_sublist db).nodup h

/-- Every locality with an overture id and a resolvable country appears
in `localityParentEntries` with its raw parent and country code. -/
theorem mem_localityParentEntries (db : DB) (l : Locality) (hl : l ∈ db.localities)
    (ho : l.overture_id ≠ none)
    (hc : (db.countries.find? (fun c => c.id == l.country_id)).isSome) :
    ∃ c, db.countries.find? (fun c0 => c0.id == l.country_id) = some c
      ∧ (l.id, l.parent_overture_id, c.code) ∈ localityParentEntries db := by
  cases hf : db.countries.find? (fun c0 => c0.id == l.country_id) with
  | none => rw [hf] at hc; exact absurd hc (by simp)
  | some c =>
      refine ⟨c, rfl, ?_⟩
      unfold localityParentEntries
      refine List.mem_filterMap.mpr ⟨l, hl, ?_⟩
      cases hoo : l.overture_id with
      | none => exact absurd hoo ho
      | some o => simp only [hf, Option.map_some']

/-! ### Grouping fold lemmas -/

theorem addOrphan_preserve (gs : List (String × List Nat)) (cc : String) (lid : Nat) :
    ∀ g0 ∈ gs, ∃ g ∈ addOrphan gs cc lid, g.1 = g0.1 ∧ ∀ x ∈ g0.2, x ∈ g.2 := by
  intro g0 hg0
  unfold addOrphan
  by_cases hany : gs.any (fun g => g.1 == cc)
  · rw [if_pos hany]
    by_cases hcc : g0.1 == cc
    · refine ⟨(g0.1, g0.2 ++ [lid]), ?_, rfl, ?_⟩
      · refine List.mem_map.mpr ⟨g0, hg0, ?_⟩
        rw [if_pos hcc]
      · intro x hx
        exact List.mem_append_left _ hx
    · refine ⟨g0, ?_, rfl, fun x hx => hx⟩
      refine List.mem_map.mpr ⟨g0, hg0, ?_⟩
      rw [if_neg hcc]
  · rw [if_neg hany]
    exact ⟨g0, List.mem_append_left _ hg0, rfl, fun x hx => hx⟩

theorem addOrphan_added (gs : List (String × List Nat)) (cc : String) (lid : Nat) :
    ∃ g ∈ addOrphan gs cc lid, g.1 = cc ∧ lid ∈ g.2 := by
  unfold addOrphan
  by_cases hany : gs.any (fun g => g.1 == cc)
  · rw [if_pos hany]
    obtain ⟨g0, hg0, hkey⟩ := List.any_eq_true.mp hany
    refine ⟨(g0.1, g0.2 ++ [lid]), ?_, eq_of_beq hkey, ?_⟩
    · refine List.mem_map.mpr ⟨g0, hg0, ?_⟩
      rw [if_pos hkey]
    · exact List.mem_append_right _ (List.mem_singleton.mpr rfl)
  · rw [if_neg hany]
    exact ⟨(cc, [lid]), List.mem_append_right _ (List.mem_singleton.mpr rfl), rfl,
      List.mem_singleton.mpr rfl⟩

theorem addOrphan_nonempty (gs : List (String × List Nat)) (cc : String) (lid : Nat)
    (h : ∀ g ∈ gs, g.2 ≠ []) : ∀ g ∈ addOrphan gs cc lid, g.2 ≠ [] := by
  intro g hg
  unfold addOrphan at hg
  by_cases hany : gs.any (fun g => g.1 == cc)
  · rw [if_pos hany] at hg
    obtain ⟨g0, hg0, he⟩ := List.mem_map.mp hg
    by_cases hcc : g0.1 == cc
    · rw [if_pos hcc] at he
      rw [← he]
      simp
    · rw [if_neg hcc] at he
      rw [← he]
      exact h g0 hg0
  · rw [if_neg hany] at hg
    rcases List.mem_append.mp hg with h1 | h2
    · exact h g h1
    · rw [List.mem_singleton.mp h2]
      simp

/-- Completeness of the grouping fold: previously recorded orphans stay
grouped, and every orphan entry ends up in the group of its country
code. -/
theorem groupFold_complete (db : DB) :
    ∀ (es : List (Nat × Option String × String)) (gs : List (String × List Nat)),
      (∀ g0 ∈ gs, ∃ g ∈ es.foldl (fun groups e =>
          if localityAnchored db e.2.1 then groups else addOrphan groups e.2.2 e.1) gs,
        g.1 = g0.1 ∧ ∀ x ∈ g0.2, x ∈ g.2)
      ∧ (∀ e ∈ es, localityAnchored db e.2.1 = false →
          ∃ g ∈ es.foldl (fun groups e =>
            if localityAnchored db e.2.1 then groups else addOrphan groups e.2.2 e.1) gs,
          g.1 = e.2.2 ∧ e.1 ∈ g.2) := by
  intro es
  induction es with
  | nil =>
      intro gs
      refine ⟨fun g0 hg0 => ⟨g0, hg0, rfl, fun x hx => hx⟩, ?_⟩
      intro e he
      exact absurd he (List.not_mem_nil e)
  | cons e es ih =>
      intro gs
      rw [List.foldl_cons]
      by_cases ha : localityAnchored db e.2.1
      · rw [if_pos ha]
        obtain ⟨ih1, ih2⟩ := ih gs
        refine ⟨ih1, ?_⟩
        intro e0 he0 horph
        rcases List.mem_cons.mp he0 with h1 | h2
        · rw [h1] at horph
          rw [horph] at ha
          exact absurd ha (by simp)
        · exact ih2 e0 h2 horph
      · rw [if_neg ha]
        obtain ⟨ih1, ih2⟩ := ih (addOrphan gs e.2.2 e.1)
        constructor
        · intro g0 hg0
          obtain ⟨g1, hg1, hk1, hs1⟩ := addOrphan_preserve gs e.2.2 e.1 g0 hg0
          obtain ⟨g2, hg2, hk2, hs2⟩ := ih1 g1 hg1
          exact ⟨g2, hg2, by rw [hk2, hk1], fun x hx => hs2 x (hs1 x hx)⟩
        · intro e0 he0 horph
          rcases List.mem_cons.mp he0 with h1 | h2
          · obtain ⟨g1, hg1, hk1, hm1⟩ := addOrphan_added gs e.2.2 e.1
            obtain ⟨g2, hg2, hk2, hs2⟩ := ih1 g1 hg1
            rw [h1]
            exact ⟨g2, hg2, by rw [hk2, hk1], hs2 _ hm1⟩
          · exact ih2 e0 h2 horph

theorem groupFold_nonempty (db : DB) :
    ∀ (es : List (Nat × Option String × String)) (gs : List (String × List Nat)),
      (∀ g ∈ gs, g.2 ≠ []) →
      ∀ g ∈ es.foldl (fun groups e =>
          if localityAnchored db e.2.1 then groups else addOrphan groups e.2.2 e.1) gs,
        g.2 ≠ [] := by
  intro es
  induction es with
  | nil => intro gs h; exact h
  | cons e es ih =>
      intro gs h
      rw [List.foldl_cons]
      by_cases ha : localityAnchored db e.2.1
      · rw [if_pos ha]
        exact ih gs h
      · rw [if_neg ha]
        exact ih _ (addOrphan_nonempty gs e.2.2 e.1 h)

/-- `orphanGroups`, `localityAnchored` and friends only read the
regions, localities and countries tables. -/
theorem geo_congr (db db' : DB) (hr : db.regions = db'.regions)
    (hl : db.localities = db'.localities) (hc : db.countries = db'.countries) :
    regionOvertureIds db = regionOvertureIds db'
    ∧ otpGet db = otpGet db'
    ∧ localityParentEntries db = localityParentEntries db'
    ∧ localityAnchored db = localityAnchored db'
    ∧ orphanGroups db = orphanGroups db' := by
  have h1 : regionOvertureIds db = regionOvertureIds db' := by
    unfold regionOvertureIds; rw [hr]
  have h2 : overtureToParentEntries db = overtureToParentEntries db' := by
    unfold overtureToParentEntries; rw [hr, hl]
  have h3 : otpGet db = otpGet db' := by
    funext k; unfold otpGet; rw [h2]
  have h4 : localityParentEntries db = localityParentEntries db' := by
    unfold localityParentEntries; rw [hl, hc]
  have h5 : localityAnchored db = localityAnchored db' := by
    funext p; unfold localityAnchored; rw [h1, h3]
  have h6 : orphanGroups db = orphanGroups db' := by
    unfold orphanGroups; rw [h4, h5]
  exact ⟨h1, h3, h4, h5, h6⟩

/-! ### Walk monotonicity under synthesis -/

theorem synthOid_ne_empty (c : String) : ("synthetic:" ++ c) ≠ "" := by
  intro h
  have hlen : ("synthetic:" ++ c).length = 0 := by rw [h]; rfl
  rw [String.length_append] at hlen
  have : ("synthetic:" : String).length = 10 := rfl
  omega

theorem hasRegionAncestor_pos {R : List String} {M : String → Option String}
    {p : Option String} {f : Nat} (h : hasRegionAncestor R M p f = true) : 0 < f := by
  cases f with
  | zero => rw [hasRegionAncestor_zero] at h; exact absurd h (by simp)
  | succ t => exact Nat.succ_pos t

/-- If the known-region set only grows and the parent map changes only
by redirecting non-region nodes straight onto (non-empty) known region
ids, an anchored walk stays anchored. -/
theorem hasRegionAncestor_mono (R R' : List String) (M M' : String → Option String)
    (hR : ∀ s ∈ R, s ∈ R')
    (hM : ∀ x, x ∉ R' → (M' x = M x ∨ ∃ c, M' x = some c ∧ c ∈ R' ∧ c ≠ "")) :
    ∀ (f : Nat) (p : Option String),
      hasRegionAncestor R M p f = true → hasRegionAncestor R' M' p f = true := by
  intro f
  induction f with
  | zero =>
      intro p h
      rw [hasRegionAncestor_zero] at h
      exact absurd h (by simp)
  | succ t ih =>
      intro p h
      cases hn : chainNorm p with
      | none =>
          rw [hasRegionAncestor_succ_none R M p t hn] at h
          exact absurd h (by simp)
      | some s =>
          rw [hasRegionAncestor_succ_some R M p t hn] at h
          rw [hasRegionAncestor_succ_some R' M' p t hn]
          by_cases hsR' : s ∈ R'
          · rw [if_pos hsR']
          · have hsR : s ∉ R := fun hs => hsR' (hR s hs)
            rw [if_neg hsR] at h
            rw [if_neg hsR']
            rcases hM s hsR' with he | ⟨c, he, hcR', hce⟩
            · rw [he]
              exact ih (M s) h
            · rw [he]
              obtain ⟨u, hu⟩ := Nat.exists_eq_add_of_lt (hasRegionAncestor_pos h)
              rw [Nat.zero_add] at hu
              subst hu
              have hcn : chainNorm (some c) = some c := by
                simp [chainNorm, hce]
              rw [hasRegionAncestor_succ_some R' M' (some c) u hcn, if_pos hcR']

/-! ### Reading the combined parent dictionary -/

/-- The parent stored on the last locality row carrying a given
overture id (dict overwrite order), as an optional value. -/
def lastRowParent (ls : List Locality) (x : String) : Option String :=
  (ls.reverse.find? (fun l => l.overture_id == some x)).bind (fun l => l.parent_overture_id)

theorem find?_filterMap_oid (x : String) :
    ∀ (rs : List Locality),
      (rs.filterMap (fun l => l.overture_id.map (fun o => (o, l.parent_overture_id)))).find?
          (fun p => p.1 == x)
        = (rs.find? (fun l => l.overture_id == some x)).map
            (fun l => (x, l.parent_overture_id)) := by
  intro rs
  induction rs with
  | nil => rfl
  | cons l rs ih =>
      rw [List.filterMap_cons]
      cases ho : l.overture_id with
      | none =>
          simp only [Option.map_none']
          rw [List.find?_cons_of_neg _ (by rw [ho]; exact by simp)]
          exact ih
      | some o =>
          simp only [Option.map_some']
          by_cases hox : o = x
          · rw [List.find?_cons_of_pos _ (by simpa using hox),
              List.find?_cons_of_pos _ (by rw [ho]; simpa using hox)]
            rw [Option.map_some', hox]
          · rw [List.find?_cons_of_neg _ (by simpa using hox),
              List.find?_cons_of_neg _ (by rw [ho]; simpa using hox)]
            exact ih

theorem regionEntry_key_mem (db : DB) :
    ∀ p ∈ db.regions.filterMap (fun r =>
        r.overture_id.map (fun o => (o,
          match r.parent_region_id with
          | some pid =>
              (db.regions.find? (fun r2 : Region => r2.id == pid)).bind
                (fun r2 => r2.overture_id)
          | none => none))),
      p.1 ∈ regionOvertureIds db := by
  intro p hp
  obtain ⟨r, hr, hf⟩ := List.mem_filterMap.mp hp
  cases ho : r.overture_id with
  | none => rw [ho] at hf; exact absurd hf (by simp)
  | some o =>
      rw [ho, Option.map_some'] at hf
      injection hf with hf2
      rw [← hf2]
      unfold regionOvertureIds
      exact List.mem_filterMap.mpr ⟨r, hr, ho⟩

/-- For an id that is not any region's overture id, the combined
dictionary resolves through the locality entries only: the parent of
the last locality row with that overture id. -/
theorem otpGet_not_region (db : DB) (x : String) (hx : x ∉ regionOvertureIds db) :
    otpGet db x = lastRowParent db.localities x := by
  unfold otpGet dictGet overtureToParentEntries
  rw [List.reverse_append, List.find?_append]
  have hreg : (db.regions.filterMap (fun r =>
      r.overture_id.map (fun o => (o,
        match r.parent_region_id with
        | some pid =>
            (db.regions.find? (fun r2 : Region => r2.id == pid)).bind
              (fun r2 => r2.overture_id)
        | none => none)))).reverse.find? (fun p => p.1 == x) = none := by
    rw [List.find?_eq_none]
    intro p hp hbeq
    have hkey := regionEntry_key_mem db p (List.mem_reverse.mp hp)
    rw [eq_of_beq hbeq] at hkey
    exact hx hkey
  rw [hreg, Option.or_none]
  have hswap : (db.localities.filterMap
      (fun l => l.overture_id.map (fun o => (o, l.parent_overture_id)))).reverse
      = db.localities.reverse.filterMap
          (fun l => l.overture_id.map (fun o => (o, l.parent_overture_id))) := by
    rw [List.filterMap_reverse]
  rw [hswap, find?_filterMap_oid x db.localities.reverse]
  unfold lastRowParent
  cases db.localities.reverse.find? (fun l => l.overture_id == some x) with
  | none => rfl
  | some l0 => rfl

/-- Looking up the last row by overture id commutes with an
oid-preserving row transformation. -/
theorem lastRowParent_map (ls : List Locality) (F : Locality → Locality)
    (hoid : ∀ l, (F l).overture_id = l.overture_id) (x : String) :
    lastRowParent (ls.map F) x
      = ((ls.reverse.find? (fun l => l.overture_id == some x)).map F).bind
          (fun l => l.parent_overture_id) := by
  unfold lastRowParent
  rw [← List.map_reverse, List.find?_map]
  have hpred : ((fun l => l.overture_id == some x) ∘ F)
      = (fun l : Locality => l.overture_id == some x) := by
    funext l
    simp only [Function.comp_apply, hoid l]
  rw [hpred]

/-! ### Case analysis of one synthesis group step -/

theorem syntheticStep_skip (cache : CountryCache) (ss lg : Nat)
    (acc : DB × List (String × Nat)) (g : String × List Nat)
    (hd : dictGet cache (groupTarget g.1) = none) :
    syntheticStep cache ss lg acc g = acc := by
  simp only [syntheticStep, groupPolicy_target, hd]

theorem syntheticStep_localities_processed (cache : CountryCache) (ss lg : Nat)
    (acc : DB × List (String × Nat)) (g : String × List Nat) (info : CountryInfo)
    (hd : dictGet cache (groupTarget g.1) = some info) :
    (syntheticStep cache ss lg acc g).1.localities
      = acc.1.localities.map (fun l =>
          if g.2.contains l.id then
            { l with parent_overture_id := some ("synthetic:" ++ groupCode g.1) }
          else l) := by
  simp only [syntheticStep, groupPolicy_target, groupPolicy_fst, hd]
  by_cases hc : (alistGet acc.2 (groupCode g.1)).isSome
  · rw [if_pos hc]
  · rw [if_neg hc]
    cases hf : acc.1.regions.find? (fun r => r.code == groupCode g.1) with
    | some r0 => rfl
    | none => rfl

/-- The synthetic region row created for a fresh code. -/
def synthRegion (acc : DB × List (String × Nat)) (g : String × List Nat)
    (info : CountryInfo) (ss lg : Nat) : Region :=
  { id := freshRegionId acc.1.regions
    country_id := info.id
    continent_id := some info.continent_id
    parent_region_id := none
    region_type_id := lg
    code := groupCode g.1
    name := (groupPolicy acc.1 g.1).2.1
    overture_id := some ("synthetic:" ++ groupCode g.1)
    source_id := ss }

theorem syntheticStep_regions_cases (cache : CountryCache) (ss lg : Nat)
    (acc : DB × List (String × Nat)) (g : String × List Nat) (info : CountryInfo)
    (hd : dictGet cache (groupTarget g.1) = some info) :
    ((alistGet acc.2 (groupCode g.1)).isSome →
        (syntheticStep cache ss lg acc g).1.regions = acc.1.regions
        ∧ (syntheticStep cache ss lg acc g).2 = acc.2)
    ∧ (∀ r0, ¬(alistGet acc.2 (groupCode g.1)).isSome →
        acc.1.regions.find? (fun r => r.code == groupCode g.1) = some r0 →
        (syntheticStep cache ss lg acc g).1.regions = acc.1.regions
        ∧ (syntheticStep cache ss lg acc g).2 = acc.2 ++ [(groupCode g.1, r0.id)])
    ∧ (¬(alistGet acc.2 (groupCode g.1)).isSome →
        acc.1.regions.find? (fun r => r.code == groupCode g.1) = none →
        (syntheticStep cache ss lg acc g).1.regions
            = acc.1.regions ++ [synthRegion acc g info ss lg]
        ∧ (syntheticStep cache ss lg acc g).2
            = acc.2 ++ [(groupCode g.1, freshRegionId acc.1.regions)]) := by
  refine ⟨?_, ?_, ?_⟩
  · intro hc
    constructor <;>
      simp only [syntheticStep, groupPolicy_target, groupPolicy_fst, hd, if_pos hc]
  · intro r0 hc hf
    constructor <;>
      simp only [syntheticStep, groupPolicy_target, groupPolicy_fst, hd, if_neg hc, hf]
  · intro hc hf
    constructor <;>
      simp only [syntheticStep, synthRegion, groupPolicy_target, groupPolicy_fst, hd,
        if_neg hc, hf]

/-! ### The localities after the synthesis fold -/

theorem synthFold_localities (cache : CountryCache) (ss lg : Nat) :
    ∀ (gs : List (String × List Nat)) (acc : DB × List (String × Nat)),
      ∃ F : Locality → Locality,
        (gs.foldl (syntheticStep cache ss lg) acc).1.localities
            = acc.1.localities.map F
        ∧ (∀ l, (F l).id = l.id ∧ (F l).overture_id = l.overture_id
            ∧ ((F l).parent_overture_id = l.parent_overture_id
               ∨ ∃ g ∈ gs, targetCached cache g.1
                   ∧ (F l).parent_overture_id = some ("synthetic:" ++ groupCode g.1)))
        ∧ (∀ l g, g ∈ gs → targetCached cache g.1 → l.id ∈ g.2 →
            ∃ g' ∈ gs, targetCached cache g'.1
              ∧ (F l).parent_overture_id = some ("synthetic:" ++ groupCode g'.1)) := by
  intro gs
  induction gs with
  | nil =>
      intro acc
      refine ⟨id, by simp, ?_, ?_⟩
      · intro l
        exact ⟨rfl, rfl, Or.inl rfl⟩
      · intro l g hg
        exact absurd hg (List.not_mem_nil g)
  | cons g gs ih =>
      intro acc
      rw [List.foldl_cons]
      by_cases hp : targetCached cache g.1
      · obtain ⟨info, hd⟩ := Option.isSome_iff_exists.mp hp
        obtain ⟨F', hF'ls, hF'prop, hF'grp⟩ := ih (syntheticStep cache ss lg acc g)
        refine ⟨F' ∘ (fun l =>
            if g.2.contains l.id then
              { l with parent_overture_id := some ("synthetic:" ++ groupCode g.1) }
            else l), ?_, ?_, ?_⟩
        · rw [hF'ls, syntheticStep_localities_processed cache ss lg acc g info hd,
            List.map_map]
        · intro l
          set sl := if g.2.contains l.id then
              { l with parent_overture_id := some ("synthetic:" ++ groupCode g.1) }
            else l with hsl
          have hid : sl.id = l.id := by
            rw [hsl]; by_cases hcon : g.2.contains l.id
            · rw [if_pos hcon]
            · rw [if_neg hcon]
          have hoid : sl.overture_id = l.overture_id := by
            rw [hsl]; by_cases hcon : g.2.contains l.id
            · rw [if_pos hcon]
            · rw [if_neg hcon]
          obtain ⟨h1, h2, h3⟩ := hF'prop sl
          refine ⟨by rw [Function.comp_apply, h1, hid],
            by rw [Function.comp_apply, h2, hoid], ?_⟩
          rcases h3 with h3 | ⟨g', hg', hp', he'⟩
          · by_cases hcon : g.2.contains l.id
            · right
              refine ⟨g, List.mem_cons_self g gs, hp, ?_⟩
              rw [Function.comp_apply, h3, hsl, if_pos hcon]
            · left
              rw [Function.comp_apply, h3, hsl, if_neg hcon]
          · right
            exact ⟨g', List.mem_cons_of_mem g hg', hp', he'⟩
        · intro l g0 hg0 hp0 hmem
          set sl := if g.2.contains l.id then
              { l with parent_overture_id := some ("synthetic:" ++ groupCode g.1) }
            else l with hsl
          have hid : sl.id = l.id := by
            rw [hsl]; by_cases hcon : g.2.contains l.id
            · rw [if_pos hcon]
            · rw [if_neg hcon]
          rcases List.mem_cons.mp hg0 with h0 | h0
          · -- the head group reparents the row; the rest may re-reparent it
            have hcon : g.2.contains l.id = true := by
              rw [h0] at hmem
              exact List.elem_eq_true_of_mem hmem
            have hslp : sl.parent_overture_id = some ("synthetic:" ++ groupCode g.1) := by
              rw [hsl, if_pos hcon]
            obtain ⟨-, -, h3⟩ := hF'prop sl
            rcases h3 with h3 | ⟨g', hg', hp', he'⟩
            · refine ⟨g, List.mem_cons_self g gs, hp, ?_⟩
              rw [Function.comp_apply, h3, hslp]
            · exact ⟨g', List.mem_cons_of_mem g hg', hp', he'⟩
          · obtain ⟨g', hg', hp', he'⟩ := hF'grp sl g0 h0 hp0 (by rw [hid]; exact hmem)
            exact ⟨g', List.mem_cons_of_mem g hg', hp', he'⟩
      · -- the head group is skipped with a warning
        have hd : dictGet cache (groupTarget g.1) = none := by
          rcases hv : dictGet cache (groupTarget g.1) with - | v
          · rfl
          · exact absurd (by rw [targetCached, hv]; rfl) hp
        rw [syntheticStep_skip cache ss lg acc g hd]
        obtain ⟨F, h1, h2, h3⟩ := ih acc
        refine ⟨F, h1, ?_, ?_⟩
        · intro l
          obtain ⟨ha, hb, hc⟩ := h2 l
          refine ⟨ha, hb, ?_⟩
          rcases hc with hc | ⟨g', hg', hp', he'⟩
          · exact Or.inl hc
          · exact Or.inr ⟨g', List.mem_cons_of_mem g hg', hp', he'⟩
        · intro l g0 hg0 hp0 hmem
          rcases List.mem_cons.mp hg0 with h0 | h0
          · rw [h0] at hp0
            exact absurd hp0 hp
          · obtain ⟨g', hg', hp', he'⟩ := h3 l g0 h0 hp0 hmem
            exact ⟨g', List.mem_cons_of_mem g hg', hp', he'⟩

/-! ### Synthetic regions exist for every processed group -/

theorem alistGet_isSome_mem {α : Type} {l : List (String × α)} {k : String}
    (h : (alistGet l k).isSome) : ∃ v, (k, v) ∈ l := by
  unfold alistGet at h
  cases hf : l.find? (fun p => p.1 == k) with
  | none => rw [hf] at h; simp at h
  | some p =>
      have hm := List.mem_of_find?_eq_some hf
      have hk0 := List.find?_some hf
      simp only at hk0
      have hk : p.1 = k := eq_of_beq hk0
      refine ⟨p.2, ?_⟩
      have hpe : p = (k, p.2) := by
        cases p
        simp only at hk
        rw [hk]
      rw [← hpe]
      exact hm

theorem alistGet_append_isSome {α : Type} (l l' : List (String × α)) (k : String)
    (h : (alistGet l k).isSome) : (alistGet (l ++ l') k).isSome := by
  unfold alistGet at h ⊢
  rw [List.find?_append]
  cases hf : l.find? (fun p => p.1 == k) with
  | none => rw [hf] at h; simp at h
  | some p => simp

theorem alistGet_append_key {α : Type} (l : List (String × α)) (k : String) (v : α) :
    (alistGet (l ++ [(k, v)]) k).isSome := by
  unfold alistGet
  rw [List.find?_append]
  cases hf : l.find? (fun p => p.1 == k) with
  | none =>
      have : ([(k, v)].find? (fun p => p.1 == k)) = some (k, v) := by
        simp [List.find?]
      rw [this]
      simp
  | some p => simp

theorem synthFold_processed_region (cache : CountryCache) (ss lg : Nat) :
    ∀ (gs : List (String × List Nat)) (acc : DB × List (String × Nat)) (base : List Region),
      (∀ g ∈ gs, base.find? (fun r => r.code == groupCode g.1) = none) →
      (∃ accDelta, acc.1.regions = base ++ accDelta
        ∧ ∀ reg ∈ accDelta, reg.overture_id = some ("synthetic:" ++ reg.code)
            ∧ (alistGet acc.2 reg.code).isSome) →
      (∀ e ∈ acc.2, ∃ reg ∈ acc.1.regions,
          reg.overture_id = some ("synthetic:" ++ e.1)) →
      ∀ g ∈ gs, targetCached cache g.1 →
        ∃ reg ∈ (gs.foldl (syntheticStep cache ss lg) acc).1.regions,
          reg.overture_id = some ("synthetic:" ++ groupCode g.1) := by
  intro gs
  induction gs with
  | nil =>
      intro acc base _ _ _ g hg
      exact absurd hg (List.not_mem_nil g)
  | cons g0 gs ih =>
      intro acc base hfresh hdelta hcreated g hg hpg
      rw [List.foldl_cons]
      by_cases hp0 : targetCached cache g0.1
      · obtain ⟨info, hd⟩ := Option.isSome_iff_exists.mp hp0
        obtain ⟨hcase1, hcase2, hcase3⟩ := syntheticStep_regions_cases cache ss lg acc g0 info hd
        by_cases hc : (alistGet acc.2 (groupCode g0.1)).isSome
        · -- the code was created by an earlier group in this run
          obtain ⟨hreg, hcre⟩ := hcase1 hc
          have hg0reg : ∃ reg ∈ (syntheticStep cache ss lg acc g0).1.regions,
              reg.overture_id = some ("synthetic:" ++ groupCode g0.1) := by
            obtain ⟨v, hv⟩ := alistGet_isSome_mem hc
            obtain ⟨reg, hregm, hrego⟩ := hcreated (groupCode g0.1, v) hv
            exact ⟨reg, by rw [hreg]; exact hregm, hrego⟩
          rcases List.mem_cons.mp hg with h0 | h0
          · obtain ⟨reg, hregm, hrego⟩ := hg0reg
            obtain ⟨d2, hd2, -⟩ := synth_fold_regions cache ss lg gs
              (syntheticStep cache ss lg acc g0)
            refine ⟨reg, ?_, by rw [h0]; exact hrego⟩
            rw [hd2]
            exact List.mem_append_left _ hregm
          · refine ih (syntheticStep cache ss lg acc g0) base
              (fun g1 hg1 => hfresh g1 (List.mem_cons_of_mem g0 hg1)) ?_ ?_ g h0 hpg
            · obtain ⟨accDelta, ha, hb⟩ := hdelta
              refine ⟨accDelta, by rw [hreg, ha], ?_⟩
              intro reg hregm
              obtain ⟨h1, h2⟩ := hb reg hregm
              exact ⟨h1, by rw [hcre]; exact h2⟩
            · intro e he
              rw [hcre] at he
              obtain ⟨reg, hregm, hrego⟩ := hcreated e he
              exact ⟨reg, by rw [hreg]; exact hregm, hrego⟩
        · cases hf : acc.1.regions.find? (fun r => r.code == groupCode g0.1) with
          | some r0 =>
              -- impossible: the base has no such code and run-created codes
              -- are all in `created_regions`
              exfalso
              obtain ⟨accDelta, haccr, hinv⟩ := hdelta
              rw [haccr, List.find?_append,
                hfresh g0 (List.mem_cons_self g0 gs), Option.none_or] at hf
              have hr0m := List.mem_of_find?_eq_some hf
              have hr0b := List.find?_some hf
              simp only at hr0b
              have hr0c : r0.code = groupCode g0.1 := eq_of_beq hr0b
              have hs := (hinv r0 hr0m).2
              rw [hr0c] at hs
              exact hc hs
          | none =>
              obtain ⟨hreg, hcre⟩ := hcase3 hc hf
              have hg0reg : ∃ reg ∈ (syntheticStep cache ss lg acc g0).1.regions,
                  reg.overture_id = some ("synthetic:" ++ groupCode g0.1) := by
                refine ⟨synthRegion acc g0 info ss lg, ?_, rfl⟩
                rw [hreg]
                exact List.mem_append_right _ (List.mem_singleton.mpr rfl)
              rcases List.mem_cons.mp hg with h0 | h0
              · obtain ⟨reg, hregm, hrego⟩ := hg0reg
                obtain ⟨d2, hd2, -⟩ := synth_fold_regions cache ss lg gs
                  (syntheticStep cache ss lg acc g0)
                refine ⟨reg, ?_, by rw [h0]; exact hrego⟩
                rw [hd2]
                exact List.mem_append_left _ hregm
              · refine ih (syntheticStep cache ss lg acc g0) base
                  (fun g1 hg1 => hfresh g1 (List.mem_cons_of_mem g0 hg1)) ?_ ?_ g h0 hpg
                · obtain ⟨accDelta, ha, hb⟩ := hdelta
                  refine ⟨accDelta ++ [synthRegion acc g0 info ss lg], ?_, ?_⟩
                  · rw [hreg, ha, List.append_assoc]
                  · intro reg hregm
                    rcases List.mem_append.mp hregm with h1 | h2
                    · obtain ⟨ha1, ha2⟩ := hb reg h1
                      exact ⟨ha1, by rw [hcre]; exact alistGet_append_isSome _ _ _ ha2⟩
                    · rw [List.mem_singleton.mp h2]
                      refine ⟨rfl, ?_⟩
                      rw [hcre]
                      exact alistGet_append_key _ _ _
                · intro e he
                  rw [hcre] at he
                  rcases List.mem_append.mp he with h1 | h2
                  · obtain ⟨reg, hregm, hrego⟩ := hcreated e h1
                    refine ⟨reg, ?_, hrego⟩
                    rw [hreg]
                    exact List.mem_append_left _ hregm
                  · rw [List.mem_singleton.mp h2]
                    refine ⟨synthRegion acc g0 info ss lg, ?_, rfl⟩
                    rw [hreg]
                    exact List.mem_append_right _ (List.mem_singleton.mpr rfl)
      · have hd : dictGet cache (groupTarget g0.1) = none := by
          cases hv : dictGet cache (groupTarget g0.1) with
          | none => rfl
          | some v => exact absurd (by rw [targetCached, hv]; rfl) hp0
        rw [syntheticStep_skip cache ss lg acc g0 hd]
        rcases List.mem_cons.mp hg with h0 | h0
        · rw [h0] at hpg
          exact absurd hpg hp0
        · exact ih acc base (fun g1 hg1 => hfresh g1 (List.mem_cons_of_mem g0 hg1))
            hdelta hcreated g h0 hpg

/-! ### Claim C1: anchoring after synthesis -/

theorem anchored_one_hop (R : List String) (M : String → Option String) {s : String}
    (hs : s ∈ R) (hne : s ≠ "") {f : Nat} (hf : 0 < f) :
    hasRegionAncestor R M (some s) f = true := by
  obtain ⟨t, ht⟩ := Nat.exists_eq_add_of_lt hf
  rw [Nat.zero_add] at ht
  subst ht
  have hcn : chainNorm (some s) = some s := by
    simp only [chainNorm]
    rw [if_neg hne]
  rw [hasRegionAncestor_succ_some R M (some s) t hcn, if_pos hs]

theorem orphanGroups_of_sum_zero (db : DB)
    (h : (orphanGroups db).foldr (fun g n => g.2.length + n) 0 = 0) :
    orphanGroups db = [] := by
  cases hg : orphanGroups db with
  | nil => rfl
  | cons g t =>
      exfalso
      have hnon := groupFold_nonempty db (pyDict (localityParentEntries db)) []
        (fun g0 h0 => absurd h0 (List.not_mem_nil g0))
      have hgmem : g ∈ orphanGroups db := by
        rw [hg]
        exact List.mem_cons_self g t
      have hne : g.2 ≠ [] := hnon g hgmem
      rw [hg, List.foldr_cons] at h
      have hlen : g.2.length = 0 := by omega
      exact hne (List.length_eq_zero.mp hlen)

theorem entries_anchored_of_no_groups (db : DB) (h : orphanGroups db = []) :
    ∀ e ∈ pyDict (localityParentEntries db), localityAnchored db e.2.1 = true := by
  intro e he
  by_cases ha : localityAnchored db e.2.1
  · exact ha
  · exfalso
    obtain ⟨g, hgmem, -, -⟩ :=
      (groupFold_complete db (pyDict (localityParentEntries db)) []).2 e he
        (Bool.eq_false_iff.mpr ha)
    have hgm2 : g ∈ orphanGroups db := hgmem
    rw [h] at hgm2
    exact List.not_mem_nil g hgm2

/-- C1 (corrected): synthesis closes all orphan chains only under the
source-data hypotheses that locality ids are distinct, every locality
carries an overture id and a resolvable country (otherwise the
classification query never sees it), every orphan group's target
country code is in the country cache (otherwise the group is skipped
with a warning), and no pre-existing region row already uses a group's
synthetic region code; under these, every locality of the resulting
database is anchored by the bounded walk. -/
theorem synthesis_anchors_all_localities (db : DB) (cache : CountryCache)
    (hids : (db.localities.map (fun l => l.id)).Nodup)
    (hoid : ∀ l ∈ db.localities, l.overture_id ≠ none)
    (hctry : ∀ l ∈ db.localities,
      (db.countries.find? (fun c => c.id == l.country_id)).isSome = true)
    (htgt : ∀ g ∈ orphanGroups db, targetCached cache g.1)
    (hfresh : ∀ g ∈ orphanGroups db,
      db.regions.find? (fun r => r.code == groupCode g.1) = none) :
    ∀ l ∈ (create_synthetic_regions db cache).localities,
      localityAnchored (create_synthetic_regions db cache) l.parent_overture_id = true := by
  intro l hl
  have hgeo1 := ensureSyntheticSource_geo db
  have hgeo2 := ensureLocalityGroupType_geo (ensureSyntheticSource db).1
  simp only [create_synthetic_regions] at hl ⊢
  set ss := (ensureSyntheticSource db).2 with hss
  set lg := (ensureLocalityGroupType (ensureSyntheticSource db).1).2 with hlg
  set db2 := (ensureLocalityGroupType (ensureSyntheticSource db).1).1 with hdb2
  have hr2 : db2.regions = db.regions := hgeo2.1.trans hgeo1.1
  have hl2 : db2.localities = db.localities := hgeo2.2.1.trans hgeo1.2.1
  have hc2 : db2.countries = db.countries := hgeo2.2.2.trans hgeo1.2.2
  obtain ⟨hR2, hM2, hE2, hA2, hG2⟩ := geo_congr db2 db hr2 hl2 hc2
  have hpy : pyDict (localityParentEntries db) = localityParentEntries db :=
    pyDict_of_nodup _ (localityParentEntries_keys_nodup db hids)
  by_cases hz : (orphanGroups db2).foldr (fun g n => g.2.length + n) 0 = 0
  · rw [if_pos hz] at hl ⊢
    rw [hA2]
    rw [hl2] at hl
    have hgz : orphanGroups db = [] := by
      refine orphanGroups_of_sum_zero db ?_
      rw [← hG2]
      exact hz
    obtain ⟨c, hfind, hmem⟩ := mem_localityParentEntries db l hl (hoid l hl) (hctry l hl)
    exact entries_anchored_of_no_groups db hgz (l.id, l.parent_overture_id, c.code)
      (by rw [hpy]; exact hmem)
  · rw [if_neg hz] at hl ⊢
    set gs := (orphanGroups db2).mergeSort (fun a b => decide (b.2.length ≤ a.2.length))
      with hgsd
    set dbf := (gs.foldl (syntheticStep cache ss lg) (db2, [])).1 with hdbf
    have hperm : ∀ g, g ∈ gs ↔ g ∈ orphanGroups db := by
      intro g
      rw [hgsd, (List.mergeSort_perm _ _).mem_iff, hG2]
    obtain ⟨F, hFls0, hFprop, hFgrp⟩ := synthFold_localities cache ss lg gs (db2, [])
    have hFls : dbf.localities = db2.localities.map F := hFls0
    obtain ⟨delta, hdelta0, -⟩ := synth_fold_regions cache ss lg gs (db2, [])
    have hdelta : dbf.regions = db2.regions ++ delta := hdelta0
    have hproc : ∀ g ∈ gs, targetCached cache g.1 →
        ∃ reg ∈ dbf.regions, reg.overture_id = some ("synthetic:" ++ groupCode g.1) := by
      intro g hg hp
      refine synthFold_processed_region cache ss lg gs (db2, []) db2.regions ?_
        ⟨[], by simp, by intro reg hm; exact absurd hm (List.not_mem_nil reg)⟩
        (by intro e he; exact absurd he (List.not_mem_nil e)) g hg hp
      intro g1 hg1
      rw [hr2]
      exact hfresh g1 ((hperm g1).mp hg1)
    have hRsub : ∀ s ∈ regionOvertureIds db2, s ∈ regionOvertureIds dbf := by
      intro s hs
      unfold regionOvertureIds at hs ⊢
      obtain ⟨r, hr, ho⟩ := List.mem_filterMap.mp hs
      refine List.mem_filterMap.mpr ⟨r, ?_, ho⟩
      rw [hdelta]
      exact List.mem_append_left _ hr
    have hMono : ∀ x, x ∉ regionOvertureIds dbf →
        (otpGet dbf x = otpGet db2 x
          ∨ ∃ c, otpGet dbf x = some c ∧ c ∈ regionOvertureIds dbf ∧ c ≠ "") := by
      intro x hx
      have hx2 : x ∉ regionOvertureIds db2 := fun hh => hx (hRsub x hh)
      rw [otpGet_not_region dbf x hx, otpGet_not_region db2 x hx2, hFls,
        lastRowParent_map db2.localities F (fun l0 => (hFprop l0).2.1) x]
      cases hfind : db2.localities.reverse.find? (fun l0 => l0.overture_id == some x) with
      | none =>
          left
          unfold lastRowParent
          rw [hfind]
          rfl
      | some l1 =>
          rcases (hFprop l1).2.2 with heq | ⟨g, hg, hpg, hsyn⟩
          · left
            unfold lastRowParent
            rw [hfind]
            exact heq
          · right
            refine ⟨"synthetic:" ++ groupCode g.1, hsyn, ?_, synthOid_ne_empty _⟩
            obtain ⟨reg, hregm, hrego⟩ := hproc g hg hpg
            unfold regionOvertureIds
            exact List.mem_filterMap.mpr ⟨reg, hregm, hrego⟩
    rw [hFls] at hl
    obtain ⟨l0, hl0, hFl0⟩ := List.mem_map.mp hl
    subst hFl0
    by_cases hanch : localityAnchored db2 l0.parent_overture_id
    · rcases (hFprop l0).2.2 with hpar | ⟨g, hg, hpg, hsyn⟩
      · unfold localityAnchored at hanch ⊢
        rw [hpar]
        exact hasRegionAncestor_mono (regionOvertureIds db2) (regionOvertureIds dbf)
          (otpGet db2) (otpGet dbf) hRsub hMono ORPHAN_MAX_DEPTH
          l0.parent_overture_id hanch
      · unfold localityAnchored
        rw [hsyn]
        refine anchored_one_hop _ _ ?_ (synthOid_ne_empty _) (by decide)
        obtain ⟨reg, hregm, hrego⟩ := hproc g hg hpg
        unfold regionOvertureIds
        exact List.mem_filterMap.mpr ⟨reg, hregm, hrego⟩
    · rw [hA2] at hanch
      rw [hl2] at hl0
      obtain ⟨c, hfind, hmem⟩ := mem_localityParentEntries db l0 hl0 (hoid l0 hl0)
        (hctry l0 hl0)
      obtain ⟨g0, hg0mem, -, hg0id⟩ :=
        (groupFold_complete db (pyDict (localityParentEntries db)) []).2
          (l0.id, l0.parent_overture_id, c.code) (by rw [hpy]; exact hmem)
          (Bool.eq_false_iff.mpr hanch)
      have hg0mem2 : g0 ∈ orphanGroups db := hg0mem
      obtain ⟨g1, hg1, hp1, he1⟩ := hFgrp l0 g0 ((hperm g0).mpr hg0mem2)
        (htgt g0 hg0mem2) hg0id
      unfold localityAnchored
      rw [he1]
      refine anchored_one_hop _ _ ?_ (synthOid_ne_empty _) (by decide)
      obtain ⟨reg, hregm, hrego⟩ := hproc g1 hg1 hp1
      unfold regionOvertureIds
      exact List.mem_filterMap.mpr ⟨reg, hregm, hrego⟩

/-- C1 witness input: one country `QQ` (present in the cache) and one
orphan locality with no raw parent. -/
def c1Loc : Locality :=
  { id := 1
    locality_type_id := 1
    name := "Qtown"
    name_ascii := "Qtown"
    timezone := "UTC"
    population := none
    continent_id := 1
    country_id := 1
    source_id := 1
    overture_id := some "locA"
    parent_overture_id := none }

def c1Db : DB :=
  { continents := []
    region_types := []
    locality_types := []
    data_sources := []
    countries := [{ id := 1, code := "QQ", name := "Qland", continent_id := 1,
                    source_id := 1, overture_id := none }]
    regions := []
    localities := [c1Loc]
    locality_locations := []
    names := [] }

def c1Cache : CountryCache := [("QQ", { id := 1, continent_id := 1 })]

/-- The orphan locality as it leaves the witness synthesis run:
reparented onto the generated synthetic region. -/
def c1LocOut : Locality :=
  { c1Loc with parent_overture_id := some "synthetic:QQ-GEN" }

theorem synthesis_anchors_all_localities_witness :
    localityAnchored (create_synthetic_regions c1Db c1Cache)
      c1LocOut.parent_overture_id = true := by
  have hgr : orphanGroups (ensureLocalityGroupType (ensureSyntheticSource c1Db).1).1
      = [("QQ", [1])] := by decide
  have hms : ([(("QQ" : String), [(1 : Nat)])]).mergeSort
      (fun a b => decide (b.2.length ≤ a.2.length)) = [("QQ", [1])] := by
    rw [List.mergeSort_singleton]
  have hstep : create_synthetic_regions c1Db c1Cache
      = (syntheticStep c1Cache (ensureSyntheticSource c1Db).2
          (ensureLocalityGroupType (ensureSyntheticSource c1Db).1).2
          ((ensureLocalityGroupType (ensureSyntheticSource c1Db).1).1, [])
          ("QQ", [1])).1 := by
    simp only [create_synthetic_regions, hgr, hms]
    rw [if_neg (by decide), List.foldl_cons, List.foldl_nil]
  have hmem : c1LocOut ∈ (create_synthetic_regions c1Db c1Cache).localities := by
    rw [hstep]
    decide
  exact synthesis_anchors_all_localities c1Db c1Cache (by decide) (by decide) (by decide)
    (by decide) (by decide) c1LocOut hmem

/-- C1 counterexample input: the same orphan locality, but the country
cache does not contain the group's target code, so the group is skipped
and the orphan survives synthesis. -/
def c1CexCache : CountryCache := []

theorem synthesis_leaves_orphan_cex :
    ¬ (∀ l ∈ (create_synthetic_regions c1Db c1CexCache).localities,
        localityAnchored (create_synthetic_regions c1Db c1CexCache)
          l.parent_overture_id = true) := by
  intro h
  have hgr : orphanGroups (ensureLocalityGroupType (ensureSyntheticSource c1Db).1).1
      = [("QQ", [1])] := by decide
  have hms : ([(("QQ" : String), [(1 : Nat)])]).mergeSort
      (fun a b => decide (b.2.length ≤ a.2.length)) = [("QQ", [1])] := by
    rw [List.mergeSort_singleton]
  have hstep : create_synthetic_regions c1Db c1CexCache
      = (ensureLocalityGroupType (ensureSyntheticSource c1Db).1).1 := by
    simp only [create_synthetic_regions, hgr, hms]
    rw [if_neg (by decide), List.foldl_cons, List.foldl_nil,
      syntheticStep_skip _ _ _ _ _ (by decide)]
  have hmem : c1Loc ∈ (create_synthetic_regions c1Db c1CexCache).localities := by
    rw [hstep]
    decide
  have hanch := h c1Loc hmem
  rw [hstep] at hanch
  have hfa : localityAnchored (ensureLocalityGroupType (ensureSyntheticSource c1Db).1).1
      c1Loc.parent_overture_id = false := by decide
  rw [hfa] at hanch
  exact Bool.false_ne_true hanch

/-! ## Claim C3: machinery for the territory-remap proof -/

theorem find?_filter_ne {α : Type} (k s : String) (h : k ≠ s) :
    ∀ m : List (String × α),
      (m.filter (fun p => !(p.1 == s))).find? (fun p => p.1 == k)
        = m.find? (fun p => p.1 == k) := by
  intro m
  induction m with
  | nil => rfl
  | cons e t ih =>
      rw [List.filter_cons]
      by_cases he : (e.1 == s) = true
      · rw [if_neg (by rw [he]; simp)]
        have h2 : List.find? (fun p => p.1 == k) (e :: t) =
            List.find? (fun p => p.1 == k) t :=
          List.find?_cons_of_neg _ (fun hx => h ((eq_of_beq hx).symm.trans (eq_of_beq he)))
        rw [h2]
        exact ih
      · rw [if_pos (by rw [Bool.eq_false_iff.mpr he]; rfl)]
        by_cases hk : (e.1 == k) = true
        · have h1 : List.find? (fun p => p.1 == k)
              (e :: t.filter (fun p => !(p.1 == s))) = some e :=
            List.find?_cons_of_pos _ hk
          have h2 : List.find? (fun p => p.1 == k) (e :: t) = some e :=
            List.find?_cons_of_pos _ hk
          rw [h1, h2]
        · have h1 : List.find? (fun p => p.1 == k)
              (e :: t.filter (fun p => !(p.1 == s)))
              = List.find? (fun p => p.1 == k) (t.filter (fun p => !(p.1 == s))) :=
            List.find?_cons_of_neg _ hk
          have h2 : List.find? (fun p => p.1 == k) (e :: t)
              = List.find? (fun p => p.1 == k) t :=
            List.find?_cons_of_neg _ hk
          rw [h1, h2]
          exact ih

theorem dictGet_filter_ne {α : Type} (l : List (String × α)) (k s : String) (h : k ≠ s) :
    dictGet (l.filter (fun p => !(p.1 == s))) k = dictGet l k := by
  unfold dictGet
  rw [← List.filter_reverse, find?_filter_ne k s h l.reverse]

theorem dictGet_filter_self {α : Type} (l : List (String × α)) (s : String) :
    dictGet (l.filter (fun p => !(p.1 == s))) s = none := by
  unfold dictGet
  rw [← List.filter_reverse]
  have : (l.reverse.filter (fun p => !(p.1 == s))).find? (fun p => p.1 == s) = none := by
    rw [List.find?_eq_none]
    intro p hp
    have := List.of_mem_filter hp
    simp only [Bool.not_eq_true'] at this
    simp [this]
  rw [this]
  rfl

theorem dictGet_filter_none {α : Type} (l : List (String × α)) (p : String × α → Bool)
    (k : String) (h : dictGet l k = none) : dictGet (l.filter p) k = none := by
  unfold dictGet at h ⊢
  rw [← List.filter_reverse]
  cases hf : l.reverse.find? (fun q => q.1 == k) with
  | some q => rw [hf] at h; exact absurd h (by simp)
  | none =>
      have hnone : (l.reverse.filter p).find? (fun q => q.1 == k) = none := by
        rw [List.find?_eq_none] at hf ⊢
        intro x hx
        exact hf x (List.mem_of_mem_filter hx)
      rw [hnone]
      rfl

/-- The structure of one processed remap pair: countries are filtered
by the source id, regions are remapped, the cache drops the source
code, and the locality table is (up to the placeholder deletion) either
the remapped list or the remapped list with parents pointing at the
placeholder's overture id cleared. -/
theorem remapPair_shape (db : DB) (cache : CountryCache) (s t : String)
    (si ti : CountryInfo) (hs : dictGet cache s = some si) (ht : dictGet cache t = some ti) :
    (remapPair db cache s t).1.countries = db.countries.filter (fun c => !(c.id == si.id))
    ∧ (remapPair db cache s t).1.regions = db.regions.map (fun r =>
        if r.country_id == si.id then
          { r with country_id := ti.id, continent_id := some ti.continent_id }
        else r)
    ∧ (remapPair db cache s t).2 = cache.filter (fun p => !(p.1 == s))
    ∧ ∃ ls3 : List Locality,
        ((remapPair db cache s t).1.localities = ls3
          ∨ ∃ plid, (remapPair db cache s t).1.localities
              = ls3.filter (fun l => !(l.id == plid)))
        ∧ (ls3 = db.localities.map (fun l =>
              if l.country_id == si.id then
                { l with country_id := ti.id, continent_id := ti.continent_id }
              else l)
          ∨ ∃ oid, ls3 = (db.localities.map (fun l =>
              if l.country_id == si.id then
                { l with country_id := ti.id, continent_id := ti.continent_id }
              else l)).map (fun l =>
                if l.parent_overture_id == some oid then
                  { l with parent_overture_id := none }
                else l)) := by
  refine ⟨?_, ?_, ?_, ?_⟩
  · simp only [remapPair, hs, ht]
  · simp only [remapPair, hs, ht]
  · simp only [remapPair, hs, ht]
  · cases hrow : db.countries.find? (fun c => c.id == si.id) with
    | none =>
        refine ⟨_, Or.inl ?_, Or.inl rfl⟩
        simp only [remapPair, hs, ht, hrow, Option.map_none']
    | some c0 =>
        by_cases hnm : c0.name = ""
        · refine ⟨_, Or.inl ?_, Or.inl rfl⟩
          simp only [remapPair, hs, ht, hrow, Option.map_some', if_pos hnm]
        · cases hf : (db.localities.map (fun l =>
              if l.country_id == si.id then
                { l with country_id := ti.id, continent_id := ti.continent_id }
              else l)).find? (fun l =>
                l.country_id == ti.id && l.parent_overture_id == none
                  && l.name == c0.name) with
          | none =>
              refine ⟨_, Or.inl ?_, Or.inl rfl⟩
              simp only [remapPair, hs, ht, hrow, Option.map_some', if_neg hnm, hf]
          | some pl =>
              by_cases hid : pl.id ≠ 0
              · refine ⟨?_, Or.inr ⟨pl.id, ?_⟩, ?_⟩
                · exact match pl.overture_id with
                    | some oid =>
                        if oid = "" then
                          db.localities.map (fun l =>
                            if l.country_id == si.id then
                              { l with country_id := ti.id,
                                       continent_id := ti.continent_id }
                            else l)
                        else
                          (db.localities.map (fun l =>
                            if l.country_id == si.id then
                              { l with country_id := ti.id,
                                       continent_id := ti.continent_id }
                            else l)).map (fun l =>
                              if l.parent_overture_id == some oid then
                                { l with parent_overture_id := none }
                              else l)
                    | none =>
                        db.localities.map (fun l =>
                          if l.country_id == si.id then
                            { l with country_id := ti.id,
                                     continent_id := ti.continent_id }
                          else l)
                · simp only [remapPair, hs, ht, hrow, Option.map_some', if_neg hnm, hf,
                    if_pos hid]
                · cases ho : pl.overture_id with
                  | none => exact Or.inl (by simp only [ho])
                  | some oid =>
                      by_cases hoe : oid = ""
                      · exact Or.inl (by simp only [ho, if_pos hoe])
                      · exact Or.inr ⟨oid, by simp only [ho, if_neg hoe]⟩
              · refine ⟨?_, Or.inl ?_, ?_⟩
                · exact match pl.overture_id with
                    | some oid =>
                        if oid = "" then
                          db.localities.map (fun l =>
                            if l.country_id == si.id then
                              { l with country_id := ti.id,
                                       continent_id := ti.continent_id }
                            else l)
                        else
                          (db.localities.map (fun l =>
                            if l.country_id == si.id then
                              { l with country_id := ti.id,
                                       continent_id := ti.continent_id }
                            else l)).map (fun l =>
                              if l.parent_overture_id == some oid then
                                { l with parent_overture_id := none }
                              else l)
                    | none =>
                        db.localities.map (fun l =>
                          if l.country_id == si.id then
                            { l with country_id := ti.id,
                                     continent_id := ti.continent_id }
                          else l)
                · simp only [remapPair, hs, ht, hrow, Option.map_some', if_neg hnm, hf,
                    if_neg hid]
                · cases ho : pl.overture_id with
                  | none => exact Or.inl (by simp only [ho])
                  | some oid =>
                      by_cases hoe : oid = ""
                      · exact Or.inl (by simp only [ho, if_pos hoe])
                      · exact Or.inr ⟨oid, by simp only [ho, if_neg hoe]⟩

/-- Every locality surviving a processed pair owes its country either
to the target or to an untouched (non-source) original row. -/
theorem remapPair_localities_country (db : DB) (cache : CountryCache) (s t : String)
    (si ti : CountryInfo) (hs : dictGet cache s = some si) (ht : dictGet cache t = some ti) :
    ∀ l ∈ (remapPair db cache s t).1.localities,
      l.country_id = ti.id
      ∨ ∃ l0 ∈ db.localities, l.country_id = l0.country_id ∧ l0.country_id ≠ si.id := by
  obtain ⟨-, -, -, ls3, h4, h3⟩ := remapPair_shape db cache s t si ti hs ht
  have hls3 : ∀ l ∈ ls3,
      l.country_id = ti.id
      ∨ ∃ l0 ∈ db.localities, l.country_id = l0.country_id ∧ l0.country_id ≠ si.id := by
    have hls2 : ∀ l ∈ db.localities.map (fun l =>
        if l.country_id == si.id then
          { l with country_id := ti.id, continent_id := ti.continent_id }
        else l),
        l.country_id = ti.id
        ∨ ∃ l0 ∈ db.localities, l.country_id = l0.country_id ∧ l0.country_id ≠ si.id := by
      intro l hl
      obtain ⟨l0, hl0, he⟩ := List.mem_map.mp hl
      by_cases hc : (l0.country_id == si.id) = true
      · rw [if_pos hc] at he
        exact Or.inl (by rw [← he])
      · rw [if_neg hc] at he
        exact Or.inr ⟨l0, hl0, by rw [← he], beq_eq_false_iff_ne.mp
          (Bool.eq_false_iff.mpr hc)⟩
    rcases h3 with h3 | ⟨oid, h3⟩
    · rw [h3]
      exact hls2
    · rw [h3]
      intro l hl
      obtain ⟨l2, hl2, he⟩ := List.mem_map.mp hl
      have hcountry : l.country_id = l2.country_id := by
        by_cases hc : (l2.parent_overture_id == some oid) = true
        · rw [if_pos hc] at he
          rw [← he]
        · rw [if_neg hc] at he
          rw [← he]
      rcases hls2 l2 hl2 with h | ⟨l0, hl0, he0, hn0⟩
      · exact Or.inl (hcountry.trans h)
      · exact Or.inr ⟨l0, hl0, hcountry.trans he0, hn0⟩
  rcases h4 with h4 | ⟨plid, h4⟩
  · rw [h4]
    exact hls3
  · rw [h4]
    intro l hl
    exact hls3 l (List.mem_of_mem_filter hl)

/-- After a processed pair no table row carries the source country's
surrogate id, and the source code is gone from the cache. -/
theorem remapPair_no_source (db : DB) (cache : CountryCache) (s t : String)
    (si ti : CountryInfo) (hs : dictGet cache s = some si) (ht : dictGet cache t = some ti)
    (hneq : si.id ≠ ti.id) :
    (∀ c ∈ (remapPair db cache s t).1.countries, c.id ≠ si.id)
    ∧ (∀ r ∈ (remapPair db cache s t).1.regions, r.country_id ≠ si.id)
    ∧ (∀ l ∈ (remapPair db cache s t).1.localities, l.country_id ≠ si.id)
    ∧ dictGet (remapPair db cache s t).2 s = none := by
  obtain ⟨hc, hr, hk, -⟩ := remapPair_shape db cache s t si ti hs ht
  refine ⟨?_, ?_, ?_, ?_⟩
  · rw [hc]
    intro c hcm
    have := List.of_mem_filter hcm
    simp only [Bool.not_eq_true'] at this
    exact beq_eq_false_iff_ne.mp this
  · rw [hr]
    intro r hrm
    obtain ⟨r0, hr0, he⟩ := List.mem_map.mp hrm
    by_cases hcd : (r0.country_id == si.id) = true
    · rw [if_pos hcd] at he
      rw [← he]
      exact fun hx => hneq hx.symm
    · rw [if_neg hcd] at he
      rw [← he]
      exact beq_eq_false_iff_ne.mp (Bool.eq_false_iff.mpr hcd)
  · intro l hl
    rcases remapPair_localities_country db cache s t si ti hs ht l hl with h | ⟨l0, -, he, hn⟩
    · rw [h]
      exact fun hx => hneq hx.symm
    · rw [he]
      exact hn
  · rw [hk]
    exact dictGet_filter_self cache s

/-- A processed pair keeps every table clean of an id that is neither
present before nor the pair's target id, and preserves absence of a
code from the cache. -/
theorem remapPair_preserves_no (db : DB) (cache : CountryCache) (s t : String)
    (si ti : CountryInfo) (X : Nat) (hs : dictGet cache s = some si)
    (ht : dictGet cache t = some ti) (htX : ti.id ≠ X)
    (hc : ∀ c ∈ db.countries, c.id ≠ X)
    (hr : ∀ r ∈ db.regions, r.country_id ≠ X)
    (hl : ∀ l ∈ db.localities, l.country_id ≠ X) :
    (∀ c ∈ (remapPair db cache s t).1.countries, c.id ≠ X)
    ∧ (∀ r ∈ (remapPair db cache s t).1.regions, r.country_id ≠ X)
    ∧ (∀ l ∈ (remapPair db cache s t).1.localities, l.country_id ≠ X) := by
  obtain ⟨hce, hre, -, -⟩ := remapPair_shape db cache s t si ti hs ht
  refine ⟨?_, ?_, ?_⟩
  · rw [hce]
    intro c hcm
    exact hc c (List.mem_of_mem_filter hcm)
  · rw [hre]
    intro r hrm
    obtain ⟨r0, hr0, he⟩ := List.mem_map.mp hrm
    by_cases hcd : (r0.country_id == si.id) = true
    · rw [if_pos hcd] at he
      rw [← he]
      exact htX
    · rw [if_neg hcd] at he
      rw [← he]
      exact hr r0 hr0
  · intro l hlm
    rcases remapPair_localities_country db cache s t si ti hs ht l hlm
      with h | ⟨l0, hl0, he, -⟩
    · rw [h]
      exact htX
    · rw [he]
      exact hl l0 hl0

/-- A skipped or processed pair never re-adds a code to the cache. -/
theorem remapPair_cache_none (db : DB) (cache : CountryCache) (s t : String)
    (k : String) (h : dictGet cache k = none) :
    dictGet (remapPair db cache s t).2 k = none := by
  unfold remapPair
  cases hs : dictGet cache s with
  | none => exact h
  | some si =>
      cases ht : dictGet cache t with
      | none => exact h
      | some ti => exact dictGet_filter_none cache _ k h

/-! ### The placeholder path of a processed pair -/

theorem remapPair_placeholder_eq (db : DB) (cache : CountryCache) (s t : String)
    (si ti : CountryInfo) (nm : String) (pl : Locality)
    (hs : dictGet cache s = some si) (ht : dictGet cache t = some ti)
    (hrow : (db.countries.find? (fun c => c.id == si.id)).map (fun c => c.name) = some nm)
    (hnm : nm ≠ "")
    (hfind : (db.localities.map (fun l =>
        if l.country_id == si.id then
          { l with country_id := ti.id, continent_id := ti.continent_id }
        else l)).find? (fun l =>
          l.country_id == ti.id && l.parent_overture_id == none && l.name == nm)
      = some pl)
    (hpl : pl.id ≠ 0) :
    (remapPair db cache s t).1.localities
      = (match pl.overture_id with
         | some oid =>
             if oid = "" then
               db.localities.map (fun l : Locality =>
                 if l.country_id == si.id then
                   { l with country_id := ti.id, continent_id := ti.continent_id }
                 else l)
             else
               (db.localities.map (fun l : Locality =>
                 if l.country_id == si.id then
                   { l with country_id := ti.id, continent_id := ti.continent_id }
                 else l)).map (fun l : Locality =>
                   if l.parent_overture_id == some oid then
                     { l with parent_overture_id := none }
                   else l)
         | none =>
             db.localities.map (fun l : Locality =>
               if l.country_id == si.id then
                 { l with country_id := ti.id, continent_id := ti.continent_id }
               else l)).filter (fun l => !(l.id == pl.id)) := by
  cases hrow0 : db.countries.find? (fun c => c.id == si.id) with
  | none =>
      rw [hrow0] at hrow
      exact absurd hrow (by simp)
  | some c0 =>
      rw [hrow0, Option.map_some'] at hrow
      injection hrow with hrow
      subst hrow
      simp only [remapPair, hs, ht, hrow0, Option.map_some', if_neg hnm, hfind, if_pos hpl]

/-- The country reassignment of the remap preserves locality ids. -/
theorem remap_map_ids (db : DB) (si ti : CountryInfo) :
    (db.localities.map (fun l =>
      if l.country_id == si.id then
        { l with country_id := ti.id, continent_id := ti.continent_id }
      else l)).map (fun l => l.id) = db.localities.map (fun l => l.id) := by
  rw [List.map_map]
  have hfn : ((fun l : Locality => l.id) ∘ (fun l : Locality =>
      if l.country_id == si.id then
        { l with country_id := ti.id, continent_id := ti.continent_id }
      else l)) = fun l : Locality => l.id := by
    funext l
    by_cases hc : (l.country_id == si.id) = true
    · simp only [Function.comp_apply, if_pos hc]
    · simp only [Function.comp_apply, if_neg hc]
  rw [hfn]

/-- C3: each remap-policy pair whose source and target countries are
both present in the run deletes the source country row, leaves no
region or locality carrying the source surrogate id, removes the
source code from the cache; per pair, source-country rows are
reassigned to the target country and continent, and when the
country-level placeholder locality is found it is deleted after the
raw parents pointing at its (truthy) overture id are cleared to null,
with the pointing rows surviving as parentless rows. -/
theorem remap_disputed_territories_spec (db : DB) (cache : CountryCache)
    (iXW iXH iXZ iIL : CountryInfo)
    (hXW : dictGet cache "XW" = some iXW)
    (hXH : dictGet cache "XH" = some iXH)
    (hXZ : dictGet cache "XZ" = some iXZ)
    (hIL : dictGet cache "IL" = some iIL)
    (hd1 : iXW.id ≠ iIL.id) (hd2 : iXH.id ≠ iIL.id) (hd3 : iXZ.id ≠ iIL.id) :
    (∀ c ∈ (remap_disputed_territories db cache).1.countries,
        c.id ≠ iXW.id ∧ c.id ≠ iXH.id ∧ c.id ≠ iXZ.id)
    ∧ (∀ r ∈ (remap_disputed_territories db cache).1.regions,
        r.country_id ≠ iXW.id ∧ r.country_id ≠ iXH.id ∧ r.country_id ≠ iXZ.id)
    ∧ (∀ l ∈ (remap_disputed_territories db cache).1.localities,
        l.country_id ≠ iXW.id ∧ l.country_id ≠ iXH.id ∧ l.country_id ≠ iXZ.id)
    ∧ dictGet (remap_disputed_territories db cache).2 "XW" = none
    ∧ dictGet (remap_disputed_territories db cache).2 "XH" = none
    ∧ dictGet (remap_disputed_territories db cache).2 "XZ" = none
    ∧ (∀ (db0 : DB) (cache0 : CountryCache) (s t : String) (si ti : CountryInfo),
        dictGet cache0 s = some si → dictGet cache0 t = some ti →
        ∀ r ∈ db0.regions, r.country_id = si.id →
          { r with country_id := ti.id, continent_id := some ti.continent_id }
            ∈ (remapPair db0 cache0 s t).1.regions)
    ∧ (∀ (db0 : DB) (cache0 : CountryCache) (s t : String) (si ti : CountryInfo)
          (nm : String) (pl : Locality),
        dictGet cache0 s = some si → dictGet cache0 t = some ti →
        (db0.localities.map (fun l => l.id)).Nodup →
        (db0.countries.find? (fun c => c.id == si.id)).map (fun c => c.name) = some nm →
        nm ≠ "" →
        (db0.localities.map (fun l =>
            if l.country_id == si.id then
              { l with country_id := ti.id, continent_id := ti.continent_id }
            else l)).find? (fun l =>
              l.country_id == ti.id && l.parent_overture_id == none && l.name == nm)
          = some pl →
        pl.id ≠ 0 →
        (∀ l ∈ (remapPair db0 cache0 s t).1.localities, l.id ≠ pl.id)
        ∧ (∀ oid, pl.overture_id = some oid → oid ≠ "" →
            (∀ l ∈ (remapPair db0 cache0 s t).1.localities,
              l.parent_overture_id ≠ some oid)
            ∧ (∀ l2 ∈ db0.localities.map (fun l =>
                  if l.country_id == si.id then
                    { l with country_id := ti.id, continent_id := ti.continent_id }
                  else l),
                l2.parent_overture_id = some oid →
                  { l2 with parent_overture_id := none }
                    ∈ (remapPair db0 cache0 s t).1.localities))) := by
  have hfold : remap_disputed_territories db cache
      = remapPair
          (remapPair (remapPair db cache "XW" "IL").1
            (remapPair db cache "XW" "IL").2 "XH" "IL").1
          (remapPair (remapPair db cache "XW" "IL").1
            (remapPair db cache "XW" "IL").2 "XH" "IL").2 "XZ" "IL" := rfl
  set st1 := remapPair db cache "XW" "IL" with hst1
  set st2 := remapPair st1.1 st1.2 "XH" "IL" with hst2
  set st3 := remapPair st2.1 st2.2 "XZ" "IL" with hst3
  have hsh1 := remapPair_shape db cache "XW" "IL" iXW iIL hXW hIL
  have hXH1 : dictGet st1.2 "XH" = some iXH := by
    rw [hsh1.2.2.1, dictGet_filter_ne cache "XH" "XW" (by decide)]
    exact hXH
  have hXZ1 : dictGet st1.2 "XZ" = some iXZ := by
    rw [hsh1.2.2.1, dictGet_filter_ne cache "XZ" "XW" (by decide)]
    exact hXZ
  have hIL1 : dictGet st1.2 "IL" = some iIL := by
    rw [hsh1.2.2.1, dictGet_filter_ne cache "IL" "XW" (by decide)]
    exact hIL
  have hsh2 := remapPair_shape st1.1 st1.2 "XH" "IL" iXH iIL hXH1 hIL1
  have hXZ2 : dictGet st2.2 "XZ" = some iXZ := by
    rw [hsh2.2.2.1, dictGet_filter_ne st1.2 "XZ" "XH" (by decide)]
    exact hXZ1
  have hIL2 : dictGet st2.2 "IL" = some iIL := by
    rw [hsh2.2.2.1, dictGet_filter_ne st1.2 "IL" "XH" (by decide)]
    exact hIL1
  have h1 := remapPair_no_source db cache "XW" "IL" iXW iIL hXW hIL hd1
  have h2 := remapPair_no_source st1.1 st1.2 "XH" "IL" iXH iIL hXH1 hIL1 hd2
  have h3 := remapPair_no_source st2.1 st2.2 "XZ" "IL" iXZ iIL hXZ2 hIL2 hd3
  have h1p2 := remapPair_preserves_no st1.1 st1.2 "XH" "IL" iXH iIL iXW.id hXH1 hIL1
    (fun hx => hd1 hx.symm) h1.1 h1.2.1 h1.2.2.1
  have h1p3 := remapPair_preserves_no st2.1 st2.2 "XZ" "IL" iXZ iIL iXW.id hXZ2 hIL2
    (fun hx => hd1 hx.symm) h1p2.1 h1p2.2.1 h1p2.2.2
  have h2p3 := remapPair_preserves_no st2.1 st2.2 "XZ" "IL" iXZ iIL iXH.id hXZ2 hIL2
    (fun hx => hd2 hx.symm) h2.1 h2.2.1 h2.2.2.1
  have hcw2 : dictGet st2.2 "XW" = none :=
    remapPair_cache_none st1.1 st1.2 "XH" "IL" "XW" h1.2.2.2
  have hcw3 : dictGet st3.2 "XW" = none :=
    remapPair_cache_none st2.1 st2.2 "XZ" "IL" "XW" hcw2
  have hch3 : dictGet st3.2 "XH" = none :=
    remapPair_cache_none st2.1 st2.2 "XZ" "IL" "XH" h2.2.2.2
  rw [hfold]
  refine ⟨?_, ?_, ?_, hcw3, hch3, h3.2.2.2, ?_, ?_⟩
  · intro c hc
    exact ⟨h1p3.1 c hc, h2p3.1 c hc, h3.1 c hc⟩
  · intro r hr
    exact ⟨h1p3.2.1 r hr, h2p3.2.1 r hr, h3.2.1 r hr⟩
  · intro l hl
    exact ⟨h1p3.2.2 l hl, h2p3.2.2 l hl, h3.2.2.1 l hl⟩
  · intro db0 cache0 s t si ti hs0 ht0 r hr hcr
    rw [(remapPair_shape db0 cache0 s t si ti hs0 ht0).2.1]
    refine List.mem_map.mpr ⟨r, hr, ?_⟩
    rw [if_pos (beq_iff_eq.mpr hcr)]
  · intro db0 cache0 s t si ti nm pl hs0 ht0 hnodup hrow hnm hfind hplid
    have heq := remapPair_placeholder_eq db0 cache0 s t si ti nm pl hs0 ht0 hrow hnm
      hfind hplid
    have hplparent : pl.parent_overture_id = none := by
      have hpred := List.find?_some hfind
      simp only [Bool.and_eq_true, beq_iff_eq] at hpred
      exact hpred.1.2
    refine ⟨?_, ?_⟩
    · intro l hl
      rw [heq] at hl
      have := List.of_mem_filter hl
      simp only [Bool.not_eq_true'] at this
      exact beq_eq_false_iff_ne.mp this
    · intro oid hoid hoe
      simp only [hoid] at heq
      rw [if_neg hoe] at heq
      constructor
      · intro l hl
        rw [heq] at hl
        obtain ⟨l2, hl2m, he2⟩ := List.mem_map.mp (List.mem_of_mem_filter hl)
        by_cases hc : (l2.parent_overture_id == some oid) = true
        · rw [if_pos hc] at he2
          rw [← he2]
          simp
        · rw [if_neg hc] at he2
          rw [← he2]
          exact beq_eq_false_iff_ne.mp (Bool.eq_false_iff.mpr hc)
      · intro l2 hl2 hp2
        have hneid : l2.id ≠ pl.id := by
          intro hid
          have hnodup2 : ((db0.localities.map (fun l =>
              if l.country_id == si.id then
                { l with country_id := ti.id, continent_id := ti.continent_id }
              else l)).map (fun l => l.id)).Nodup := by
            rw [remap_map_ids]
            exact hnodup
          have hl2pl := List.inj_on_of_nodup_map hnodup2 hl2
            (List.mem_of_find?_eq_some hfind) hid
          rw [hl2pl, hplparent] at hp2
          exact Option.noConfusion hp2
        rw [heq]
        refine List.mem_filter.mpr ⟨?_, ?_⟩
        · refine List.mem_map.mpr ⟨l2, hl2, ?_⟩
          rw [if_pos (beq_iff_eq.mpr hp2)]
        · simp [hneid]

/-- C3 witness input: all four countries present in the cache with
distinct ids. -/
def c3iXW : CountryInfo := { id := 1, continent_id := 9 }

def c3iXH : CountryInfo := { id := 2, continent_id := 9 }

def c3iXZ : CountryInfo := { id := 3, continent_id := 9 }

def c3iIL : CountryInfo := { id := 4, continent_id := 3 }

def c3Cache : CountryCache :=
  [("XW", c3iXW), ("XH", c3iXH), ("XZ", c3iXZ), ("IL", c3iIL)]

def c3Db : DB :=
  { continents := []
    region_types := []
    locality_types := []
    data_sources := []
    countries := [{ id := 1, code := "XW", name := "West Bank", continent_id := 9,
                    source_id := 1, overture_id := none },
                  { id := 4, code := "IL", name := "Israel", continent_id := 3,
                    source_id := 1, overture_id := none }]
    regions := [{ id := 21, country_id := 1, continent_id := some 9,
                  parent_region_id := none, region_type_id := 1, code := "XW-R",
                  name := "R", overture_id := some "rxw", source_id := 1 }]
    localities := [{ id := 31, locality_type_id := 1, name := "T", name_ascii := "T",
                     timezone := "UTC", population := none, continent_id := 9,
                     country_id := 1, source_id := 1, overture_id := some "lt",
                     parent_overture_id := none }]
    locality_locations := []
    names := [] }

theorem remap_disputed_territories_spec_witness :
    (∀ c ∈ (remap_disputed_territories c3Db c3Cache).1.countries,
        c.id ≠ c3iXW.id ∧ c.id ≠ c3iXH.id ∧ c.id ≠ c3iXZ.id)
    ∧ (∀ r ∈ (remap_disputed_territories c3Db c3Cache).1.regions,
        r.country_id ≠ c3iXW.id ∧ r.country_id ≠ c3iXH.id ∧ r.country_id ≠ c3iXZ.id)
    ∧ (∀ l ∈ (remap_disputed_territories c3Db c3Cache).1.localities,
        l.country_id ≠ c3iXW.id ∧ l.country_id ≠ c3iXH.id ∧ l.country_id ≠ c3iXZ.id)
    ∧ dictGet (remap_disputed_territories c3Db c3Cache).2 "XW" = none
    ∧ dictGet (remap_disputed_territories c3Db c3Cache).2 "XH" = none
    ∧ dictGet (remap_disputed_territories c3Db c3Cache).2 "XZ" = none
    ∧ (∀ (db0 : DB) (cache0 : CountryCache) (s t : String) (si ti : CountryInfo),
        dictGet cache0 s = some si → dictGet cache0 t = some ti →
        ∀ r ∈ db0.regions, r.country_id = si.id →
          { r with country_id := ti.id, continent_id := some ti.continent_id }
            ∈ (remapPair db0 cache0 s t).1.regions)
    ∧ (∀ (db0 : DB) (cache0 : CountryCache) (s t : String) (si ti : CountryInfo)
          (nm : String) (pl : Locality),
        dictGet cache0 s = some si → dictGet cache0 t = some ti →
        (db0.localities.map (fun l => l.id)).Nodup →
        (db0.countries.find? (fun c => c.id == si.id)).map (fun c => c.name) = some nm →
        nm ≠ "" →
        (db0.localities.map (fun l =>
            if l.country_id == si.id then
              { l with country_id := ti.id, continent_id := ti.continent_id }
            else l)).find? (fun l =>
              l.country_id == ti.id && l.parent_overture_id == none && l.name == nm)
          = some pl →
        pl.id ≠ 0 →
        (∀ l ∈ (remapPair db0 cache0 s t).1.localities, l.id ≠ pl.id)
        ∧ (∀ oid, pl.overture_id = some oid → oid ≠ "" →
            (∀ l ∈ (remapPair db0 cache0 s t).1.localities,
              l.parent_overture_id ≠ some oid)
            ∧ (∀ l2 ∈ db0.localities.map (fun l =>
                  if l.country_id == si.id then
                    { l with country_id := ti.id, continent_id := ti.continent_id }
                  else l),
                l2.parent_overture_id = some oid →
                  { l2 with parent_overture_id := none }
                    ∈ (remapPair db0 cache0 s t).1.localities))) :=
  remap_disputed_territories_spec c3Db c3Cache c3iXW c3iXH c3iXZ c3iIL
    (by decide) (by decide) (by decide) (by decide) (by decide) (by decide) (by decide)

/-! ## Claim C5: the remaining pipeline steps -/

/-- Deterministic model of SQL `SELECT DISTINCT` over a stream: keep
the first occurrence of each projected tuple. -/
def distinctKeepFirst {α : Type} [DecidableEq α] (l : List α) : List α :=
  l.foldl (fun acc x => if x ∈ acc then acc else acc ++ [x]) []

/-- Embedding of `reset_tables` (lines 497-507): truncate the geo
tables of `TABLES_TO_TRUNCATE`; the auxiliary lookup tables
(continents, region types, locality types, data sources) are not in
the list and survive across runs. -/
def reset_tables (db : DB) : DB :=
  { db with
    countries := []
    regions := []
    localities := []
    locality_locations := []
    names := [] }

/-- Lines 548-552: the continent cache from non-`XX` rows. -/
def continentCacheEntries (cs : List Continent) : List (String × Nat) :=
  (cs.filter (fun c => !(c.code == "XX"))).map (fun c => (c.code, c.id))

/-- Lines 555-564: find or create the `XX`/Unmapped continent. -/
def ensureUnmappedContinent (cs : List Continent) : List Continent × Nat :=
  match cs.find? (fun c => c.code == "XX") with
  | some c => (cs, c.id)
  | none =>
      let i := freshContinentId cs
      (cs ++ [{ id := i, code := "XX", name := "Unmapped" }], i)

/-- The country query (lines 567-581): subtype country/dependency,
non-null primary name, non-null country or region; project the
external id, `COALESCE(country, region)` and the display name. -/
def countryQuery (rows : List DivisionRow) : List (String × String × String) :=
  distinctKeepFirst (rows.filterMap (fun p =>
    match p.names.primary with
    | none => none
    | some prim =>
        if (p.subtype == "country" || p.subtype == "dependency")
            && (p.country.isSome || p.region.isSome) then
          some (p.id, p.country.getD (p.region.getD ""), chooseDisplayName prim p.names.common)
        else none))

/-- The batch loop of lines 586-597: skip falsy or non-2-letter codes,
keep the first row per code (`seen`). -/
def dedupCountries (l : List (String × String × String)) : List (String × String × String) :=
  (l.foldl (fun acc t =>
    if t.2.1 = "" ∨ t.2.1.length ≠ 2 then acc
    else if acc.2.contains t.2.1 then acc
    else (acc.1 ++ [t], acc.2 ++ [t.2.1]))
    (([], []) : List (String × String × String) × List String)).1

/-- The insert loop (lines 600-608): `ON CONFLICT (code) DO NOTHING`;
serial ids are dense because the table was truncated with identity
restart. -/
def insertCountriesFold (unmapped_id source_id : Nat) (cs0 : List Country)
    (l : List (String × String × String)) : List Country :=
  l.foldl (fun cs t =>
    if cs.any (fun c => c.code == t.2.1) then cs
    else cs ++ [{ id := cs.length + 1, code := t.2.1, name := t.2.2,
                  continent_id := unmapped_id, source_id := source_id,
                  overture_id := some t.1 }]) cs0

/-- The continent-mapping pass (lines 611-629): every row still on the
unmapped continent is moved to its policy continent when the policy
lists the country (truthy code) and the cached continent id is truthy;
row updates are keyed by the (unique, serial) id, so the pass is a map
over the table. -/
def mapContinents (ccache : List (String × Nat)) (unmapped_id : Nat)
    (cs : List Country) : List Country :=
  cs.map (fun c =>
    if c.continent_id == unmapped_id then
      match alistGet COUNTRY_TO_CONTINENT c.code with
      | none => c
      | some cont_code =>
          if cont_code = "" then c
          else
            match dictGet ccache cont_code with
            | none => c
            | some cid => if cid = 0 then c else { c with continent_id := cid }
    else c)

/-- Embedding of `import_countries` (lines 541-641): build the
continent cache, ensure the `XX` continent, collect and dedup the
country rows, insert them on the unmapped continent, map to real
continents, and pour the resulting table into the country cache. -/
def import_countries (db : DB) (rows : List DivisionRow) (source_id : Nat) :
    DB × CountryCache :=
  let ccache : List (String × Nat) := continentCacheEntries db.continents
  let pu : List Continent × Nat := ensureUnmappedContinent db.continents
  let cs1 : List Country :=
    insertCountriesFold pu.2 source_id db.countries (dedupCountries (countryQuery rows))
  let cs2 : List Country := mapContinents ccache pu.2 cs1
  ({ db with
     continents := pu.1
     countries := cs2 }, buildCountryCache cs2)

/-! ### import_names (lines 1493-1641) -/

/-- The primary-name query of one entity kind (lines 1513-1518). -/
def namesPrimary (subtypes : List String) (rows : List DivisionRow) :
    List (String × String) :=
  distinctKeepFirst (rows.filterMap (fun p =>
    if p.subtype ∈ subtypes then p.names.primary.map (fun n => (p.id, n)) else none))

/-- The common-name query of one entity kind (lines 1556-1562):
unnest the language map, keeping 2-letter codes. -/
def namesCommon (subtypes : List String) (rows : List DivisionRow) :
    List (String × String × String) :=
  distinctKeepFirst (rows.flatMap (fun p =>
    if p.subtype ∈ subtypes then
      p.names.common.filterMap (fun kv =>
        if kv.1.length = 2 then some (p.id, kv.1, kv.2) else none)
    else []))

/-- The rule-based-name query of one entity kind (lines 1599-1607):
unnest the rules, keeping non-null values with an official, alternate
or short variant and a null or 2-letter language, coalescing a null
language to `en`. -/
def namesRules (subtypes : List String) (rows : List DivisionRow) :
    List (String × String × String × String) :=
  distinctKeepFirst (rows.flatMap (fun p =>
    if p.subtype ∈ subtypes then
      p.names.rules.filterMap (fun r =>
        match r.value with
        | none => none
        | some v =>
            if (r.variant == some "official" || r.variant == some "alternate"
                  || r.variant == some "short")
                && (match r.language with
                    | none => true
                    | some lg => lg.length == 2) then
              some (p.id, r.language.getD "en", v, r.variant.getD "")
            else none)
    else []))

/-- The three INSERT..SELECT..JOIN batches of one entity kind: every
value tuple joins with every table row carrying that overture id
(`ids`), producing one name row each; the loop-side falsy-language
fallback to `en` is kept. -/
def namesFor (ids : String → List Nat) (entity_type : String) (source_id : Nat)
    (prim : List (String × String)) (comm : List (String × String × String))
    (rules : List (String × String × String × String)) : List GeoName :=
  prim.flatMap (fun v => (ids v.1).map (fun i =>
    ({ entity_type := entity_type, entity_id := i, language_code := "xx",
       name := v.2, name_type := "primary", source_id := source_id } : GeoName)))
  ++ comm.flatMap (fun v => (ids v.1).map (fun i =>
    ({ entity_type := entity_type, entity_id := i,
       language_code := if v.2.1 = "" then "en" else v.2.1,
       name := v.2.2, name_type := "common", source_id := source_id } : GeoName)))
  ++ rules.flatMap (fun v => (ids v.1).map (fun i =>
    ({ entity_type := entity_type, entity_id := i,
       language_code := if v.2.1 = "" then "en" else v.2.1,
       name := v.2.2.1, name_type := v.2.2.2, source_id := source_id } : GeoName)))

/-- Embedding of `import_names` (lines 1493-1641): three entity kinds,
in order, each contributing its primary, common and rule-based name
batches. -/
def import_names (db : DB) (rows : List DivisionRow) (source_id : Nat) : DB :=
  let cIds : String → List Nat := fun oid =>
    (db.countries.filter (fun c => c.overture_id == some oid)).map (fun c => c.id)
  let rIds : String → List Nat := fun oid =>
    (db.regions.filter (fun r => r.overture_id == some oid)).map (fun r => r.id)
  let lIds : String → List Nat := fun oid =>
    (db.localities.filter (fun l => l.overture_id == some oid)).map (fun l => l.id)
  { db with
    names := db.names
      ++ namesFor cIds "country" source_id
          (namesPrimary ["country", "dependency"] rows)
          (namesCommon ["country", "dependency"] rows)
          (namesRules ["country", "dependency"] rows)
      ++ namesFor rIds "region" source_id
          (namesPrimary ["region", "county", "localadmin"] rows)
          (namesCommon ["region", "county", "localadmin"] rows)
          (namesRules ["region", "county", "localadmin"] rows)
      ++ namesFor lIds "locality" source_id
          (namesPrimary ["locality", "neighborhood", "macrohood", "microhood"] rows)
          (namesCommon ["locality", "neighborhood", "macrohood", "microhood"] rows)
          (namesRules ["locality", "neighborhood", "macrohood", "microhood"] rows) }

/-- Embedding of `run_import` (lines 1680-1797), with
`skip_boundaries` set (the boundary step only back-fills geometry
columns that are not part of this model) and names imported; the
constraint toggling steps have no data effect.  The Overture source id
is looked up before the reset (the data-source table is never
truncated). -/
def overtureSourceId (db : DB) : Nat :=
  match db.data_sources.find? (fun d => d.key == "overture") with
  | some d => d.id
  | none => 1

def run_import (db : DB) (rows : List DivisionRow) : DB :=
  let source_id : Nat := overtureSourceId db
  let db0 : DB := reset_tables db
  let p1 : DB × CountryCache := import_countries db0 rows source_id
  let db2 : DB := import_regions p1.1 rows source_id p1.2
  let db3 : DB := (import_localities db2 rows source_id p1.2).db
  let db4 : DB := create_synthetic_regions db3 p1.2
  let p5 : DB × CountryCache := remap_disputed_territories db4 p1.2
  let db6 : DB := override_jerusalem_region p5.1
  import_names db6 rows source_id

/-! ### C5 machinery: get-or-create stability and frame lemmas -/

theorem find?_append_single_of_neg {α : Type} (l : List α) (x : α) (p : α → Bool)
    (hx : p x = false) : (l ++ [x]).find? p = l.find? p := by
  rw [List.find?_append]
  cases hf : l.find? p with
  | some a => rfl
  | none =>
      have hx1 : ([x].find? p) = none := by
        rw [List.find?_eq_none]
        intro y hy
        rw [List.mem_singleton.mp hy]
        simp [hx]
      rw [hx1]
      rfl

theorem dictGet_append_ne {α : Type} (E E2 : List (String × α)) (k : String)
    (h : ∀ p ∈ E2, p.1 ≠ k) : dictGet (E ++ E2) k = dictGet E k := by
  unfold dictGet
  have h2 : E2.reverse.find? (fun p => p.1 == k) = none := by
    rw [List.find?_eq_none]
    intro x hx hbeq
    exact h x (List.mem_reverse.mp hx) (eq_of_beq hbeq)
  rw [List.reverse_append, List.find?_append, h2]
  rfl

/-- Running the XX-continent get-or-create on its own output finds the
row and returns the same id. -/
theorem ensureUnmappedContinent_stable (cs : List Continent) :
    ensureUnmappedContinent (ensureUnmappedContinent cs).1
      = ((ensureUnmappedContinent cs).1, (ensureUnmappedContinent cs).2) := by
  cases hf : cs.find? (fun c => c.code == "XX") with
  | some c =>
      have h1 : ensureUnmappedContinent cs = (cs, c.id) := by
        unfold ensureUnmappedContinent
        rw [hf]
      rw [h1]
      unfold ensureUnmappedContinent
      rw [hf]
  | none =>
      have h1 : ensureUnmappedContinent cs
          = (cs ++ [{ id := freshContinentId cs, code := "XX", name := "Unmapped" }],
             freshContinentId cs) := by
        unfold ensureUnmappedContinent
        rw [hf]
      rw [h1]
      unfold ensureUnmappedContinent
      have h2 : (cs ++ [({ id := freshContinentId cs, code := "XX", name := "Unmapped" } : Continent)]).find? (fun c => c.code == "XX")
          = some { id := freshContinentId cs, code := "XX", name := "Unmapped" } := by
        rw [List.find?_append, hf]
        rfl
      rw [h2]

/-- The XX row never enters the continent cache. -/
theorem continentCacheEntries_ensure (cs : List Continent) :
    continentCacheEntries (ensureUnmappedContinent cs).1 = continentCacheEntries cs := by
  cases hf : cs.find? (fun c => c.code == "XX") with
  | some c =>
      unfold ensureUnmappedContinent
      rw [hf]
  | none =>
      unfold ensureUnmappedContinent
      rw [hf]
      show continentCacheEntries (cs ++ [{ id := freshContinentId cs, code := "XX", name := "Unmapped" }]) = continentCacheEntries cs
      unfold continentCacheEntries
      rw [List.filter_append]
      have h1 : ([({ id := freshContinentId cs, code := "XX", name := "Unmapped" } : Continent)].filter (fun c => !(c.code == "XX"))) = [] := rfl
      rw [h1, List.append_nil]

/-- `ensureSyntheticSource` touches nothing but the data sources. -/
theorem ensureSyntheticSource_frame (db : DB) :
    (ensureSyntheticSource db).1.region_types = db.region_types
    ∧ (ensureSyntheticSource db).1.continents = db.continents
    ∧ (ensureSyntheticSource db).1.locality_types = db.locality_types
    ∧ (ensureSyntheticSource db).1.locality_locations = db.locality_locations
    ∧ (ensureSyntheticSource db).1.names = db.names := by
  unfold ensureSyntheticSource
  cases db.data_sources.find? (fun d => d.key == "synthetic") with
  | none => exact ⟨rfl, rfl, rfl, rfl, rfl⟩
  | some d => exact ⟨rfl, rfl, rfl, rfl, rfl⟩

/-- Running the synthetic-source get-or-create against the data-source
table its first run produced finds the row and returns the same id. -/
theorem ensureSyntheticSource_stable (dbA dbB : DB)
    (h : dbB.data_sources = (ensureSyntheticSource dbA).1.data_sources) :
    (ensureSyntheticSource dbB).2 = (ensureSyntheticSource dbA).2
    ∧ (ensureSyntheticSource dbB).1.data_sources = dbB.data_sources := by
  cases hf : dbA.data_sources.find? (fun d => d.key == "synthetic") with
  | some d =>
      have h1 : ensureSyntheticSource dbA = (dbA, d.id) := by
        unfold ensureSyntheticSource
        rw [hf]
      rw [h1] at h
      have h2 : dbB.data_sources.find? (fun d => d.key == "synthetic") = some d := by
        rw [h]
        exact hf
      unfold ensureSyntheticSource
      rw [h2, hf]
      exact ⟨rfl, rfl⟩
  | none =>
      have h1 : (ensureSyntheticSource dbA).1.data_sources
          = dbA.data_sources
            ++ [{ id := freshDataSourceId dbA.data_sources, key := "synthetic" }] := by
        unfold ensureSyntheticSource
        rw [hf]
      have h2 : (ensureSyntheticSource dbA).2 = freshDataSourceId dbA.data_sources := by
        unfold ensureSyntheticSource
        rw [hf]
      rw [h1] at h
      have h3 : dbB.data_sources.find? (fun d => d.key == "synthetic")
          = some { id := freshDataSourceId dbA.data_sources, key := "synthetic" } := by
        rw [h, List.find?_append, hf]
        rfl
      rw [h2]
      unfold ensureSyntheticSource
      rw [h3]
      exact ⟨rfl, rfl⟩

/-- The `overture` source lookup is unchanged by the synthetic-source
row appended during the previous run. -/
theorem overture_source_stable (dbA dbB : DB)
    (h : dbB.data_sources = (ensureSyntheticSource dbA).1.data_sources) :
    dbB.data_sources.find? (fun d => d.key == "overture")
      = dbA.data_sources.find? (fun d => d.key == "overture") := by
  cases hf : dbA.data_sources.find? (fun d => d.key == "synthetic") with
  | some d =>
      have h1 : (ensureSyntheticSource dbA).1.data_sources = dbA.data_sources := by
        unfold ensureSyntheticSource
        rw [hf]
      rw [h, h1]
  | none =>
      have h1 : (ensureSyntheticSource dbA).1.data_sources
          = dbA.data_sources
            ++ [{ id := freshDataSourceId dbA.data_sources, key := "synthetic" }] := by
        unfold ensureSyntheticSource
        rw [hf]
      have h4 : (dbA.data_sources
            ++ [({ id := freshDataSourceId dbA.data_sources,
                   key := "synthetic" } : DataSource)]).find? (fun d => d.key == "overture")
          = dbA.data_sources.find? (fun d => d.key == "overture") :=
        find?_append_single_of_neg _ _ _ rfl
      rw [h, h1, h4]

/-- `ensureLocalityGroupType` touches nothing but the region types. -/
theorem ensureLocalityGroupType_frame (db : DB) :
    (ensureLocalityGroupType db).1.data_sources = db.data_sources
    ∧ (ensureLocalityGroupType db).1.continents = db.continents
    ∧ (ensureLocalityGroupType db).1.locality_types = db.locality_types
    ∧ (ensureLocalityGroupType db).1.locality_locations = db.locality_locations
    ∧ (ensureLocalityGroupType db).1.names = db.names := by
  unfold ensureLocalityGroupType
  cases db.region_types.find? (fun t => t.code == "locality_group") with
  | none => exact ⟨rfl, rfl, rfl, rfl, rfl⟩
  | some t => exact ⟨rfl, rfl, rfl, rfl, rfl⟩

/-- Running the locality-group get-or-create against the region-type
table its first run produced finds the row and returns the same id. -/
theorem ensureLocalityGroupType_stable (dbA dbB : DB)
    (h : dbB.region_types = (ensureLocalityGroupType dbA).1.region_types) :
    (ensureLocalityGroupType dbB).2 = (ensureLocalityGroupType dbA).2
    ∧ (ensureLocalityGroupType dbB).1.region_types = dbB.region_types := by
  cases hf : dbA.region_types.find? (fun t => t.code == "locality_group") with
  | some t =>
      have h1 : (ensureLocalityGroupType dbA).1.region_types = dbA.region_types := by
        unfold ensureLocalityGroupType
        rw [hf]
      have h2 : (ensureLocalityGroupType dbA).2 = t.id := by
        unfold ensureLocalityGroupType
        rw [hf]
      rw [h1] at h
      have h3 : dbB.region_types.find? (fun t => t.code == "locality_group") = some t := by
        rw [h]
        exact hf
      rw [h2]
      unfold ensureLocalityGroupType
      rw [h3]
      exact ⟨rfl, rfl⟩
  | none =>
      have h1 : (ensureLocalityGroupType dbA).1.region_types
          = dbA.region_types
            ++ [{ id := freshRegionTypeId dbA.region_types, code := "locality_group",
                  overture_subtype := none }] := by
        unfold ensureLocalityGroupType
        rw [hf]
      have h2 : (ensureLocalityGroupType dbA).2 = freshRegionTypeId dbA.region_types := by
        unfold ensureLocalityGroupType
        rw [hf]
      rw [h1] at h
      have h3 : dbB.region_types.find? (fun t => t.code == "locality_group")
          = some { id := freshRegionTypeId dbA.region_types, code := "locality_group",
                   overture_subtype := none } := by
        rw [h, List.find?_append, hf]
        rfl
      rw [h2]
      unfold ensureLocalityGroupType
      rw [h3]
      exact ⟨rfl, rfl⟩

/-- The region-type entry list after the locality-group get-or-create:
unchanged, or extended by the one new `locality_group` key. -/
theorem ensureLocalityGroupType_entries (db : DB) :
    regionTypeEntries (ensureLocalityGroupType db).1.region_types
      = regionTypeEntries db.region_types
    ∨ ∃ i, regionTypeEntries (ensureLocalityGroupType db).1.region_types
        = regionTypeEntries db.region_types ++ [("locality_group", i)] := by
  cases hf : db.region_types.find? (fun t => t.code == "locality_group") with
  | some t =>
      left
      unfold ensureLocalityGroupType
      rw [hf]
  | none =>
      right
      refine ⟨freshRegionTypeId db.region_types, ?_⟩
      unfold ensureLocalityGroupType
      rw [hf]
      show regionTypeEntries (db.region_types
          ++ [{ id := freshRegionTypeId db.region_types, code := "locality_group",
                overture_subtype := none }])
        = regionTypeEntries db.region_types
          ++ [("locality_group", freshRegionTypeId db.region_types)]
      unfold regionTypeEntries
      rw [List.flatMap_append]
      rfl

/-! ### C5 machinery: step congruences (countries, regions, localities) -/

theorem import_countries_continents (db : DB) (rows : List DivisionRow) (sid : Nat) :
    (import_countries db rows sid).1.continents
      = (ensureUnmappedContinent db.continents).1 := rfl

/-- A second run of `import_countries` on a reset table, with the
continent table as left by the first run, reproduces the same country
table and cache and leaves the continent table alone. -/
theorem import_countries_stable (dbA dbB : DB) (rows : List DivisionRow) (sid : Nat)
    (hcs : dbB.countries = dbA.countries)
    (hct : dbB.continents = (ensureUnmappedContinent dbA.continents).1) :
    (import_countries dbB rows sid).1.countries = (import_countries dbA rows sid).1.countries
    ∧ (import_countries dbB rows sid).2 = (import_countries dbA rows sid).2
    ∧ (import_countries dbB rows sid).1.continents = dbB.continents := by
  have hpu : ensureUnmappedContinent dbB.continents
      = ((ensureUnmappedContinent dbA.continents).1,
         (ensureUnmappedContinent dbA.continents).2) := by
    rw [hct]
    exact ensureUnmappedContinent_stable dbA.continents
  have hcc : continentCacheEntries dbB.continents
      = continentCacheEntries dbA.continents := by
    rw [hct]
    exact continentCacheEntries_ensure dbA.continents
  refine ⟨?_, ?_, ?_⟩
  · simp only [import_countries]
    rw [hpu, hcc, hcs]
  · simp only [import_countries]
    rw [hpu, hcc, hcs]
  · simp only [import_countries]
    rw [hpu, hct]

/-- Every Pass-2 query row is a county or localadmin row. -/
theorem regionQuerySub_subtype (rows : List DivisionRow) :
    ∀ r ∈ regionQuerySub rows, r.subtype = "county" ∨ r.subtype = "localadmin" := by
  intro r hr
  unfold regionQuerySub at hr
  obtain ⟨p, hp, he⟩ := List.mem_filterMap.mp hr
  cases hpp : p.names.primary with
  | none => rw [hpp] at he; exact absurd he (by simp)
  | some prim =>
      cases hpc : p.country with
      | none => rw [hpp, hpc] at he; exact absurd he (by simp)
      | some ctry =>
          rw [hpp, hpc] at he
          simp only at he
          by_cases hcond : (p.subtype == "county" || p.subtype == "localadmin") = true
          · rw [if_pos hcond] at he
            injection he with he
            rw [← he]
            simp only
            rcases Bool.or_eq_true_iff.mp hcond with h | h
            · exact Or.inl (eq_of_beq h)
            · exact Or.inr (eq_of_beq h)
          · rw [if_neg hcond] at he
            exact absurd he (by simp)

theorem pass2_fold_congr (cache : CountryCache) (E E2 : List (String × Nat)) (sid : Nat)
    (m : List (String × Nat))
    (hagree : ∀ k, k ≠ "locality_group" → dictGet E2 k = dictGet E k) :
    ∀ (rs : List RegionQueryRowSub),
      (∀ r ∈ rs, r.subtype = "county" ∨ r.subtype = "localadmin") →
      ∀ acc, rs.foldl (pass2Step cache E2 sid m) acc = rs.foldl (pass2Step cache E sid m) acc := by
  intro rs
  induction rs with
  | nil => intro _ acc; rfl
  | cons r rs ih =>
      intro hsub acc
      rw [List.foldl_cons, List.foldl_cons]
      have h1 : dictGet E2 r.subtype = dictGet E r.subtype := by
        rcases hsub r (List.mem_cons_self r rs) with h | h <;> rw [h] <;>
          exact hagree _ (by decide)
      have h2 : dictGet E2 "county" = dictGet E "county" := hagree _ (by decide)
      have hstep : pass2Step cache E2 sid m acc r = pass2Step cache E sid m acc r := by
        unfold pass2Step
        rw [h1, h2]
      rw [hstep]
      exact ih (fun r0 h0 => hsub r0 (List.mem_cons_of_mem r h0)) _

/-- Region import is insensitive to a `locality_group` region-type row
added by the previous run: the queries never look that key up. -/
theorem import_regions_congr (dbA dbB : DB) (rows : List DivisionRow) (sid : Nat)
    (cache : CountryCache) (hreg : dbB.regions = dbA.regions)
    (hrtE : regionTypeEntries dbB.region_types = regionTypeEntries dbA.region_types
      ∨ ∃ i, regionTypeEntries dbB.region_types
          = regionTypeEntries dbA.region_types ++ [("locality_group", i)]) :
    (import_regions dbB rows sid cache).regions
      = (import_regions dbA rows sid cache).regions := by
  have hagree : ∀ k, k ≠ "locality_group" →
      dictGet (regionTypeEntries dbB.region_types) k
        = dictGet (regionTypeEntries dbA.region_types) k := by
    intro k hk
    rcases hrtE with h | ⟨i, h⟩
    · rw [h]
    · rw [h, dictGet_append_ne]
      intro p hp
      rw [List.mem_singleton.mp hp]
      exact Ne.symm hk
  have hp1 : pass1Result dbB rows sid cache = pass1Result dbA rows sid cache := by
    unfold pass1Result
    rw [hreg, hagree "region" (by decide)]
  show (regionQuerySub rows).foldl
      (pass2Step cache (regionTypeEntries dbB.region_types) sid
        (pass1Result dbB rows sid cache).2)
      (pass1Result dbB rows sid cache).1
    = (regionQuerySub rows).foldl
      (pass2Step cache (regionTypeEntries dbA.region_types) sid
        (pass1Result dbA rows sid cache).2)
      (pass1Result dbA rows sid cache).1
  rw [hp1]
  exact pass2_fold_congr cache (regionTypeEntries dbA.region_types)
    (regionTypeEntries dbB.region_types) sid _ hagree (regionQuerySub rows)
    (regionQuerySub_subtype rows) _

/-- Locality import reads only the locality tables and types. -/
theorem import_localities_congr (dbA dbB : DB) (rows : List DivisionRow) (sid : Nat)
    (cache : CountryCache) (hl : dbB.localities = dbA.localities)
    (hlt : dbB.locality_types = dbA.locality_types)
    (hll : dbB.locality_locations = dbA.locality_locations) :
    (import_localities dbB rows sid cache).db.localities
        = (import_localities dbA rows sid cache).db.localities
    ∧ (import_localities dbB rows sid cache).db.locality_locations
        = (import_localities dbA rows sid cache).db.locality_locations := by
  refine ⟨?_, ?_⟩
  · simp only [import_localities]
    rw [hl, hlt]
  · simp only [import_localities]
    rw [hl, hlt, hll]

/-! ### C5 machinery: synthesis congruence -/

theorem syntheticStep_frame (cache : CountryCache) (ss lg : Nat)
    (acc : DB × List (String × Nat)) (g : String × List Nat) :
    (syntheticStep cache ss lg acc g).1.countries = acc.1.countries
    ∧ (syntheticStep cache ss lg acc g).1.continents = acc.1.continents
    ∧ (syntheticStep cache ss lg acc g).1.region_types = acc.1.region_types
    ∧ (syntheticStep cache ss lg acc g).1.locality_types = acc.1.locality_types
    ∧ (syntheticStep cache ss lg acc g).1.data_sources = acc.1.data_sources
    ∧ (syntheticStep cache ss lg acc g).1.locality_locations = acc.1.locality_locations
    ∧ (syntheticStep cache ss lg acc g).1.names = acc.1.names := by
  cases hd : dictGet cache (groupPolicy acc.1 g.1).2.2 with
  | none =>
      refine ⟨?_, ?_, ?_, ?_, ?_, ?_, ?_⟩ <;> simp only [syntheticStep, hd]
  | some info =>
      by_cases hc : (alistGet acc.2 (groupPolicy acc.1 g.1).1).isSome
      · refine ⟨?_, ?_, ?_, ?_, ?_, ?_, ?_⟩ <;> simp only [syntheticStep, hd, if_pos hc]
      · cases hf : acc.1.regions.find? (fun r => r.code == (groupPolicy acc.1 g.1).1) with
        | some r0 =>
            refine ⟨?_, ?_, ?_, ?_, ?_, ?_, ?_⟩ <;>
              simp only [syntheticStep, hd, if_neg hc, hf]
        | none =>
            refine ⟨?_, ?_, ?_, ?_, ?_, ?_, ?_⟩ <;>
              simp only [syntheticStep, hd, if_neg hc, hf]

theorem syntheticStep_congr (cache : CountryCache) (ss lg : Nat)
    (accA accB : DB × List (String × Nat)) (g : String × List Nat)
    (hco : accB.1.countries = accA.1.countries)
    (hre : accB.1.regions = accA.1.regions)
    (hlo : accB.1.localities = accA.1.localities)
    (hcr : accB.2 = accA.2) :
    (syntheticStep cache ss lg accB g).1.countries
        = (syntheticStep cache ss lg accA g).1.countries
    ∧ (syntheticStep cache ss lg accB g).1.regions
        = (syntheticStep cache ss lg accA g).1.regions
    ∧ (syntheticStep cache ss lg accB g).1.localities
        = (syntheticStep cache ss lg accA g).1.localities
    ∧ (syntheticStep cache ss lg accB g).2 = (syntheticStep cache ss lg accA g).2 := by
  have hgp : groupPolicy accB.1 g.1 = groupPolicy accA.1 g.1 := by
    unfold groupPolicy
    rw [hco]
  cases hd : dictGet cache (groupTarget g.1) with
  | none =>
      rw [syntheticStep_skip cache ss lg accB g hd, syntheticStep_skip cache ss lg accA g hd]
      exact ⟨hco, hre, hlo, hcr⟩
  | some info =>
      have hlocB := syntheticStep_localities_processed cache ss lg accB g info hd
      have hlocA := syntheticStep_localities_processed cache ss lg accA g info hd
      obtain ⟨hA1, hA2, hA3⟩ := syntheticStep_regions_cases cache ss lg accA g info hd
      obtain ⟨hB1, hB2, hB3⟩ := syntheticStep_regions_cases cache ss lg accB g info hd
      have hfrA := syntheticStep_frame cache ss lg accA g
      have hfrB := syntheticStep_frame cache ss lg accB g
      have hcountries : (syntheticStep cache ss lg accB g).1.countries
          = (syntheticStep cache ss lg accA g).1.countries := by
        rw [hfrB.1, hfrA.1, hco]
      have hloc : (syntheticStep cache ss lg accB g).1.localities
          = (syntheticStep cache ss lg accA g).1.localities := by
        rw [hlocB, hlocA, hlo]
      by_cases hc : (alistGet accA.2 (groupCode g.1)).isSome
      · have hcB : (alistGet accB.2 (groupCode g.1)).isSome = true := by
          rw [hcr]
          exact hc
        obtain ⟨hBreg, hBcre⟩ := hB1 hcB
        obtain ⟨hAreg, hAcre⟩ := hA1 hc
        exact ⟨hcountries, by rw [hBreg, hAreg, hre], hloc, by rw [hBcre, hAcre, hcr]⟩
      · have hcB : ¬ (alistGet accB.2 (groupCode g.1)).isSome = true := by
          rw [hcr]
          exact hc
        cases hf : accA.1.regions.find? (fun r => r.code == groupCode g.1) with
        | some r0 =>
            have hfB : accB.1.regions.find? (fun r => r.code == groupCode g.1) = some r0 := by
              rw [hre]
              exact hf
            obtain ⟨hBreg, hBcre⟩ := hB2 r0 hcB hfB
            obtain ⟨hAreg, hAcre⟩ := hA2 r0 hc hf
            exact ⟨hcountries, by rw [hBreg, hAreg, hre], hloc, by rw [hBcre, hAcre, hcr]⟩
        | none =>
            have hfB : accB.1.regions.find? (fun r => r.code == groupCode g.1) = none := by
              rw [hre]
              exact hf
            obtain ⟨hBreg, hBcre⟩ := hB3 hcB hfB
            obtain ⟨hAreg, hAcre⟩ := hA3 hc hf
            have hsr : synthRegion accB g info ss lg = synthRegion accA g info ss lg := by
              unfold synthRegion
              rw [hre, hgp]
            have hfresh : freshRegionId accB.1.regions = freshRegionId accA.1.regions := by
              rw [hre]
            exact ⟨hcountries, by rw [hBreg, hAreg, hre, hsr], hloc,
              by rw [hBcre, hAcre, hcr, hfresh]⟩

theorem synthFold_congr (cache : CountryCache) (ss lg : Nat) :
    ∀ (gs : List (String × List Nat)) (accA accB : DB × List (String × Nat)),
      accB.1.countries = accA.1.countries → accB.1.regions = accA.1.regions →
      accB.1.localities = accA.1.localities → accB.2 = accA.2 →
      (gs.foldl (syntheticStep cache ss lg) accB).1.countries
          = (gs.foldl (syntheticStep cache ss lg) accA).1.countries
      ∧ (gs.foldl (syntheticStep cache ss lg) accB).1.regions
          = (gs.foldl (syntheticStep cache ss lg) accA).1.regions
      ∧ (gs.foldl (syntheticStep cache ss lg) accB).1.localities
          = (gs.foldl (syntheticStep cache ss lg) accA).1.localities
      ∧ (gs.foldl (syntheticStep cache ss lg) accB).2
          = (gs.foldl (syntheticStep cache ss lg) accA).2 := by
  intro gs
  induction gs with
  | nil =>
      intro accA accB h1 h2 h3 h4
      exact ⟨h1, h2, h3, h4⟩
  | cons g gs ih =>
      intro accA accB h1 h2 h3 h4
      rw [List.foldl_cons, List.foldl_cons]
      obtain ⟨k1, k2, k3, k4⟩ := syntheticStep_congr cache ss lg accA accB g h1 h2 h3 h4
      exact ih _ _ k1 k2 k3 k4

theorem synthFold_frame (cache : CountryCache) (ss lg : Nat) :
    ∀ (gs : List (String × List Nat)) (acc : DB × List (String × Nat)),
      (gs.foldl (syntheticStep cache ss lg) acc).1.countries = acc.1.countries
      ∧ (gs.foldl (syntheticStep cache ss lg) acc).1.continents = acc.1.continents
      ∧ (gs.foldl (syntheticStep cache ss lg) acc).1.region_types = acc.1.region_types
      ∧ (gs.foldl (syntheticStep cache ss lg) acc).1.locality_types = acc.1.locality_types
      ∧ (gs.foldl (syntheticStep cache ss lg) acc).1.data_sources = acc.1.data_sources
      ∧ (gs.foldl (syntheticStep cache ss lg) acc).1.locality_locations
          = acc.1.locality_locations
      ∧ (gs.foldl (syntheticStep cache ss lg) acc).1.names = acc.1.names := by
  intro gs
  induction gs with
  | nil =>
      intro acc
      exact ⟨rfl, rfl, rfl, rfl, rfl, rfl, rfl⟩
  | cons g gs ih =>
      intro acc
      rw [List.foldl_cons]
      obtain ⟨i1, i2, i3, i4, i5, i6, i7⟩ := ih (syntheticStep cache ss lg acc g)
      obtain ⟨s1, s2, s3, s4, s5, s6, s7⟩ := syntheticStep_frame cache ss lg acc g
      exact ⟨i1.trans s1, i2.trans s2, i3.trans s3, i4.trans s4, i5.trans s5,
        i6.trans s6, i7.trans s7⟩

/-- Synthesis only writes regions and localities among the geo tables,
and only the synthetic-source and locality-group rows among the
auxiliary ones. -/
theorem create_synthetic_regions_frame (db : DB) (cache : CountryCache) :
    (create_synthetic_regions db cache).countries = db.countries
    ∧ (create_synthetic_regions db cache).continents = db.continents
    ∧ (create_synthetic_regions db cache).locality_types = db.locality_types
    ∧ (create_synthetic_regions db cache).locality_locations = db.locality_locations
    ∧ (create_synthetic_regions db cache).names = db.names
    ∧ (create_synthetic_regions db cache).data_sources
        = (ensureSyntheticSource db).1.data_sources
    ∧ (create_synthetic_regions db cache).region_types
        = (ensureLocalityGroupType (ensureSyntheticSource db).1).1.region_types := by
  have e1 := ensureSyntheticSource_geo db
  have e1f := ensureSyntheticSource_frame db
  have e2 := ensureLocalityGroupType_geo (ensureSyntheticSource db).1
  have e2f := ensureLocalityGroupType_frame (ensureSyntheticSource db).1
  simp only [create_synthetic_regions]
  by_cases hz : (orphanGroups (ensureLocalityGroupType (ensureSyntheticSource db).1).1).foldr
      (fun g n => g.2.length + n) 0 = 0
  · rw [if_pos hz]
    exact ⟨e2.2.2.trans e1.2.2, e2f.2.1.trans e1f.2.1, e2f.2.2.1.trans e1f.2.2.1,
      e2f.2.2.2.1.trans e1f.2.2.2.1, e2f.2.2.2.2.trans e1f.2.2.2.2, e2f.1, rfl⟩
  · rw [if_neg hz]
    obtain ⟨f1, f2, f3, f4, f5, f6, f7⟩ := synthFold_frame cache
      (ensureSyntheticSource db).2 (ensureLocalityGroupType (ensureSyntheticSource db).1).2
      ((orphanGroups (ensureLocalityGroupType (ensureSyntheticSource db).1).1).mergeSort
        (fun a b => decide (b.2.length ≤ a.2.length)))
      ((ensureLocalityGroupType (ensureSyntheticSource db).1).1, [])
    exact ⟨f1.trans (e2.2.2.trans e1.2.2), f2.trans (e2f.2.1.trans e1f.2.1),
      f4.trans (e2f.2.2.1.trans e1f.2.2.1), f6.trans (e2f.2.2.2.1.trans e1f.2.2.2.1),
      f7.trans (e2f.2.2.2.2.trans e1f.2.2.2.2), f5.trans e2f.1, f3⟩

/-- A second synthesis run, starting from the same geo tables and from
the auxiliary rows the first run left behind, produces the same geo
tables. -/
theorem create_synthetic_regions_congr (dbA dbB : DB) (cache : CountryCache)
    (hco : dbB.countries = dbA.countries) (hre : dbB.regions = dbA.regions)
    (hlo : dbB.localities = dbA.localities)
    (hds : dbB.data_sources = (ensureSyntheticSource dbA).1.data_sources)
    (hrt : dbB.region_types
        = (ensureLocalityGroupType (ensureSyntheticSource dbA).1).1.region_types) :
    (create_synthetic_regions dbB cache).countries
        = (create_synthetic_regions dbA cache).countries
    ∧ (create_synthetic_regions dbB cache).regions
        = (create_synthetic_regions dbA cache).regions
    ∧ (create_synthetic_regions dbB cache).localities
        = (create_synthetic_regions dbA cache).localities := by
  have hss := ensureSyntheticSource_stable dbA dbB hds
  have hlgpreB : (ensureSyntheticSource dbB).1.region_types = dbB.region_types :=
    (ensureSyntheticSource_frame dbB).1
  have hlg := ensureLocalityGroupType_stable (ensureSyntheticSource dbA).1
    (ensureSyntheticSource dbB).1 (by rw [hlgpreB]; exact hrt)
  have gA1 := ensureSyntheticSource_geo dbA
  have gA2 := ensureLocalityGroupType_geo (ensureSyntheticSource dbA).1
  have gB1 := ensureSyntheticSource_geo dbB
  have gB2 := ensureLocalityGroupType_geo (ensureSyntheticSource dbB).1
  have hco2 : (ensureLocalityGroupType (ensureSyntheticSource dbB).1).1.countries
      = (ensureLocalityGroupType (ensureSyntheticSource dbA).1).1.countries := by
    rw [gB2.2.2, gB1.2.2, hco, ← gA1.2.2, ← gA2.2.2]
  have hre2 : (ensureLocalityGroupType (ensureSyntheticSource dbB).1).1.regions
      = (ensureLocalityGroupType (ensureSyntheticSource dbA).1).1.regions := by
    rw [gB2.1, gB1.1, hre, ← gA1.1, ← gA2.1]
  have hlo2 : (ensureLocalityGroupType (ensureSyntheticSource dbB).1).1.localities
      = (ensureLocalityGroupType (ensureSyntheticSource dbA).1).1.localities := by
    rw [gB2.2.1, gB1.2.1, hlo, ← gA1.2.1, ← gA2.2.1]
  have hgroups : orphanGroups (ensureLocalityGroupType (ensureSyntheticSource dbB).1).1
      = orphanGroups (ensureLocalityGroupType (ensureSyntheticSource dbA).1).1 :=
    (geo_congr _ _ hre2 hlo2 hco2).2.2.2.2
  simp only [create_synthetic_regions]
  rw [hgroups, hss.1, hlg.1]
  by_cases hz : (orphanGroups (ensureLocalityGroupType (ensureSyntheticSource dbA).1).1).foldr
      (fun g n => g.2.length + n) 0 = 0
  · rw [if_pos hz, if_pos hz]
    exact ⟨hco2, hre2, hlo2⟩
  · rw [if_neg hz, if_neg hz]
    obtain ⟨k1, k2, k3, -⟩ := synthFold_congr cache (ensureSyntheticSource dbA).2
      (ensureLocalityGroupType (ensureSyntheticSource dbA).1).2
      ((orphanGroups (ensureLocalityGroupType (ensureSyntheticSource dbA).1).1).mergeSort
        (fun a b => decide (b.2.length ≤ a.2.length)))
      ((ensureLocalityGroupType (ensureSyntheticSource dbA).1).1, [])
      ((ensureLocalityGroupType (ensureSyntheticSource dbB).1).1, [])
      hco2 hre2 hlo2 rfl
    exact ⟨k1, k2, k3⟩

/-! ### C5 machinery: remap, override and names congruence -/

theorem remapPair_frame (db : DB) (cache : CountryCache) (s t : String) :
    (remapPair db cache s t).1.locality_locations = db.locality_locations
    ∧ (remapPair db cache s t).1.names = db.names
    ∧ (remapPair db cache s t).1.continents = db.continents
    ∧ (remapPair db cache s t).1.region_types = db.region_types
    ∧ (remapPair db cache s t).1.locality_types = db.locality_types
    ∧ (remapPair db cache s t).1.data_sources = db.data_sources := by
  unfold remapPair
  cases dictGet cache s with
  | none => exact ⟨rfl, rfl, rfl, rfl, rfl, rfl⟩
  | some si =>
      cases dictGet cache t with
      | none => exact ⟨rfl, rfl, rfl, rfl, rfl, rfl⟩
      | some ti => exact ⟨rfl, rfl, rfl, rfl, rfl, rfl⟩

theorem remapPair_congr (dbA dbB : DB) (cache : CountryCache) (s t : String)
    (hco : dbB.countries = dbA.countries)
    (hre : dbB.regions = dbA.regions)
    (hlo : dbB.localities = dbA.localities) :
    (remapPair dbB cache s t).1.countries = (remapPair dbA cache s t).1.countries
    ∧ (remapPair dbB cache s t).1.regions = (remapPair dbA cache s t).1.regions
    ∧ (remapPair dbB cache s t).1.localities = (remapPair dbA cache s t).1.localities
    ∧ (remapPair dbB cache s t).2 = (remapPair dbA cache s t).2 := by
  cases hs : dictGet cache s with
  | none =>
      refine ⟨?_, ?_, ?_, ?_⟩ <;> simp only [remapPair, hs] <;>
        first
          | exact hco
          | exact hre
          | exact hlo
          | rfl
  | some si =>
      cases ht : dictGet cache t with
      | none =>
          refine ⟨?_, ?_, ?_, ?_⟩ <;> simp only [remapPair, hs, ht] <;>
            first
              | exact hco
              | exact hre
              | exact hlo
              | rfl
      | some ti =>
          refine ⟨?_, ?_, ?_, ?_⟩
          · simp only [remapPair, hs, ht]
            rw [hco]
          · simp only [remapPair, hs, ht]
            rw [hre]
          · simp only [remapPair, hs, ht]
            rw [hco, hlo]
          · simp only [remapPair, hs, ht]

theorem remapFold_frame :
    ∀ (pairs : List (String × String)) (acc : DB × CountryCache),
      (pairs.foldl (fun a p => remapPair a.1 a.2 p.1 p.2) acc).1.locality_locations
          = acc.1.locality_locations
      ∧ (pairs.foldl (fun a p => remapPair a.1 a.2 p.1 p.2) acc).1.names = acc.1.names
      ∧ (pairs.foldl (fun a p => remapPair a.1 a.2 p.1 p.2) acc).1.continents
          = acc.1.continents
      ∧ (pairs.foldl (fun a p => remapPair a.1 a.2 p.1 p.2) acc).1.region_types
          = acc.1.region_types
      ∧ (pairs.foldl (fun a p => remapPair a.1 a.2 p.1 p.2) acc).1.locality_types
          = acc.1.locality_types
      ∧ (pairs.foldl (fun a p => remapPair a.1 a.2 p.1 p.2) acc).1.data_sources
          = acc.1.data_sources := by
  intro pairs
  induction pairs with
  | nil =>
      intro acc
      exact ⟨rfl, rfl, rfl, rfl, rfl, rfl⟩
  | cons p ps ih =>
      intro acc
      rw [List.foldl_cons]
      obtain ⟨i1, i2, i3, i4, i5, i6⟩ := ih (remapPair acc.1 acc.2 p.1 p.2)
      obtain ⟨s1, s2, s3, s4, s5, s6⟩ := remapPair_frame acc.1 acc.2 p.1 p.2
      exact ⟨i1.trans s1, i2.trans s2, i3.trans s3, i4.trans s4, i5.trans s5, i6.trans s6⟩

theorem remapFold_congr :
    ∀ (pairs : List (String × String)) (accA accB : DB × CountryCache),
      accB.1.countries = accA.1.countries → accB.1.regions = accA.1.regions →
      accB.1.localities = accA.1.localities → accB.2 = accA.2 →
      (pairs.foldl (fun a p => remapPair a.1 a.2 p.1 p.2) accB).1.countries
          = (pairs.foldl (fun a p => remapPair a.1 a.2 p.1 p.2) accA).1.countries
      ∧ (pairs.foldl (fun a p => remapPair a.1 a.2 p.1 p.2) accB).1.regions
          = (pairs.foldl (fun a p => remapPair a.1 a.2 p.1 p.2) accA).1.regions
      ∧ (pairs.foldl (fun a p => remapPair a.1 a.2 p.1 p.2) accB).1.localities
          = (pairs.foldl (fun a p => remapPair a.1 a.2 p.1 p.2) accA).1.localities
      ∧ (pairs.foldl (fun a p => remapPair a.1 a.2 p.1 p.2) accB).2
          = (pairs.foldl (fun a p => remapPair a.1 a.2 p.1 p.2) accA).2 := by
  intro pairs
  induction pairs with
  | nil =>
      intro accA accB h1 h2 h3 h4
      exact ⟨h1, h2, h3, h4⟩
  | cons p ps ih =>
      intro accA accB h1 h2 h3 h4
      rw [List.foldl_cons, List.foldl_cons, h4]
      have hstep := remapPair_congr accA.1 accB.1 accA.2 p.1 p.2 h1 h2 h3
      exact ih _ _ hstep.1 hstep.2.1 hstep.2.2.1 hstep.2.2.2

theorem remap_disputed_congr (dbA dbB : DB) (cache : CountryCache)
    (hco : dbB.countries = dbA.countries) (hre : dbB.regions = dbA.regions)
    (hlo : dbB.localities = dbA.localities) :
    (remap_disputed_territories dbB cache).1.countries
        = (remap_disputed_territories dbA cache).1.countries
    ∧ (remap_disputed_territories dbB cache).1.regions
        = (remap_disputed_territories dbA cache).1.regions
    ∧ (remap_disputed_territories dbB cache).1.localities
        = (remap_disputed_territories dbA cache).1.localities
    ∧ (remap_disputed_territories dbB cache).2 = (remap_disputed_territories dbA cache).2 :=
  remapFold_congr COUNTRY_REMAPPING (dbA, cache) (dbB, cache) hco hre hlo rfl

theorem remap_disputed_frame (db : DB) (cache : CountryCache) :
    (remap_disputed_territories db cache).1.locality_locations = db.locality_locations
    ∧ (remap_disputed_territories db cache).1.names = db.names
    ∧ (remap_disputed_territories db cache).1.continents = db.continents
    ∧ (remap_disputed_territories db cache).1.region_types = db.region_types
    ∧ (remap_disputed_territories db cache).1.locality_types = db.locality_types
    ∧ (remap_disputed_territories db cache).1.data_sources = db.data_sources :=
  remapFold_frame COUNTRY_REMAPPING (db, cache)

theorem override_jerusalem_frame (db : DB) :
    (override_jerusalem_region db).countries = db.countries
    ∧ (override_jerusalem_region db).regions = db.regions
    ∧ (override_jerusalem_region db).locality_locations = db.locality_locations
    ∧ (override_jerusalem_region db).names = db.names
    ∧ (override_jerusalem_region db).continents = db.continents
    ∧ (override_jerusalem_region db).region_types = db.region_types
    ∧ (override_jerusalem_region db).locality_types = db.locality_types
    ∧ (override_jerusalem_region db).data_sources = db.data_sources := by
  unfold override_jerusalem_region
  cases db.regions.find? (fun r => r.code == "IL-JERUSALEM-DISTRICT") with
  | none => exact ⟨rfl, rfl, rfl, rfl, rfl, rfl, rfl, rfl⟩
  | some jr =>
      cases db.regions.find? (fun r => r.code == "IL-JUDEA-SAMARIA") with
      | none => exact ⟨rfl, rfl, rfl, rfl, rfl, rfl, rfl, rfl⟩
      | some js => exact ⟨rfl, rfl, rfl, rfl, rfl, rfl, rfl, rfl⟩

theorem override_jerusalem_congr (dbA dbB : DB)
    (hco : dbB.countries = dbA.countries) (hre : dbB.regions = dbA.regions)
    (hlo : dbB.localities = dbA.localities) :
    (override_jerusalem_region dbB).localities
        = (override_jerusalem_region dbA).localities := by
  unfold override_jerusalem_region
  rw [hre]
  cases dbA.regions.find? (fun r => r.code == "IL-JERUSALEM-DISTRICT") with
  | none => exact hlo
  | some jr =>
      cases dbA.regions.find? (fun r => r.code == "IL-JUDEA-SAMARIA") with
      | none => exact hlo
      | some js =>
          simp only []
          rw [hco, hlo]

theorem import_names_congr (dbA dbB : DB) (rows : List DivisionRow) (sid : Nat)
    (hco : dbB.countries = dbA.countries) (hre : dbB.regions = dbA.regions)
    (hlo : dbB.localities = dbA.localities) (hn : dbB.names = dbA.names) :
    (import_names dbB rows sid).names = (import_names dbA rows sid).names := by
  simp only [import_names]
  rw [hco, hre, hlo, hn]

/-! ### C5 machinery: projection equations for the remaining steps -/

theorem reset_tables_frame (db : DB) :
    (reset_tables db).continents = db.continents
    ∧ (reset_tables db).region_types = db.region_types
    ∧ (reset_tables db).locality_types = db.locality_types
    ∧ (reset_tables db).data_sources = db.data_sources
    ∧ (reset_tables db).countries = []
    ∧ (reset_tables db).regions = []
    ∧ (reset_tables db).localities = []
    ∧ (reset_tables db).locality_locations = []
    ∧ (reset_tables db).names = [] := by
  refine ⟨?_, ?_, ?_, ?_, ?_, ?_, ?_, ?_, ?_⟩ <;> rfl

theorem import_countries_frame (db : DB) (rows : List DivisionRow) (sid : Nat) :
    (import_countries db rows sid).1.regions = db.regions
    ∧ (import_countries db rows sid).1.localities = db.localities
    ∧ (import_countries db rows sid).1.locality_locations = db.locality_locations
    ∧ (import_countries db rows sid).1.names = db.names
    ∧ (import_countries db rows sid).1.region_types = db.region_types
    ∧ (import_countries db rows sid).1.locality_types = db.locality_types
    ∧ (import_countries db rows sid).1.data_sources = db.data_sources := by
  refine ⟨?_, ?_, ?_, ?_, ?_, ?_, ?_⟩ <;> rfl

theorem import_regions_frame (db : DB) (rows : List DivisionRow) (sid : Nat)
    (cache : CountryCache) :
    (import_regions db rows sid cache).countries = db.countries
    ∧ (import_regions db rows sid cache).localities = db.localities
    ∧ (import_regions db rows sid cache).locality_locations = db.locality_locations
    ∧ (import_regions db rows sid cache).names = db.names
    ∧ (import_regions db rows sid cache).continents = db.continents
    ∧ (import_regions db rows sid cache).region_types = db.region_types
    ∧ (import_regions db rows sid cache).locality_types = db.locality_types
    ∧ (import_regions db rows sid cache).data_sources = db.data_sources := by
  refine ⟨?_, ?_, ?_, ?_, ?_, ?_, ?_, ?_⟩ <;> rfl

theorem import_localities_frame (db : DB) (rows : List DivisionRow) (sid : Nat)
    (cache : CountryCache) :
    (import_localities db rows sid cache).db.countries = db.countries
    ∧ (import_localities db rows sid cache).db.regions = db.regions
    ∧ (import_localities db rows sid cache).db.names = db.names
    ∧ (import_localities db rows sid cache).db.continents = db.continents
    ∧ (import_localities db rows sid cache).db.region_types = db.region_types
    ∧ (import_localities db rows sid cache).db.locality_types = db.locality_types
    ∧ (import_localities db rows sid cache).db.data_sources = db.data_sources := by
  refine ⟨?_, ?_, ?_, ?_, ?_, ?_, ?_⟩ <;> rfl

theorem import_names_frame (db : DB) (rows : List DivisionRow) (sid : Nat) :
    (import_names db rows sid).countries = db.countries
    ∧ (import_names db rows sid).regions = db.regions
    ∧ (import_names db rows sid).localities = db.localities
    ∧ (import_names db rows sid).locality_locations = db.locality_locations
    ∧ (import_names db rows sid).continents = db.continents
    ∧ (import_names db rows sid).region_types = db.region_types
    ∧ (import_names db rows sid).locality_types = db.locality_types
    ∧ (import_names db rows sid).data_sources = db.data_sources := by
  refine ⟨?_, ?_, ?_, ?_, ?_, ?_, ?_, ?_⟩ <;> rfl

/-! ### Claim C5: the pipeline is deterministic across a re-run -/

/-- C5: running the full pipeline a second time over the same source
rows, starting from the state the first run left behind, reproduces
exactly the same five geo tables (hence the same counts and the same
entity set): the reset phase truncates all geo tables, and the only
surviving state — the auxiliary continent, region-type and data-source
rows the first run may have created — is found, not re-created, by the
second run, yielding the same surrogate ids. -/
theorem run_import_deterministic (db : DB) (rows : List DivisionRow) :
    (run_import (run_import db rows) rows).countries = (run_import db rows).countries
    ∧ (run_import (run_import db rows) rows).regions = (run_import db rows).regions
    ∧ (run_import (run_import db rows) rows).localities = (run_import db rows).localities
    ∧ (run_import (run_import db rows) rows).locality_locations
        = (run_import db rows).locality_locations
    ∧ (run_import (run_import db rows) rows).names = (run_import db rows).names := by
  simp only [run_import]
  set sidA : Nat := overtureSourceId db with hsidAdef
  set db0A : DB := reset_tables db with hdb0A
  set p1A : DB × CountryCache := import_countries db0A rows sidA with hp1A
  set db2A : DB := import_regions p1A.1 rows sidA p1A.2 with hdb2A
  set db3A : DB := (import_localities db2A rows sidA p1A.2).db with hdb3A
  set db4A : DB := create_synthetic_regions db3A p1A.2 with hdb4A
  set p5A : DB × CountryCache := remap_disputed_territories db4A p1A.2 with hp5A
  set db6A : DB := override_jerusalem_region p5A.1 with hdb6A
  set A : DB := import_names db6A rows sidA with hA
  set sidB : Nat := overtureSourceId A with hsidBdef
  set db0B : DB := reset_tables A with hdb0B
  set p1B : DB × CountryCache := import_countries db0B rows sidB with hp1B
  set db2B : DB := import_regions p1B.1 rows sidB p1B.2 with hdb2B
  set db3B : DB := (import_localities db2B rows sidB p1B.2).db with hdb3B
  set db4B : DB := create_synthetic_regions db3B p1B.2 with hdb4B
  set p5B : DB × CountryCache := remap_disputed_territories db4B p1B.2 with hp5B
  set db6B : DB := override_jerusalem_region p5B.1 with hdb6B
  set B : DB := import_names db6B rows sidB with hB
  show B.countries = A.countries ∧ B.regions = A.regions ∧ B.localities = A.localities
    ∧ B.locality_locations = A.locality_locations ∧ B.names = A.names
  -- run-1 auxiliary-table bookkeeping
  have hcontA : A.continents = (ensureUnmappedContinent db.continents).1 := by
    rw [hA, (import_names_frame db6A rows sidA).2.2.2.2.1,
      hdb6A, (override_jerusalem_frame p5A.1).2.2.2.2.1,
      hp5A, (remap_disputed_frame db4A p1A.2).2.2.1,
      hdb4A, (create_synthetic_regions_frame db3A p1A.2).2.1,
      hdb3A, (import_localities_frame db2A rows sidA p1A.2).2.2.2.1,
      hdb2A, (import_regions_frame p1A.1 rows sidA p1A.2).2.2.2.2.1,
      hp1A, import_countries_continents db0A rows sidA,
      hdb0A, (reset_tables_frame db).1]
  have hrtA : A.region_types
      = (ensureLocalityGroupType (ensureSyntheticSource db3A).1).1.region_types := by
    rw [hA, (import_names_frame db6A rows sidA).2.2.2.2.2.1,
      hdb6A, (override_jerusalem_frame p5A.1).2.2.2.2.2.1,
      hp5A, (remap_disputed_frame db4A p1A.2).2.2.2.1,
      hdb4A, (create_synthetic_regions_frame db3A p1A.2).2.2.2.2.2.2]
  have hdsA : A.data_sources = (ensureSyntheticSource db3A).1.data_sources := by
    rw [hA, (import_names_frame db6A rows sidA).2.2.2.2.2.2.2,
      hdb6A, (override_jerusalem_frame p5A.1).2.2.2.2.2.2.2,
      hp5A, (remap_disputed_frame db4A p1A.2).2.2.2.2.2,
      hdb4A, (create_synthetic_regions_frame db3A p1A.2).2.2.2.2.2.1]
  have hltA : A.locality_types = db.locality_types := by
    rw [hA, (import_names_frame db6A rows sidA).2.2.2.2.2.2.1,
      hdb6A, (override_jerusalem_frame p5A.1).2.2.2.2.2.2.1,
      hp5A, (remap_disputed_frame db4A p1A.2).2.2.2.2.1,
      hdb4A, (create_synthetic_regions_frame db3A p1A.2).2.2.1,
      hdb3A, (import_localities_frame db2A rows sidA p1A.2).2.2.2.2.2.1,
      hdb2A, (import_regions_frame p1A.1 rows sidA p1A.2).2.2.2.2.2.2.1,
      hp1A, (import_countries_frame db0A rows sidA).2.2.2.2.2.1,
      hdb0A, (reset_tables_frame db).2.2.1]
  -- the overture source id is looked up identically
  have hsid : sidB = sidA := by
    rw [hsidBdef, hsidAdef]
    have hfind : A.data_sources.find? (fun d => d.key == "overture")
        = db.data_sources.find? (fun d => d.key == "overture") := by
      rw [overture_source_stable db3A A hdsA]
      rw [hdb3A, (import_localities_frame db2A rows sidA p1A.2).2.2.2.2.2.2,
        hdb2A, (import_regions_frame p1A.1 rows sidA p1A.2).2.2.2.2.2.2.2,
        hp1A, (import_countries_frame db0A rows sidA).2.2.2.2.2.2,
        hdb0A, (reset_tables_frame db).2.2.2.1]
    unfold overtureSourceId
    rw [hfind]
  -- step 3: countries
  have hcs0 : db0B.countries = db0A.countries := by
    rw [hdb0B, hdb0A, (reset_tables_frame A).2.2.2.2.1, (reset_tables_frame db).2.2.2.2.1]
  have hct : db0B.continents = (ensureUnmappedContinent db0A.continents).1 := by
    rw [hdb0B, (reset_tables_frame A).1, hcontA, hdb0A, (reset_tables_frame db).1]
  have hstab := import_countries_stable db0A db0B rows sidA hcs0 hct
  have H_cache : p1B.2 = p1A.2 := by
    rw [hp1B, hsid, hp1A]
    exact hstab.2.1
  have H_cs : p1B.1.countries = p1A.1.countries := by
    rw [hp1B, hsid, hp1A]
    exact hstab.1
  -- step 4: regions
  have hrtE : regionTypeEntries p1B.1.region_types = regionTypeEntries p1A.1.region_types
      ∨ ∃ i, regionTypeEntries p1B.1.region_types
          = regionTypeEntries p1A.1.region_types ++ [("locality_group", i)] := by
    have e1 : p1B.1.region_types
        = (ensureLocalityGroupType (ensureSyntheticSource db3A).1).1.region_types := by
      rw [hp1B, (import_countries_frame db0B rows sidB).2.2.2.2.1, hdb0B,
        (reset_tables_frame A).2.1, hrtA]
    have e2 : (ensureSyntheticSource db3A).1.region_types = p1A.1.region_types := by
      rw [(ensureSyntheticSource_frame db3A).1, hdb3A,
        (import_localities_frame db2A rows sidA p1A.2).2.2.2.2.1,
        hdb2A, (import_regions_frame p1A.1 rows sidA p1A.2).2.2.2.2.2.1]
    rcases ensureLocalityGroupType_entries (ensureSyntheticSource db3A).1 with h | ⟨i, h⟩
    · left
      rw [e1, h, e2]
    · right
      exact ⟨i, by rw [e1, h, e2]⟩
  have hreg1 : p1B.1.regions = p1A.1.regions := by
    rw [hp1B, (import_countries_frame db0B rows sidB).1, hdb0B,
      (reset_tables_frame A).2.2.2.2.2.1, hp1A, (import_countries_frame db0A rows sidA).1,
      hdb0A, (reset_tables_frame db).2.2.2.2.2.1]
  have H_reg : db2B.regions = db2A.regions := by
    rw [hdb2B, hdb2A, hsid, H_cache]
    exact import_regions_congr p1A.1 p1B.1 rows sidA p1A.2 hreg1 hrtE
  -- step 5: localities
  have hlt2 : db2B.locality_types = db2A.locality_types := by
    rw [hdb2B, (import_regions_frame p1B.1 rows sidB p1B.2).2.2.2.2.2.2.1,
      hp1B, (import_countries_frame db0B rows sidB).2.2.2.2.2.1,
      hdb0B, (reset_tables_frame A).2.2.1, hltA,
      hdb2A, (import_regions_frame p1A.1 rows sidA p1A.2).2.2.2.2.2.2.1,
      hp1A, (import_countries_frame db0A rows sidA).2.2.2.2.2.1,
      hdb0A, (reset_tables_frame db).2.2.1]
  have hloc2 : db2B.localities = db2A.localities := by
    rw [hdb2B, (import_regions_frame p1B.1 rows sidB p1B.2).2.1,
      hp1B, (import_countries_frame db0B rows sidB).2.1,
      hdb0B, (reset_tables_frame A).2.2.2.2.2.2.1,
      hdb2A, (import_regions_frame p1A.1 rows sidA p1A.2).2.1,
      hp1A, (import_countries_frame db0A rows sidA).2.1,
      hdb0A, (reset_tables_frame db).2.2.2.2.2.2.1]
  have hll2 : db2B.locality_locations = db2A.locality_locations := by
    rw [hdb2B, (import_regions_frame p1B.1 rows sidB p1B.2).2.2.1,
      hp1B, (import_countries_frame db0B rows sidB).2.2.1,
      hdb0B, (reset_tables_frame A).2.2.2.2.2.2.2.1,
      hdb2A, (import_regions_frame p1A.1 rows sidA p1A.2).2.2.1,
      hp1A, (import_countries_frame db0A rows sidA).2.2.1,
      hdb0A, (reset_tables_frame db).2.2.2.2.2.2.2.1]
  have hloc := import_localities_congr db2A db2B rows sidA p1A.2 hloc2 hlt2 hll2
  have H_loc3 : db3B.localities = db3A.localities := by
    rw [hdb3B, hdb3A, hsid, H_cache]
    exact hloc.1
  have H_ll3 : db3B.locality_locations = db3A.locality_locations := by
    rw [hdb3B, hdb3A, hsid, H_cache]
    exact hloc.2
  have H_co3 : db3B.countries = db3A.countries := by
    rw [hdb3B, (import_localities_frame db2B rows sidB p1B.2).1,
      hdb2B, (import_regions_frame p1B.1 rows sidB p1B.2).1,
      hdb3A, (import_localities_frame db2A rows sidA p1A.2).1,
      hdb2A, (import_regions_frame p1A.1 rows sidA p1A.2).1]
    exact H_cs
  have H_reg3 : db3B.regions = db3A.regions := by
    rw [hdb3B, (import_localities_frame db2B rows sidB p1B.2).2.1,
      hdb3A, (import_localities_frame db2A rows sidA p1A.2).2.1]
    exact H_reg
  -- step 5c: synthesis
  have hds3B : db3B.data_sources = (ensureSyntheticSource db3A).1.data_sources := by
    rw [hdb3B, (import_localities_frame db2B rows sidB p1B.2).2.2.2.2.2.2,
      hdb2B, (import_regions_frame p1B.1 rows sidB p1B.2).2.2.2.2.2.2.2,
      hp1B, (import_countries_frame db0B rows sidB).2.2.2.2.2.2,
      hdb0B, (reset_tables_frame A).2.2.2.1, hdsA]
  have hrt3B : db3B.region_types
      = (ensureLocalityGroupType (ensureSyntheticSource db3A).1).1.region_types := by
    rw [hdb3B, (import_localities_frame db2B rows sidB p1B.2).2.2.2.2.1,
      hdb2B, (import_regions_frame p1B.1 rows sidB p1B.2).2.2.2.2.2.1,
      hp1B, (import_countries_frame db0B rows sidB).2.2.2.2.1,
      hdb0B, (reset_tables_frame A).2.1, hrtA]
  have hsynth := create_synthetic_regions_congr db3A db3B p1A.2 H_co3 H_reg3 H_loc3
    hds3B hrt3B
  have H4 : db4B.countries = db4A.countries ∧ db4B.regions = db4A.regions
      ∧ db4B.localities = db4A.localities := by
    rw [hdb4B, hdb4A, H_cache]
    exact hsynth
  have H_ll4 : db4B.locality_locations = db4A.locality_locations := by
    rw [hdb4B, hdb4A, (create_synthetic_regions_frame db3B p1B.2).2.2.2.1,
      (create_synthetic_regions_frame db3A p1A.2).2.2.2.1]
    exact H_ll3
  have H_n3 : db3B.names = db3A.names := by
    rw [hdb3B, (import_localities_frame db2B rows sidB p1B.2).2.2.1,
      hdb2B, (import_regions_frame p1B.1 rows sidB p1B.2).2.2.2.1,
      hp1B, (import_countries_frame db0B rows sidB).2.2.2.1,
      hdb0B, (reset_tables_frame A).2.2.2.2.2.2.2.2,
      hdb3A, (import_localities_frame db2A rows sidA p1A.2).2.2.1,
      hdb2A, (import_regions_frame p1A.1 rows sidA p1A.2).2.2.2.1,
      hp1A, (import_countries_frame db0A rows sidA).2.2.2.1,
      hdb0A, (reset_tables_frame db).2.2.2.2.2.2.2.2]
  have H_n4 : db4B.names = db4A.names := by
    rw [hdb4B, hdb4A, (create_synthetic_regions_frame db3B p1B.2).2.2.2.2.1,
      (create_synthetic_regions_frame db3A p1A.2).2.2.2.2.1]
    exact H_n3
  -- step 5c': remap
  have hremap := remap_disputed_congr db4A db4B p1A.2 H4.1 H4.2.1 H4.2.2
  have H5 : p5B.1.countries = p5A.1.countries ∧ p5B.1.regions = p5A.1.regions
      ∧ p5B.1.localities = p5A.1.localities ∧ p5B.2 = p5A.2 := by
    rw [hp5B, hp5A, H_cache]
    exact hremap
  have H_ll5 : p5B.1.locality_locations = p5A.1.locality_locations := by
    rw [hp5B, hp5A, (remap_disputed_frame db4B p1B.2).1,
      (remap_disputed_frame db4A p1A.2).1]
    exact H_ll4
  have H_n5 : p5B.1.names = p5A.1.names := by
    rw [hp5B, hp5A, (remap_disputed_frame db4B p1B.2).2.1,
      (remap_disputed_frame db4A p1A.2).2.1]
    exact H_n4
  -- step 6: the Jerusalem override
  have H_loc6 : db6B.localities = db6A.localities := by
    rw [hdb6B, hdb6A]
    exact override_jerusalem_congr p5A.1 p5B.1 H5.1 H5.2.1 H5.2.2.1
  have H_co6 : db6B.countries = db6A.countries := by
    rw [hdb6B, hdb6A, (override_jerusalem_frame p5B.1).1, (override_jerusalem_frame p5A.1).1]
    exact H5.1
  have H_re6 : db6B.regions = db6A.regions := by
    rw [hdb6B, hdb6A, (override_jerusalem_frame p5B.1).2.1,
      (override_jerusalem_frame p5A.1).2.1]
    exact H5.2.1
  have H_ll6 : db6B.locality_locations = db6A.locality_locations := by
    rw [hdb6B, hdb6A, (override_jerusalem_frame p5B.1).2.2.1,
      (override_jerusalem_frame p5A.1).2.2.1]
    exact H_ll5
  have H_n6 : db6B.names = db6A.names := by
    rw [hdb6B, hdb6A, (override_jerusalem_frame p5B.1).2.2.2.1,
      (override_jerusalem_frame p5A.1).2.2.2.1]
    exact H_n5
  -- step 7: names
  have H_names : B.names = A.names := by
    rw [hB, hA, hsid]
    exact import_names_congr db6A db6B rows sidA H_co6 H_re6 H_loc6 H_n6
  refine ⟨?_, ?_, ?_, ?_, H_names⟩
  · rw [hB, hA, (import_names_frame db6B rows sidB).1, (import_names_frame db6A rows sidA).1]
    exact H_co6
  · rw [hB, hA, (import_names_frame db6B rows sidB).2.1,
      (import_names_frame db6A rows sidA).2.1]
    exact H_re6
  · rw [hB, hA, (import_names_frame db6B rows sidB).2.2.1,
      (import_names_frame db6A rows sidA).2.2.1]
    exact H_loc6
  · rw [hB, hA, (import_names_frame db6B rows sidB).2.2.2.1,
      (import_names_frame db6A rows sidA).2.2.2.1]
    exact H_ll6

end Overture
